import Mathlib

/-! # ISAAC array front end (`lib/array.cpp`): shallow embedding

Arrays are records of dtype, shape, start, stride, context and buffer handle, as the member
initialiser lists of `array_base` set them.  `int_t` values are mathematical integers.  Every
function that can `assert`, `throw`, or read a `shape_t` past its end returns `Except Error _`.
-/

namespace Isaac

/-! ## Failures -/

/-- Ways a builder of `array.cpp` can fail.  `outOfBounds` is a read `s[i]` of a `shape_t`, or
of the node arena of a tree, with `i ≥ s.size()`, which C++ leaves undefined;
`nontermination` is a loop that has not ended when the fuel of its model is spent;
`dtypeMismatch` is a failed `assert(dtype_ == rhs.dtype())`. -/
inductive Error
  | dimensionality
  | shapeMismatch
  | outOfRange
  | unknownDatatype
  | outOfBounds
  | nontermination
  | dtypeMismatch
  deriving DecidableEq, Repr

instance instDecidableEqExcept {ε α : Type} [DecidableEq ε] [DecidableEq α] :
    DecidableEq (Except ε α) := fun x y =>
  match x, y with
  | .ok a, .ok b => if h : a = b then isTrue (by rw [h]) else isFalse (fun h2 => h (by cases h2; rfl))
  | .error a, .error b =>
    if h : a = b then isTrue (by rw [h]) else isFalse (fun h2 => h (by cases h2; rfl))
  | .ok _, .error _ => isFalse (fun h => by cases h)
  | .error _, .ok _ => isFalse (fun h => by cases h)

/-! ## Data model -/

/-- The `numeric_type` enumerators this file dispatches on; `OTHER` stands for every further
enumerator of the header (the `default:` branch of each switch). -/
inductive numeric_type
  | CHAR_TYPE | UCHAR_TYPE | SHORT_TYPE | USHORT_TYPE | INT_TYPE | UINT_TYPE
  | LONG_TYPE | ULONG_TYPE | FLOAT_TYPE | DOUBLE_TYPE
  | OTHER (tag : Nat)
  deriving DecidableEq, Repr

/-- A `driver::Context` handle. -/
abbrev Context := Nat

/-- A `driver::Buffer`: the context it is bound to and the identity of the device allocation. -/
structure Buffer where
  context : Context
  handle : Nat
  deriving DecidableEq, Repr

/-- The sequence type `shape_t`, used for both shapes and strides. -/
abbrev shape_t := List Int

/-- Read `s[i]` of a `shape_t`; a read at `i ≥ s.size()` is reported as `outOfBounds`. -/
def idx (s : shape_t) (i : Nat) : Except Error Int :=
  match s.get? i with
  | some v => .ok v
  | none => .error .outOfBounds

/-- Modelled from the spec: `slice` is declared in `isaac/array.h`, which is not among the
sources.  The spec describes a slice of an axis by its start offset, its step and its resulting
length; `array.cpp` reads the fields `start` and `stride` and obtains the length from
`size(bound)`, called with the parent's dimension.  The body of `size` is kept as a field. -/
structure slice where
  start : Int
  stride : Int
  size : Int → Int

/-- The data members of `array_base` (the cached transpose expression `T` is `trans(*this)`
and carries no further information). -/
structure array_base where
  dtype_ : numeric_type
  shape_ : shape_t
  start_ : Int
  stride_ : shape_t
  context_ : Context
  data_ : Buffer
  deriving DecidableEq, Repr

/-- `array_base::dim()`. -/
def array_base.dim (x : array_base) : Int := (x.shape_.length : Int)

/-! ## Constructors

A fresh allocation `data_(context_, dsize())` is a buffer of the given context with a handle
`fresh` chosen by the driver. -/

/-- `array_base(int_t shape0, numeric_type, Context)`, line 45. -/
def array_base.new1 (shape0 : Int) (dtype : numeric_type) (context : Context) (fresh : Nat) :
    array_base :=
  ⟨dtype, [shape0], 0, [1], context, ⟨context, fresh⟩⟩

/-- `array_base(int_t shape0, numeric_type, Buffer, int_t start, int_t inc)`, line 51. -/
def array_base.wrap1 (shape0 : Int) (dtype : numeric_type) (data : Buffer) (start inc : Int) :
    array_base :=
  ⟨dtype, [shape0], start, [inc], data.context, data⟩

/-- `array_base(std::vector<DT> const & x, Context)`, line 58; `dtype` is
`to_numeric_type<DT>::value` and `n` is `x.size()`. -/
def array_base.ofVector (n : Nat) (dtype : numeric_type) (context : Context) (fresh : Nat) :
    array_base :=
  ⟨dtype, [(n : Int)], 0, [1], context, ⟨context, fresh⟩⟩

/-- `array_base(array_base & v, slice const & s0)`, line 64. -/
def array_base.ofSlice (v : array_base) (s0 : slice) : Except Error array_base := do
  let shape0 ← idx v.shape_ 0
  let stride0 ← idx v.stride_ 0
  pure ⟨v.dtype_, [s0.size shape0], v.start_ + stride0 * s0.start, [stride0 * s0.stride],
    v.context_, v.data_⟩

/-- `array_base(int_t shape0, int_t shape1, numeric_type, Context)`, line 85. -/
def array_base.new2 (shape0 shape1 : Int) (dtype : numeric_type) (context : Context)
    (fresh : Nat) : array_base :=
  ⟨dtype, [shape0, shape1], 0, [1, shape0], context, ⟨context, fresh⟩⟩

/-- `array_base(int_t shape0, int_t shape1, numeric_type, Buffer, int_t start, int_t ld)`,
line 91. -/
def array_base.wrap2 (shape0 shape1 : Int) (dtype : numeric_type) (data : Buffer)
    (start ld : Int) : array_base :=
  ⟨dtype, [shape0, shape1], start, [1, ld], data.context, data⟩

/-- `array_base(array_base & M, slice const & s0, slice const & s1)`, line 96. -/
def array_base.ofSlice2 (M : array_base) (s0 s1 : slice) : Except Error array_base := do
  let shape0 ← idx M.shape_ 0
  let shape1 ← idx M.shape_ 1
  let stride0 ← idx M.stride_ 0
  let stride1 ← idx M.stride_ 1
  pure ⟨M.dtype_, [s0.size shape0, s1.size shape1],
    M.start_ + stride0 * s0.start + s1.start * stride1,
    [stride0 * s0.stride, stride1 * s1.stride], M.data_.context, M.data_⟩

/-- `array_base(int_t shape0, int_t shape1, std::vector<DT> const &, Context)`, line 106. -/
def array_base.ofVector2 (shape0 shape1 : Int) (dtype : numeric_type) (context : Context)
    (fresh : Nat) : array_base :=
  ⟨dtype, [shape0, shape1], 0, [1, shape0], context, ⟨context, fresh⟩⟩

/-- `array_base(int_t shape0, int_t shape1, int_t shape2, numeric_type, Context)`, line 116:
the stride is initialised with `stride_(1, shape0)`. -/
def array_base.new3 (shape0 shape1 shape2 : Int) (dtype : numeric_type) (context : Context)
    (fresh : Nat) : array_base :=
  ⟨dtype, [shape0, shape1, shape2], 0, [1, shape0], context, ⟨context, fresh⟩⟩

/-- `array_base(numeric_type, shape_t const & shape, int_t start, shape_t const & stride,
Context)`, line 138. -/
def array_base.ofShapeStartStride (dtype : numeric_type) (shape : shape_t) (start : Int)
    (stride : shape_t) (context : Context) (fresh : Nat) : array_base :=
  ⟨dtype, shape, start, stride, context, ⟨context, fresh⟩⟩

/-- `array_base(numeric_type, shape_t const & shape, Context)`, line 143: delegates with start
`0` and stride `{1, shape[0]}`. -/
def array_base.ofShape (dtype : numeric_type) (shape : shape_t) (context : Context)
    (fresh : Nat) : Except Error array_base := do
  let shape0 ← idx shape 0
  pure (array_base.ofShapeStartStride dtype shape 0 [1, shape0] context fresh)

/-! ## Expression trees -/

/-- The operator families named in `array.cpp`. -/
inductive operation_type_family
  | UNARY_TYPE_FAMILY | BINARY_TYPE_FAMILY | VECTOR_DOT_TYPE_FAMILY | ROWS_DOT_TYPE_FAMILY
  | COLUMNS_DOT_TYPE_FAMILY | MATRIX_PRODUCT_TYPE_FAMILY
  deriving DecidableEq, Repr

/-- The operation codes named in `array.cpp`. -/
inductive operation_type
  | INVALID_TYPE | ASSIGN_TYPE | ADD_TYPE | SUB_TYPE | MULT_TYPE | DIV_TYPE | NEGATE_TYPE
  | ACCESS_INDEX_TYPE | ELEMENT_MAX_TYPE | ELEMENT_MIN_TYPE | ELEMENT_POW_TYPE
  | ELEMENT_GREATER_TYPE | ELEMENT_GEQ_TYPE | ELEMENT_LESS_TYPE | ELEMENT_LEQ_TYPE
  | ELEMENT_EQ_TYPE | ELEMENT_NEQ_TYPE | OUTER_PROD_TYPE | ELEMENT_PROD_TYPE
  | FABS_TYPE | ABS_TYPE | ACOS_TYPE | ASIN_TYPE | ATAN_TYPE | CEIL_TYPE | COS_TYPE | COSH_TYPE
  | EXP_TYPE | FLOOR_TYPE | LOG_TYPE | LOG10_TYPE | SIN_TYPE | SINH_TYPE | SQRT_TYPE | TAN_TYPE
  | TANH_TYPE
  | CAST_CHAR_TYPE | CAST_UCHAR_TYPE | CAST_SHORT_TYPE | CAST_USHORT_TYPE | CAST_INT_TYPE
  | CAST_UINT_TYPE | CAST_LONG_TYPE | CAST_ULONG_TYPE | CAST_FLOAT_TYPE | CAST_DOUBLE_TYPE
  | VDIAG_TYPE | TRANS_TYPE | REPEAT_TYPE | RESHAPE_TYPE | MATRIX_ROW_TYPE | MATRIX_COLUMN_TYPE
  | ELEMENT_ARGMAX_TYPE | ELEMENT_ARGMIN_TYPE
  | MATRIX_PRODUCT_NN_TYPE | MATRIX_PRODUCT_NT_TYPE | MATRIX_PRODUCT_TN_TYPE
  | MATRIX_PRODUCT_TT_TYPE
  | OPERATOR_FUSE | SFOR_TYPE
  deriving DecidableEq, Repr

/-- The operator descriptor `op_element(family, type)`. -/
structure op_element where
  type_family : operation_type_family
  type : operation_type
  deriving DecidableEq, Repr

/-- Modelled from the spec: `value_scalar` is declared outside the sources; a host value with
its dtype.  The value is the rational number that a finite integer or floating-point value
denotes. -/
structure value_scalar where
  dtype : numeric_type
  value : Rat
  deriving DecidableEq, Repr

/-- Modelled from the spec: the operand of a node (`tree_node`, declared outside the sources) is
the empty sentinel `invalid_node()`, the index of a node of the same tree
(`COMPOSITE_OPERATOR_TYPE`, field `node_index`), a literal value, a reference to an array or
view, or a symbolic loop index.  The result of `make_tuple(context, ...)`, declared in
`isaac/tuple.h`, is carried as one literal operand `tuple` holding the packed integers. -/
inductive tree_node
  | invalid
  | composite (node_index : Nat)
  | value (v : value_scalar)
  | dense_array (a : array_base)
  | for_idx (level : Int)
  | tuple (xs : List Int)
  deriving DecidableEq, Repr

/-- Modelled from the spec: a node `expression_tree::node` holds an operator descriptor and a
left and a right operand. -/
structure node where
  lhs : tree_node
  op : op_element
  rhs : tree_node
  deriving DecidableEq, Repr

/-- Modelled from the spec: an `expression_tree` owns an arena of nodes, a root index, and the
context, dtype and shape of its result, fixed when the root node is created. -/
structure expression_tree where
  tree_ : List node
  root_ : Nat
  context_ : Context
  dtype_ : numeric_type
  shape_ : shape_t
  deriving DecidableEq, Repr

/-- `expression_tree::dim()`. -/
def expression_tree.dim (x : expression_tree) : Int := (x.shape_.length : Int)

/-- Move a composite operand by `k` arena slots. -/
def tree_node.shift (k : Nat) : tree_node → tree_node
  | .composite i => .composite (i + k)
  | t => t

/-- Move both operands of a node by `k` arena slots. -/
def node.shift (k : Nat) (n : node) : node :=
  ⟨n.lhs.shift k, n.op, n.rhs.shift k⟩

/-- Modelled from the spec: the constructor `expression_tree(lhs, rhs, op, context, dtype,
shape)` for two operands that are not trees allocates the one node referencing them. -/
def expression_tree.ofLeaves (lhs rhs : tree_node) (op : op_element) (context : Context)
    (dtype : numeric_type) (shape : shape_t) : expression_tree :=
  ⟨[⟨lhs, op, rhs⟩], 0, context, dtype, shape⟩

/-- Modelled from the spec: the constructor for a tree on the left embeds the nodes of `lhs`
in the arena and appends the new root, whose left operand is the root of `lhs`. -/
def expression_tree.ofTreeLeaf (lhs : expression_tree) (rhs : tree_node) (op : op_element)
    (context : Context) (dtype : numeric_type) (shape : shape_t) : expression_tree :=
  ⟨lhs.tree_ ++ [⟨.composite lhs.root_, op, rhs⟩], lhs.tree_.length, context, dtype, shape⟩

/-- Modelled from the spec: the constructor for a tree on the right embeds the nodes of `rhs`
and appends the new root, whose right operand is the root of `rhs`. -/
def expression_tree.ofLeafTree (lhs : tree_node) (rhs : expression_tree) (op : op_element)
    (context : Context) (dtype : numeric_type) (shape : shape_t) : expression_tree :=
  ⟨rhs.tree_ ++ [⟨lhs, op, .composite rhs.root_⟩], rhs.tree_.length, context, dtype, shape⟩

/-- Modelled from the spec: the constructor for two trees embeds the nodes of `lhs`, then the
nodes of `rhs` moved past them, and appends the new root referencing both roots. -/
def expression_tree.ofTrees (lhs rhs : expression_tree) (op : op_element) (context : Context)
    (dtype : numeric_type) (shape : shape_t) : expression_tree :=
  ⟨lhs.tree_ ++ rhs.tree_.map (node.shift lhs.tree_.length) ++
      [⟨.composite lhs.root_, op, .composite (rhs.root_ + lhs.tree_.length)⟩],
    lhs.tree_.length + rhs.tree_.length, context, dtype, shape⟩

/-- The root node `tree()[root()]` of a tree. -/
def expression_tree.rootNode (x : expression_tree) : Option node := x.tree_.get? x.root_

/-- `array_base(execution_handler const & other)`, line 146, on the tree `other.x()`: the
stride is initialised with `stride_(1, shape_[0])`. -/
def array_base.ofExecutionHandler (x : expression_tree) (fresh : Nat) :
    Except Error array_base := do
  let shape0 ← idx x.shape_ 0
  pure ⟨x.dtype_, x.shape_, 0, [1, shape0], x.context_, ⟨x.context_, fresh⟩⟩

/-! ## Scalars, views and indexing -/

/-- `scalar::scalar(numeric_type dtype, Buffer const & data, int_t offset)`, line 377. -/
def scalar.ofBuffer (dtype : numeric_type) (data : Buffer) (offset : Int) : array_base :=
  array_base.wrap1 1 dtype data offset 1

/-- `view::view(array_base & data, slice const & s1)`, line 359. -/
def view.ofSlice (data : array_base) (s1 : slice) : Except Error array_base :=
  array_base.ofSlice data s1

/-- `view::view(array_base & data, slice const & s1, slice const & s2)`, line 360. -/
def view.ofSlice2 (data : array_base) (s1 s2 : slice) : Except Error array_base :=
  array_base.ofSlice2 data s1 s2

/-- `view::view(int_t size1, numeric_type, Buffer, int_t start, int_t inc)`, line 361. -/
def view.ofBuffer (size1 : Int) (dtype : numeric_type) (data : Buffer) (start inc : Int) :
    array_base :=
  array_base.wrap1 size1 dtype data start inc

/-- `array_base::operator[](int_t idx)`, lines 300 and 306. -/
def array_base.subscript (x : array_base) (i : Int) : Except Error array_base :=
  if x.dim ≤ 1 then .ok (scalar.ofBuffer x.dtype_ x.data_ (x.start_ + i))
  else .error .dimensionality

/-- `array_base::operator[](slice const & e1)`, line 312. -/
def array_base.subscriptSlice (x : array_base) (e1 : slice) : Except Error array_base :=
  if x.dim ≤ 1 then view.ofSlice x e1 else .error .dimensionality

/-- `array_base::operator()(int_t i, int_t j)`, line 318. -/
def array_base.call_ii (x : array_base) (i j : Int) : Except Error array_base :=
  if x.dim = 2 then do
    let stride0 ← idx x.stride_ 0
    let stride1 ← idx x.stride_ 1
    pure (view.ofBuffer 1 x.dtype_ x.data_ (x.start_ + i * stride0 + j * stride1) 1)
  else .error .dimensionality

/-- `array_base::operator()(int_t i, slice const & sj)`, line 324. -/
def array_base.call_is (x : array_base) (i : Int) (sj : slice) : Except Error array_base :=
  if x.dim = 2 then do
    let shape1 ← idx x.shape_ 1
    let stride0 ← idx x.stride_ 0
    let stride1 ← idx x.stride_ 1
    pure (view.ofBuffer (sj.size shape1) x.dtype_ x.data_
      (x.start_ + i * stride0 + sj.start * stride1) (sj.stride * stride1))
  else .error .dimensionality

/-- `array_base::operator()(slice const & si, int_t j)`, line 331. -/
def array_base.call_si (x : array_base) (si : slice) (j : Int) : Except Error array_base :=
  if x.dim = 2 then do
    let shape0 ← idx x.shape_ 0
    let stride0 ← idx x.stride_ 0
    let stride1 ← idx x.stride_ 1
    pure (view.ofBuffer (si.size shape0) x.dtype_ x.data_
      (x.start_ + si.start * stride0 + j * stride1) si.stride)
  else .error .dimensionality

/-- `array_base::operator()(slice const & si, slice const & sj)`, line 338. -/
def array_base.call_ss (x : array_base) (si sj : slice) : Except Error array_base :=
  if x.dim = 2 then view.ofSlice2 x si sj else .error .dimensionality

/-! ## Broadcasting -/

/-- The `for` loop of `broadcast`, lines 526 to 529: `n` iterations remain, `i` is the loop
index and `result` the vector built so far. -/
def broadcast_loop (aa bb : List Int) : Nat → Nat → List Int → Except Error (List Int)
  | 0, _, result => .ok result
  | n + 1, i, result => do
    let x ← idx aa i
    let y ← idx bb i
    if x = y ∨ x = 1 ∨ y = 1 then broadcast_loop aa bb n (i + 1) (result ++ [max x y])
    else .error .shapeMismatch

/-- `broadcast(shape_t const & a, shape_t const & b)`, line 518. -/
def broadcast (a b : shape_t) : Except Error shape_t :=
  let as := a.length
  let bs := b.length
  let aa := if as < bs then List.replicate (bs - as) 1 ++ a else a
  let bb := if as < bs then b else List.replicate (as - bs) 1 ++ b
  broadcast_loop aa bb (max as bs) 0 []

/-! ## Diagonal -/

/-- The value of a C++ `bool` used as an integer. -/
def boolToInt (b : Bool) : Int := if b then 1 else 0

/-- `array(int_t, numeric_type, Buffer, int_t start, int_t inc)`: the constructor of `array`
that `diag` calls, forwarding to the `array_base` constructor of line 51. -/
def array.ofBuffer (shape0 : Int) (dtype : numeric_type) (data : Buffer) (start inc : Int) :
    array_base :=
  array_base.wrap1 shape0 dtype data start inc

/-- `diag(array_base & x, int offset)`, line 701. -/
def diag (x : array_base) (offset : Int) : Except Error array_base :=
  if x.dim = 2 then do
    let offi := (-(boolToInt (decide (offset < 0)))) * offset
    let offj := (boolToInt (decide (offset > 0))) * offset
    let shape0 ← idx x.shape_ 0
    let shape1 ← idx x.shape_ 1
    let size := min (shape0 - offi) (shape1 - offj)
    let stride1 ← idx x.stride_ 1
    let start := offi + stride1 * offj
    pure (array.ofBuffer size x.dtype_ x.data_ start (stride1 + 1))
  else .error .dimensionality

/-! ## Reductions -/

/-- The array overload generated by `DEFINE_REDUCTION(OP, OPNAME)`, line 774. -/
def DEFINE_REDUCTION_array (OP : operation_type) (x : array_base) (axis : Int) :
    Except Error expression_tree :=
  if axis < -1 ∨ axis > x.dim then .error .outOfRange
  else if axis = -1 then
    .ok (expression_tree.ofLeaves (.dense_array x) .invalid ⟨.VECTOR_DOT_TYPE_FAMILY, OP⟩
      x.context_ x.dtype_ [1])
  else if axis = 0 then do
    let shape1 ← idx x.shape_ 1
    pure (expression_tree.ofLeaves (.dense_array x) .invalid ⟨.COLUMNS_DOT_TYPE_FAMILY, OP⟩
      x.context_ x.dtype_ [shape1])
  else do
    let shape0 ← idx x.shape_ 0
    pure (expression_tree.ofLeaves (.dense_array x) .invalid ⟨.ROWS_DOT_TYPE_FAMILY, OP⟩
      x.context_ x.dtype_ [shape0])

/-- The expression-tree overload generated by `DEFINE_REDUCTION(OP, OPNAME)`, line 786. -/
def DEFINE_REDUCTION_tree (OP : operation_type) (x : expression_tree) (axis : Int) :
    Except Error expression_tree :=
  if axis < -1 ∨ axis > x.dim then .error .outOfRange
  else if axis = -1 then
    .ok (expression_tree.ofTreeLeaf x .invalid ⟨.VECTOR_DOT_TYPE_FAMILY, OP⟩
      x.context_ x.dtype_ [1])
  else if axis = 0 then do
    let shape1 ← idx x.shape_ 1
    pure (expression_tree.ofTreeLeaf x .invalid ⟨.COLUMNS_DOT_TYPE_FAMILY, OP⟩
      x.context_ x.dtype_ [shape1])
  else do
    let shape0 ← idx x.shape_ 0
    pure (expression_tree.ofTreeLeaf x .invalid ⟨.ROWS_DOT_TYPE_FAMILY, OP⟩
      x.context_ x.dtype_ [shape0])

/-- `DEFINE_REDUCTION(ADD_TYPE, sum)`, array overload. -/
def sum (x : array_base) (axis : Int) : Except Error expression_tree :=
  DEFINE_REDUCTION_array .ADD_TYPE x axis

/-- `DEFINE_REDUCTION(ELEMENT_ARGMAX_TYPE, argmax)`, array overload. -/
def argmax (x : array_base) (axis : Int) : Except Error expression_tree :=
  DEFINE_REDUCTION_array .ELEMENT_ARGMAX_TYPE x axis

/-- `DEFINE_REDUCTION(ELEMENT_MAX_TYPE, max)`, array overload. -/
def max (x : array_base) (axis : Int) : Except Error expression_tree :=
  DEFINE_REDUCTION_array .ELEMENT_MAX_TYPE x axis

/-- `DEFINE_REDUCTION(ELEMENT_MIN_TYPE, min)`, array overload. -/
def min (x : array_base) (axis : Int) : Except Error expression_tree :=
  DEFINE_REDUCTION_array .ELEMENT_MIN_TYPE x axis

/-- `DEFINE_REDUCTION(ELEMENT_ARGMIN_TYPE, argmin)`, array overload. -/
def argmin (x : array_base) (axis : Int) : Except Error expression_tree :=
  DEFINE_REDUCTION_array .ELEMENT_ARGMIN_TYPE x axis

/-- `DEFINE_REDUCTION(ADD_TYPE, sum)`, expression-tree overload. -/
def sum_tree (x : expression_tree) (axis : Int) : Except Error expression_tree :=
  DEFINE_REDUCTION_tree .ADD_TYPE x axis

/-- `DEFINE_REDUCTION(ELEMENT_ARGMAX_TYPE, argmax)`, expression-tree overload. -/
def argmax_tree (x : expression_tree) (axis : Int) : Except Error expression_tree :=
  DEFINE_REDUCTION_tree .ELEMENT_ARGMAX_TYPE x axis

/-- `DEFINE_REDUCTION(ELEMENT_MAX_TYPE, max)`, expression-tree overload. -/
def max_tree (x : expression_tree) (axis : Int) : Except Error expression_tree :=
  DEFINE_REDUCTION_tree .ELEMENT_MAX_TYPE x axis

/-- `DEFINE_REDUCTION(ELEMENT_MIN_TYPE, min)`, expression-tree overload. -/
def min_tree (x : expression_tree) (axis : Int) : Except Error expression_tree :=
  DEFINE_REDUCTION_tree .ELEMENT_MIN_TYPE x axis

/-- `DEFINE_REDUCTION(ELEMENT_ARGMIN_TYPE, argmin)`, expression-tree overload. -/
def argmin_tree (x : expression_tree) (axis : Int) : Except Error expression_tree :=
  DEFINE_REDUCTION_tree .ELEMENT_ARGMIN_TYPE x axis

/-- The five reductions generated by `DEFINE_REDUCTION`, lines 798 to 802, each as the pair of
its array overload and its expression-tree overload. -/
def reductions :
    List ((array_base → Int → Except Error expression_tree)
      × (expression_tree → Int → Except Error expression_tree)) :=
  [(sum, sum_tree), (argmax, argmax_tree), (max, max_tree), (min, min_tree),
    (argmin, argmin_tree)]

/-! ## Overloaded operands -/

/-- An argument of a builder that `array.cpp` overloads, or instantiates through a macro or a
template, for `array_base` and for `expression_tree`. -/
inductive Operand
  | arr (a : array_base)
  | tree (t : expression_tree)
  deriving DecidableEq, Repr

/-- `x.shape()`. -/
def Operand.shape : Operand → shape_t
  | .arr a => a.shape_
  | .tree t => t.shape_

/-- `x.dim()`. -/
def Operand.dim : Operand → Int
  | .arr a => a.dim
  | .tree t => t.dim

/-- `x.dtype()`. -/
def Operand.dtype : Operand → numeric_type
  | .arr a => a.dtype_
  | .tree t => t.dtype_

/-- `x.context()`. -/
def Operand.context : Operand → Context
  | .arr a => a.context_
  | .tree t => t.context_

/-- The constructor `expression_tree(x, rhs, op, context, dtype, shape)` that overload resolution
picks for an array or tree `x` and an operand `rhs` that is not a tree. -/
def expression_tree.ofOperandLeaf (x : Operand) (rhs : tree_node) (op : op_element)
    (context : Context) (dtype : numeric_type) (shape : shape_t) : expression_tree :=
  match x with
  | .arr a => expression_tree.ofLeaves (.dense_array a) rhs op context dtype shape
  | .tree t => expression_tree.ofTreeLeaf t rhs op context dtype shape

/-- The constructor `expression_tree(x, y, op, context, dtype, shape)` that overload resolution
picks for arrays or trees `x` and `y`. -/
def expression_tree.ofOperands (x y : Operand) (op : op_element) (context : Context)
    (dtype : numeric_type) (shape : shape_t) : expression_tree :=
  match x, y with
  | .arr a, .arr b => expression_tree.ofLeaves (.dense_array a) (.dense_array b) op context
      dtype shape
  | .arr a, .tree u => expression_tree.ofLeafTree (.dense_array a) u op context dtype shape
  | .tree t, .arr b => expression_tree.ofTreeLeaf t (.dense_array b) op context dtype shape
  | .tree t, .tree u => expression_tree.ofTrees t u op context dtype shape

/-- Read `tree()[i]` of a node arena; a read past its end is reported as `outOfBounds`. -/
def nodeAt (tree : List node) (i : Nat) : Except Error node :=
  match tree.get? i with
  | some n => .ok n
  | none => .error .outOfBounds

/-- Modelled from the spec: `shape_t::max()`, the greatest dimension, declared outside the
sources.  The spec does not fix its value on the empty shape. -/
def shape_max : shape_t → Int
  | [] => 0
  | d :: ds => ds.foldl Max.max d

/-- Modelled from the spec: `shape_t::prod()`, the element count, declared outside the
sources. -/
def shape_prod (s : shape_t) : Int := s.prod

/-! ## Elementwise, structural and product builders -/

/-- The overloads of `DEFINE_ELEMENT_BINARY_OPERATOR(OP, OPNAME, DTYPE)`, line 533, whose two
arguments are arrays or trees; `DTYPE` is `x.dtype()` or `INT_TYPE`. -/
def DEFINE_ELEMENT_BINARY_OPERATOR (OP : operation_type) (DTYPE : Operand → numeric_type)
    (x y : Operand) : Except Error expression_tree := do
  let shape ← broadcast x.shape y.shape
  pure (expression_tree.ofOperands x y ⟨.BINARY_TYPE_FAMILY, OP⟩ x.context (DTYPE x) shape)

/-- `DEFINE_ELEMENT_BINARY_OPERATOR(MULT_TYPE, operator *, x.dtype())`, line 585. -/
def operator_mul (x y : Operand) : Except Error expression_tree :=
  DEFINE_ELEMENT_BINARY_OPERATOR .MULT_TYPE Operand.dtype x y

/-- `DEFINE_ELEMENT_BINARY_OPERATOR(ADD_TYPE, operator +, x.dtype())`, line 583. -/
def operator_add (x y : Operand) : Except Error expression_tree :=
  DEFINE_ELEMENT_BINARY_OPERATOR .ADD_TYPE Operand.dtype x y

/-- `array_base::operator-()`, line 250. -/
def array_base.operator_neg (x : array_base) : expression_tree :=
  expression_tree.ofLeaves (.dense_array x) .invalid ⟨.UNARY_TYPE_FAMILY, .SUB_TYPE⟩
    x.context_ x.dtype_ x.shape_

/-- `zeros(int_t M, int_t N, numeric_type dtype, Context ctx)`, line 711. -/
def zeros (M N : Int) (dtype : numeric_type) (ctx : Context) : expression_tree :=
  expression_tree.ofLeaves (.value ⟨dtype, 0⟩) .invalid ⟨.UNARY_TYPE_FAMILY, .ADD_TYPE⟩ ctx
    dtype [M, N]

/-- `flip(shape_t const & shape)`, line 714: entry `i` of the copy `res` is overwritten with
`shape[(i + 1) % shape.size()]`. -/
def flip (shape : shape_t) : shape_t :=
  (List.range shape.length).foldl
    (fun res i => res.set i (shape.getD ((i + 1) % shape.length) 0)) shape

/-- `trans(array_base const & x)` and `trans(expression_tree const & x)`, lines 725 and 728. -/
def trans (x : Operand) : expression_tree :=
  expression_tree.ofOperandLeaf x .invalid ⟨.UNARY_TYPE_FAMILY, .TRANS_TYPE⟩ x.context x.dtype
    (flip x.shape)

/-- `repmat(A, rep1, rep2)`, lines 731 and 738. -/
def repmat (A : Operand) (rep1 rep2 : Int) : Except Error expression_tree := do
  let sub1 ← idx A.shape 0
  let sub2 ← if A.dim = 2 then idx A.shape 1 else pure 1
  pure (expression_tree.ofOperandLeaf A (.tuple [rep1, rep2, sub1, sub2])
    ⟨.BINARY_TYPE_FAMILY, .REPEAT_TYPE⟩ A.context A.dtype [rep1 * sub1, rep2 * sub2])

/-- `reshape(x, shape)`, lines 912 and 915. -/
def reshape (x : Operand) (shape : shape_t) : expression_tree :=
  expression_tree.ofOperandLeaf x .invalid ⟨.UNARY_TYPE_FAMILY, .RESHAPE_TYPE⟩ x.context
    x.dtype shape

/-- The call `sum(x, axis)` on an array or a tree.  The one-argument calls `sum(x)` of `dot`
use the default axis of the declaration in the header, which the spec gives as the full
reduction, `-1`. -/
def sum_operand (x : Operand) (axis : Int) : Except Error expression_tree :=
  match x with
  | .arr a => sum a axis
  | .tree t => sum_tree t axis

/-! ## Matrix products -/

/-- `detail::matmatprod(array_base const & A, array_base const & B)`, line 809. -/
def matmatprod_aa (A B : array_base) : Except Error expression_tree := do
  let shape0 ← idx A.shape_ 0
  let shape1 ← idx B.shape_ 1
  pure (expression_tree.ofLeaves (.dense_array A) (.dense_array B)
    ⟨.MATRIX_PRODUCT_TYPE_FAMILY, .MATRIX_PRODUCT_NN_TYPE⟩ A.context_ A.dtype_ [shape0, shape1])

/-- Overwrite the left operand of the root node of a tree: `res_root.lhs = v`. -/
def expression_tree.setRootLhs (res : expression_tree) (v : tree_node) :
    Except Error expression_tree := do
  let res_root ← nodeAt res.tree_ res.root_
  pure ⟨res.tree_.set res.root_ ⟨v, res_root.op, res_root.rhs⟩, res.root_, res.context_,
    res.dtype_, res.shape_⟩

/-- Overwrite the right operand of the root node of a tree: `res_root.rhs = v`. -/
def expression_tree.setRootRhs (res : expression_tree) (v : tree_node) :
    Except Error expression_tree := do
  let res_root ← nodeAt res.tree_ res.root_
  pure ⟨res.tree_.set res.root_ ⟨res_root.lhs, res_root.op, v⟩, res.root_, res.context_,
    res.dtype_, res.shape_⟩

/-- `detail::matmatprod(expression_tree const & A, array_base const & B)`, line 815. -/
def matmatprod_ta (A : expression_tree) (B : array_base) : Except Error expression_tree := do
  let shape0 ← idx A.shape_ 0
  let shape1 ← idx B.shape_ 1
  let A_root ← nodeAt A.tree_ A.root_
  let A_trans := decide (A_root.op.type = .TRANS_TYPE)
  let type : operation_type :=
    if A_trans then .MATRIX_PRODUCT_TN_TYPE else .MATRIX_PRODUCT_NN_TYPE
  let res := expression_tree.ofTreeLeaf A (.dense_array B) ⟨.MATRIX_PRODUCT_TYPE_FAMILY, type⟩
    A.context_ A.dtype_ [shape0, shape1]
  if A_trans then res.setRootLhs A_root.lhs else pure res

/-- `detail::matmatprod(array_base const & A, expression_tree const & B)`, line 832. -/
def matmatprod_at (A : array_base) (B : expression_tree) : Except Error expression_tree := do
  let shape0 ← idx A.shape_ 0
  let shape1 ← idx B.shape_ 1
  let B_root ← nodeAt B.tree_ B.root_
  let B_trans := decide (B_root.op.type = .TRANS_TYPE)
  let type : operation_type :=
    if B_trans then .MATRIX_PRODUCT_NT_TYPE else .MATRIX_PRODUCT_NN_TYPE
  let res := expression_tree.ofLeafTree (.dense_array A) B ⟨.MATRIX_PRODUCT_TYPE_FAMILY, type⟩
    A.context_ A.dtype_ [shape0, shape1]
  if B_trans then res.setRootRhs B_root.lhs else pure res

/-- `detail::matmatprod(expression_tree const & A, expression_tree const & B)`, line 849. -/
def matmatprod_tt (A B : expression_tree) : Except Error expression_tree := do
  let A_root ← nodeAt A.tree_ A.root_
  let B_root ← nodeAt B.tree_ B.root_
  let shape0 ← idx A.shape_ 0
  let shape1 ← idx B.shape_ 1
  let A_trans := decide (A_root.op.type = .TRANS_TYPE)
  let B_trans := decide (B_root.op.type = .TRANS_TYPE)
  let type : operation_type :=
    if A_trans && B_trans then .MATRIX_PRODUCT_TT_TYPE
    else if A_trans && !B_trans then .MATRIX_PRODUCT_TN_TYPE
    else if !A_trans && B_trans then .MATRIX_PRODUCT_NT_TYPE
    else .MATRIX_PRODUCT_NN_TYPE
  let res := expression_tree.ofTrees A B ⟨.MATRIX_PRODUCT_TYPE_FAMILY, type⟩
    A.context_ A.dtype_ [shape0, shape1]
  let res1 ← if A_trans then res.setRootLhs A_root.lhs else pure res
  if B_trans then res1.setRootRhs B_root.lhs else pure res1

/-- The overload of `detail::matmatprod` that a call with arrays or trees selects. -/
def matmatprod (A B : Operand) : Except Error expression_tree :=
  match A, B with
  | .arr a, .arr b => matmatprod_aa a b
  | .tree t, .arr b => matmatprod_ta t b
  | .arr a, .tree u => matmatprod_at a u
  | .tree t, .tree u => matmatprod_tt t u

/-- `detail::matvecprod(array_base const & A, T const & x)`, line 872. -/
def matvecprod_array (A : array_base) (x : Operand) : Except Error expression_tree := do
  let M ← idx A.shape_ 0
  let N ← idx A.shape_ 1
  let r ← repmat (.tree (reshape x [1, N])) M 1
  let p ← operator_mul (.arr A) (.tree r)
  sum_operand (.tree p) 1

/-- The `while` loop of `detail::matvecprod`, lines 886 to 889.  `A_root` is a reference to the
slot `root` of the arena of `A`, so the assignment `A_root = A.tree()[A_root.lhs.node_index]`
overwrites that slot; the loop is run on the arena, with `fuel` iterations allowed. -/
def matvecprod_loop (root : Nat) : Nat → List node → Bool → Except Error (List node × Bool)
  | 0, _, _ => .error .nontermination
  | fuel + 1, tree, A_trans => do
    let A_root ← nodeAt tree root
    match A_root.lhs with
    | .composite node_index => do
      let child ← nodeAt tree node_index
      matvecprod_loop root fuel (tree.set root child)
        (xor A_trans (decide (child.op.type = .TRANS_TYPE)))
    | _ => pure (tree, A_trans)

/-- `detail::matvecprod(expression_tree const & A, T const & x)`, line 880.  The first component
of the result is the tree `A` as the call leaves it, the second the returned expression. -/
def matvecprod_tree_run (A : expression_tree) (x : Operand) :
    Except Error (expression_tree × expression_tree) := do
  let M ← idx A.shape_ 0
  let N ← idx A.shape_ 1
  let A_root ← nodeAt A.tree_ A.root_
  let looped ← matvecprod_loop A.root_ (A.tree_.length + 1) A.tree_
    (decide (A_root.op.type = .TRANS_TYPE))
  let A1 : expression_tree := ⟨looped.1, A.root_, A.context_, A.dtype_, A.shape_⟩
  if looped.2 then do
    let r ← repmat x 1 M
    let tmp := expression_tree.ofTrees A1 r ⟨.BINARY_TYPE_FAMILY, .ELEMENT_PROD_TYPE⟩
      A1.context_ A1.dtype_ [N, M]
    let A1_root ← nodeAt A1.tree_ A1.root_
    let tmp1 ← tmp.setRootLhs A1_root.lhs
    let res ← sum_operand (.tree tmp1) 0
    pure (A1, res)
  else do
    let r ← repmat (.tree (reshape x [1, N])) M 1
    let p ← operator_mul (.tree A1) (.tree r)
    let res ← sum_operand (.tree p) 1
    pure (A1, res)

/-- The expression returned by `detail::matvecprod(expression_tree const & A, T const & x)`. -/
def matvecprod_tree (A : expression_tree) (x : Operand) : Except Error expression_tree := do
  let r ← matvecprod_tree_run A x
  pure r.2

/-- The overload of `detail::matvecprod` that a call with an array or a tree `A` selects. -/
def matvecprod (A x : Operand) : Except Error expression_tree :=
  match A with
  | .arr a => matvecprod_array a x
  | .tree t => matvecprod_tree t x

/-! ## `dot` -/

/-- The C++ test `s[i] == v` on a `shape_t`. -/
def eq_at (s : shape_t) (i : Nat) (v : Int) : Except Error Bool := do
  let e ← idx s i
  pure (decide (e = v))

/-- The short-circuit conjunction `a && b`: `b` is evaluated only when `a` holds. -/
def and_then (a b : Except Error Bool) : Except Error Bool := do
  if (← a) then b else pure false

/-- The short-circuit disjunction `a || b`: `b` is evaluated only when `a` fails. -/
def or_else (a b : Except Error Bool) : Except Error Bool := do
  if (← a) then pure true else b

/-- The body of `DEFINE_DOT(LTYPE, RTYPE)`, line 921, for arrays or trees `x` and `y`. -/
def DEFINE_DOT (x y : Operand) : Except Error expression_tree := do
  let dtype := x.dtype
  let context := x.context
  if shape_max x.shape = 1 ∨ shape_max y.shape = 1 then
    operator_mul x y
  else if (← and_then (pure (decide (x.dim = 2))) (eq_at x.shape 1 0)) then do
    let shape0 ← idx x.shape 0
    let shape1 ← idx y.shape 1
    pure (zeros shape0 shape1 dtype context)
  else if (← or_else (eq_at x.shape 0 0)
      (and_then (pure (decide (y.dim = 2))) (eq_at y.shape 1 0))) then
    pure (expression_tree.ofLeaves .invalid .invalid ⟨.UNARY_TYPE_FAMILY, .INVALID_TYPE⟩
      context dtype [0])
  else if x.dim = 1 ∧ y.dim = 1 then do
    let p ← operator_mul x y
    sum_operand (.tree p) (-1)
  else if (← and_then (and_then (pure (decide (x.dim = 2))) (eq_at x.shape 0 1))
      (pure (decide (y.dim = 1)))) then do
    if (← eq_at y.shape 0 1) then do
      let p ← operator_mul x y
      pure (reshape (.tree p) [shape_max x.shape])
    else do
      let p ← operator_mul x y
      sum_operand (.tree p) (-1)
  else if x.dim = 2 ∧ y.dim = 1 then do
    if (← eq_at y.shape 0 1) then do
      let p ← operator_mul x y
      pure (reshape (.tree p) [shape_max x.shape])
    else
      matvecprod x y
  else if x.dim = 1 ∧ y.dim = 2 then do
    if (← eq_at x.shape 0 1) then do
      let p ← operator_mul x y
      pure (reshape (.tree p) [shape_max y.shape])
    else do
      let r ← matvecprod (.tree (trans y)) (.tree (trans x))
      pure (trans (.tree r))
  else if (← and_then (eq_at x.shape 0 1) (eq_at y.shape 1 1)) then do
    let p ← operator_mul x (.tree (trans y))
    sum_operand (.tree p) (-1)
  else if (← and_then (eq_at x.shape 0 1) (eq_at y.shape 1 2)) then do
    let r ← matvecprod (.tree (trans y)) (.tree (trans x))
    pure (trans (.tree r))
  else if (← and_then (eq_at x.shape 1 1) (eq_at y.shape 0 1)) then
    operator_mul x y
  else
    matmatprod x y

/-- `DEFINE_DOT(array_base, array_base)`, line 962. -/
def dot (x y : array_base) : Except Error expression_tree := DEFINE_DOT (.arr x) (.arr y)

/-- `DEFINE_DOT(expression_tree, array_base)`, line 963. -/
def dot_tree_array (x : expression_tree) (y : array_base) : Except Error expression_tree :=
  DEFINE_DOT (.tree x) (.arr y)

/-- `DEFINE_DOT(array_base, expression_tree)`, line 964. -/
def dot_array_tree (x : array_base) (y : expression_tree) : Except Error expression_tree :=
  DEFINE_DOT (.arr x) (.tree y)

/-- `DEFINE_DOT(expression_tree, expression_tree)`, line 965. -/
def dot_tree_tree (x y : expression_tree) : Except Error expression_tree :=
  DEFINE_DOT (.tree x) (.tree y)

/-! ## Device transfers and hand-off to execution -/

/-- Modelled from the spec: `size_of(numeric_type)`, declared outside the sources: the byte width
of the 8/16/32/64-bit integers and of the single- and double-precision floats; any other dtype
fails with the unknown-datatype error. -/
def size_of : numeric_type → Except Error Int
  | .CHAR_TYPE => .ok 1
  | .UCHAR_TYPE => .ok 1
  | .SHORT_TYPE => .ok 2
  | .USHORT_TYPE => .ok 2
  | .INT_TYPE => .ok 4
  | .UINT_TYPE => .ok 4
  | .LONG_TYPE => .ok 8
  | .ULONG_TYPE => .ok 8
  | .FLOAT_TYPE => .ok 4
  | .DOUBLE_TYPE => .ok 8
  | .OTHER _ => .error .unknownDatatype

/-- Modelled from the spec: `shape_t::min()`, the smallest dimension, declared outside the
sources.  The spec does not fix its value on the empty shape. -/
def shape_min : shape_t → Int
  | [] => 0
  | d :: ds => ds.foldl Min.min d

/-- Modelled from the spec: an `execution_handler`, declared outside the sources, is a tree
`x()` together with its execution, dispatcher and compilation options, kept as one code. -/
structure execution_handler where
  x : expression_tree
  options : Nat
  deriving DecidableEq, Repr

/-- `execution_handler(expression)`: a handler with the default options. -/
def execution_handler.ofTree (x : expression_tree) : execution_handler := ⟨x, 0⟩

/-- What this layer asks of its collaborators: a byte-range `write` or `read` on a command
queue (`queue.write(buffer, blocking, offset, size, ptr)`), or the hand-off `execute(handler)`
of a tree to the execution interface. -/
inductive DeviceOp
  | write (data : Buffer) (blocking : Bool) (offset size : Int)
  | read (data : Buffer) (blocking : Bool) (offset size : Int)
  | execute (handler : execution_handler)
  deriving DecidableEq, Repr

/-! ## Assignment operators

Each operator returns `*this` together with the operations it issued, in order. -/

/-- `array_base::operator=(array_base const & rhs)`, line 188. -/
def array_base.assign_array (self rhs : array_base) :
    Except Error (array_base × List DeviceOp) :=
  if shape_min self.shape_ = 0 then .ok (self, [])
  else if self.dtype_ ≠ rhs.dtype_ then .error .dtypeMismatch
  else .ok (self, [.execute (execution_handler.ofTree
    (expression_tree.ofLeaves (.dense_array self) (.dense_array rhs)
      ⟨.BINARY_TYPE_FAMILY, .ASSIGN_TYPE⟩ self.context_ self.dtype_ self.shape_))])

/-- `array_base::operator=(value_scalar const & rhs)`, line 197. -/
def array_base.assign_value (self : array_base) (rhs : value_scalar) :
    Except Error (array_base × List DeviceOp) :=
  if shape_min self.shape_ = 0 then .ok (self, [])
  else if self.dtype_ ≠ rhs.dtype then .error .dtypeMismatch
  else .ok (self, [.execute (execution_handler.ofTree
    (expression_tree.ofLeaves (.dense_array self) (.value rhs)
      ⟨.BINARY_TYPE_FAMILY, .ASSIGN_TYPE⟩ self.context_ self.dtype_ self.shape_))])

/-- `array_base::operator=(execution_handler const & c)`, line 207. -/
def array_base.assign_handler (self : array_base) (c : execution_handler) :
    Except Error (array_base × List DeviceOp) :=
  if shape_min self.shape_ = 0 then .ok (self, [])
  else if self.dtype_ ≠ c.x.dtype_ then .error .dtypeMismatch
  else .ok (self, [.execute ⟨expression_tree.ofLeafTree (.dense_array self) c.x
      ⟨.BINARY_TYPE_FAMILY, .ASSIGN_TYPE⟩ self.context_ self.dtype_ self.shape_, c.options⟩])

/-- `array_base::operator=(expression_tree const & rhs)`, line 216. -/
def array_base.assign_tree (self : array_base) (rhs : expression_tree) :
    Except Error (array_base × List DeviceOp) :=
  self.assign_handler (execution_handler.ofTree rhs)

/-- The compound assignments `operator OP=(value_scalar const & rhs)`, lines 257, 266, 275 and
284, for `OP` one of `ADD_TYPE`, `SUB_TYPE`, `MULT_TYPE`, `DIV_TYPE`. -/
def array_base.compound_value (OP : operation_type) (self : array_base) (rhs : value_scalar) :
    Except Error (array_base × List DeviceOp) :=
  self.assign_tree (expression_tree.ofLeaves (.dense_array self) (.value rhs)
    ⟨.BINARY_TYPE_FAMILY, OP⟩ self.context_ self.dtype_ self.shape_)

/-- The compound assignments `operator OP=(array_base const & rhs)`, lines 260, 269, 278 and
287. -/
def array_base.compound_array (OP : operation_type) (self rhs : array_base) :
    Except Error (array_base × List DeviceOp) :=
  self.assign_tree (expression_tree.ofLeaves (.dense_array self) (.dense_array rhs)
    ⟨.BINARY_TYPE_FAMILY, OP⟩ self.context_ self.dtype_ self.shape_)

/-- The compound assignments `operator OP=(expression_tree const & rhs)`, lines 263, 272, 281
and 290. -/
def array_base.compound_tree (OP : operation_type) (self : array_base) (rhs : expression_tree) :
    Except Error (array_base × List DeviceOp) :=
  self.assign_tree (expression_tree.ofLeafTree (.dense_array self) rhs
    ⟨.BINARY_TYPE_FAMILY, OP⟩ rhs.context_ self.dtype_ self.shape_)

/-- The operation codes of `+=`, `-=`, `*=` and `/=`. -/
def compound_ops : List operation_type := [.ADD_TYPE, .SUB_TYPE, .MULT_TYPE, .DIV_TYPE]

/-! ## Binary elementwise builders -/

/-- `array(numeric_type, shape_t const &, Context)`: the constructor of `array` that `copy`
calls for its staging array, forwarding to the `array_base` constructor of line 143. -/
def array.ofShape (dtype : numeric_type) (shape : shape_t) (context : Context) (fresh : Nat) :
    Except Error array_base :=
  array_base.ofShape dtype shape context fresh

/-- `copy(void const * data, array_base & x, CommandQueue & queue, bool blocking)`, line 1004:
the operations issued; `fresh` is the handle of the staging allocation. -/
def copy_to_device (x : array_base) (blocking : Bool) (fresh : Nat) :
    Except Error (List DeviceOp) := do
  let dtypesize ← size_of x.dtype_
  if (← and_then (pure (decide (x.start_ = 0)))
      (do let shape0 ← idx x.shape_ 0
          pure (decide (shape0 * shape_prod x.stride_ = shape_prod x.shape_)))) then
    pure [.write x.data_ blocking 0 (shape_prod x.shape_ * dtypesize)]
  else do
    let tmp ← array.ofShape x.dtype_ x.shape_ x.context_ fresh
    let assigned ← x.assign_array tmp
    pure (.write tmp.data_ blocking 0 (shape_prod tmp.shape_ * dtypesize) :: assigned.2)

/-- `copy(array_base const & x, void * data, CommandQueue & queue, bool blocking)`, line 1019:
the operations issued; `fresh` is the handle of the staging allocation. -/
def copy_to_host (x : array_base) (blocking : Bool) (fresh : Nat) :
    Except Error (List DeviceOp) := do
  let dtypesize ← size_of x.dtype_
  if x.start_ = 0 ∧ shape_prod x.stride_ = shape_prod x.shape_ then
    pure [.read x.data_ blocking 0 (shape_prod x.shape_ * dtypesize)]
  else do
    let tmp ← array.ofShape x.dtype_ x.shape_ x.context_ fresh
    let assigned ← tmp.assign_array x
    pure (assigned.2 ++ [.read tmp.data_ blocking 0 (shape_prod tmp.shape_ * dtypesize)])

/-! ## Scalars: host values -/

/-- Modelled from the spec: the device/buffer interface keeps, for each byte range written, the
value last written there.  A record is the buffer, the byte offset, the byte length and the
host value written. -/
structure WriteRecord where
  data : Buffer
  offset : Int
  size : Int
  value : Rat
  deriving DecidableEq, Repr

/-- Device memory as the list of byte-range writes, the latest first. -/
abbrev DeviceMemory := List WriteRecord

/-- A blocking `write` of `size` bytes holding `value` at `offset` of `data`. -/
def DeviceMemory.write (mem : DeviceMemory) (data : Buffer) (offset size : Int) (value : Rat) :
    DeviceMemory :=
  ⟨data, offset, size, value⟩ :: mem

/-- A blocking `read` of `size` bytes at `offset` of `data`: the value of the latest write to
exactly that range, and 0 for a range never written. -/
def DeviceMemory.read (mem : DeviceMemory) (data : Buffer) (offset size : Int) : Rat :=
  match mem.find? (fun r => decide (r.data = data ∧ r.offset = offset ∧ r.size = size)) with
  | some r => r.value
  | none => 0

/-- The conversions between the C types behind the dtypes (`static_cast<TYPE>(v)`,
`(char)value`, `CLTYPE v = s`) belong to the C++ implementation and not to `array.cpp`: they
round, truncate or wrap as the language and the platform prescribe.  They are a parameter of
the model: `static_cast src dst v` is the value that `v`, held as the C type of the dtype
`src`, has once converted to the C type of the dtype `dst`. -/
abbrev Conversion := numeric_type → numeric_type → Rat → Rat

/-- `detail::copy<T>(context, data, value)`, line 370: the blocking write of `sizeof(T)` bytes
holding `value` at offset 0 of `data`; the memory after it and the write issued. -/
def detail.copy (mem : DeviceMemory) (data : Buffer) (sizeofT : Int) (value : Rat) :
    DeviceMemory × DeviceOp :=
  (mem.write data 0 sizeofT value, .write data true 0 sizeofT)

/-- `scalar::scalar(value_scalar value, Context)`, line 380: the scalar, the memory after the
write of `detail::copy` and the write issued; `fresh` is the handle of the allocation.  Each
case converts `value` to the C type of the case, `(char)value` to `(double)value`; the byte
widths are those of `char`, `short`, `int`, `long`, `float` and `double`. -/
def scalar.ofValue (static_cast : Conversion) (value : value_scalar) (context : Context)
    (fresh : Nat) (mem : DeviceMemory) : Except Error (array_base × DeviceMemory × DeviceOp) :=
  let self := array_base.new1 1 value.dtype context fresh
  match self.dtype_ with
  | .CHAR_TYPE =>
    .ok (self, detail.copy mem self.data_ 1 (static_cast value.dtype .CHAR_TYPE value.value))
  | .UCHAR_TYPE =>
    .ok (self, detail.copy mem self.data_ 1 (static_cast value.dtype .UCHAR_TYPE value.value))
  | .SHORT_TYPE =>
    .ok (self, detail.copy mem self.data_ 2 (static_cast value.dtype .SHORT_TYPE value.value))
  | .USHORT_TYPE =>
    .ok (self, detail.copy mem self.data_ 2 (static_cast value.dtype .USHORT_TYPE value.value))
  | .INT_TYPE =>
    .ok (self, detail.copy mem self.data_ 4 (static_cast value.dtype .INT_TYPE value.value))
  | .UINT_TYPE =>
    .ok (self, detail.copy mem self.data_ 4 (static_cast value.dtype .UINT_TYPE value.value))
  | .LONG_TYPE =>
    .ok (self, detail.copy mem self.data_ 8 (static_cast value.dtype .LONG_TYPE value.value))
  | .ULONG_TYPE =>
    .ok (self, detail.copy mem self.data_ 8 (static_cast value.dtype .ULONG_TYPE value.value))
  | .FLOAT_TYPE =>
    .ok (self, detail.copy mem self.data_ 4 (static_cast value.dtype .FLOAT_TYPE value.value))
  | .DOUBLE_TYPE =>
    .ok (self, detail.copy mem self.data_ 8 (static_cast value.dtype .DOUBLE_TYPE value.value))
  | .OTHER _ => .error .unknownDatatype

/-- The body of `HANDLE_CASE` in `scalar::inject`, line 407: the blocking read of `dtsize` bytes
at byte offset `start_*dtsize`; the value read and the read issued. -/
def scalar.inject_case (self : array_base) (mem : DeviceMemory) (dtsize : Int) :
    Rat × DeviceOp :=
  (mem.read self.data_ (self.start_ * dtsize) dtsize,
    .read self.data_ true (self.start_ * dtsize) dtsize)

/-- `scalar::inject(values_holder & v)`, line 404: the value read into the member of `v` that
the dtype selects, and the read issued. -/
def scalar.inject (self : array_base) (mem : DeviceMemory) : Except Error (Rat × DeviceOp) := do
  let dtsize ← size_of self.dtype_
  match self.dtype_ with
  | .CHAR_TYPE => pure (scalar.inject_case self mem dtsize)
  | .UCHAR_TYPE => pure (scalar.inject_case self mem dtsize)
  | .SHORT_TYPE => pure (scalar.inject_case self mem dtsize)
  | .USHORT_TYPE => pure (scalar.inject_case self mem dtsize)
  | .INT_TYPE => pure (scalar.inject_case self mem dtsize)
  | .UINT_TYPE => pure (scalar.inject_case self mem dtsize)
  | .LONG_TYPE => pure (scalar.inject_case self mem dtsize)
  | .ULONG_TYPE => pure (scalar.inject_case self mem dtsize)
  | .FLOAT_TYPE => pure (scalar.inject_case self mem dtsize)
  | .DOUBLE_TYPE => pure (scalar.inject_case self mem dtsize)
  | .OTHER _ => .error .unknownDatatype

/-- `scalar::cast<TYPE>()`, line 429, with `TYPE` the C type behind the dtype `T`: each case
returns `static_cast<TYPE>` of the member of `v` that the dtype selects, a value of the C type
of that case. -/
def scalar.cast (static_cast : Conversion) (T : numeric_type) (self : array_base)
    (mem : DeviceMemory) : Except Error Rat := do
  let v ← scalar.inject self mem
  match self.dtype_ with
  | .CHAR_TYPE => pure (static_cast .CHAR_TYPE T v.1)
  | .UCHAR_TYPE => pure (static_cast .UCHAR_TYPE T v.1)
  | .SHORT_TYPE => pure (static_cast .SHORT_TYPE T v.1)
  | .USHORT_TYPE => pure (static_cast .USHORT_TYPE T v.1)
  | .INT_TYPE => pure (static_cast .INT_TYPE T v.1)
  | .UINT_TYPE => pure (static_cast .UINT_TYPE T v.1)
  | .LONG_TYPE => pure (static_cast .LONG_TYPE T v.1)
  | .ULONG_TYPE => pure (static_cast .ULONG_TYPE T v.1)
  | .FLOAT_TYPE => pure (static_cast .FLOAT_TYPE T v.1)
  | .DOUBLE_TYPE => pure (static_cast .DOUBLE_TYPE T v.1)
  | .OTHER _ => .error .unknownDatatype

/-- The body of `HANDLE_CASE(TYPE, CLTYPE)` in `scalar::operator=`, line 459: `CLTYPE v = s`,
the conversion of the value that `s` holds to `CLTYPE`, and the blocking write of `dtsize`
bytes at byte offset `start_*dtsize`; the memory after it and the write issued. -/
def scalar.assign_case (static_cast : Conversion) (self : array_base) (mem : DeviceMemory)
    (dtsize : Int) (CLTYPE : numeric_type) (s : value_scalar) : DeviceMemory × DeviceOp :=
  (mem.write self.data_ (self.start_ * dtsize) dtsize (static_cast s.dtype CLTYPE s.value),
    .write self.data_ true (self.start_ * dtsize) dtsize)

/-- `scalar::operator=(value_scalar const & s)`, line 454: the memory after the blocking write
and the write issued. -/
def scalar.assign (static_cast : Conversion) (self : array_base) (s : value_scalar)
    (mem : DeviceMemory) : Except Error (DeviceMemory × DeviceOp) := do
  let dtsize ← size_of self.dtype_
  match self.dtype_ with
  | .CHAR_TYPE => pure (scalar.assign_case static_cast self mem dtsize .CHAR_TYPE s)
  | .UCHAR_TYPE => pure (scalar.assign_case static_cast self mem dtsize .UCHAR_TYPE s)
  | .SHORT_TYPE => pure (scalar.assign_case static_cast self mem dtsize .SHORT_TYPE s)
  | .USHORT_TYPE => pure (scalar.assign_case static_cast self mem dtsize .USHORT_TYPE s)
  | .INT_TYPE => pure (scalar.assign_case static_cast self mem dtsize .INT_TYPE s)
  | .UINT_TYPE => pure (scalar.assign_case static_cast self mem dtsize .UINT_TYPE s)
  | .LONG_TYPE => pure (scalar.assign_case static_cast self mem dtsize .LONG_TYPE s)
  | .ULONG_TYPE => pure (scalar.assign_case static_cast self mem dtsize .ULONG_TYPE s)
  | .FLOAT_TYPE => pure (scalar.assign_case static_cast self mem dtsize .FLOAT_TYPE s)
  | .DOUBLE_TYPE => pure (scalar.assign_case static_cast self mem dtsize .DOUBLE_TYPE s)
  | .OTHER _ => .error .unknownDatatype

/-- `operator<<(std::ostream & os, scalar const & s)`, line 496: the value streamed, which each
case obtains from `static_cast` of `s` to the C type of the dtype. -/
def scalar.print (static_cast : Conversion) (s : array_base) (mem : DeviceMemory) :
    Except Error Rat :=
  match s.dtype_ with
  | .CHAR_TYPE => scalar.cast static_cast .CHAR_TYPE s mem
  | .UCHAR_TYPE => scalar.cast static_cast .UCHAR_TYPE s mem
  | .SHORT_TYPE => scalar.cast static_cast .SHORT_TYPE s mem
  | .USHORT_TYPE => scalar.cast static_cast .USHORT_TYPE s mem
  | .INT_TYPE => scalar.cast static_cast .INT_TYPE s mem
  | .UINT_TYPE => scalar.cast static_cast .UINT_TYPE s mem
  | .LONG_TYPE => scalar.cast static_cast .LONG_TYPE s mem
  | .ULONG_TYPE => scalar.cast static_cast .ULONG_TYPE s mem
  | .FLOAT_TYPE => scalar.cast static_cast .FLOAT_TYPE s mem
  | .DOUBLE_TYPE => scalar.cast static_cast .DOUBLE_TYPE s mem
  | .OTHER _ => .error .unknownDatatype

/-- `casted(numeric_type dtype)`, line 672. -/
def casted : numeric_type → Except Error operation_type
  | .CHAR_TYPE => .ok .CAST_CHAR_TYPE
  | .UCHAR_TYPE => .ok .CAST_UCHAR_TYPE
  | .SHORT_TYPE => .ok .CAST_SHORT_TYPE
  | .USHORT_TYPE => .ok .CAST_USHORT_TYPE
  | .INT_TYPE => .ok .CAST_INT_TYPE
  | .UINT_TYPE => .ok .CAST_UINT_TYPE
  | .LONG_TYPE => .ok .CAST_LONG_TYPE
  | .ULONG_TYPE => .ok .CAST_ULONG_TYPE
  | .FLOAT_TYPE => .ok .CAST_FLOAT_TYPE
  | .DOUBLE_TYPE => .ok .CAST_DOUBLE_TYPE
  | .OTHER _ => .error .unknownDatatype

/-- `cast(x, numeric_type dtype)`, lines 692 and 695. -/
def cast (x : Operand) (dtype : numeric_type) : Except Error expression_tree := do
  let op ← casted dtype
  pure (expression_tree.ofOperandLeaf x .invalid ⟨.UNARY_TYPE_FAMILY, op⟩ x.context dtype
    x.shape)

/-- The `switch` of `operator<<(std::ostream &, array_base const &)`, line 1144, reached once
for each element displayed: `ISAAC_PRINT_ELEMENT(ADTYPE, CTYPE)` streams the element of the
host copy, read in place as the C type of the dtype. -/
def ISAAC_PRINT_ELEMENT (dtype : numeric_type) (element : Rat) : Except Error Rat :=
  match dtype with
  | .CHAR_TYPE => .ok element
  | .UCHAR_TYPE => .ok element
  | .SHORT_TYPE => .ok element
  | .USHORT_TYPE => .ok element
  | .INT_TYPE => .ok element
  | .UINT_TYPE => .ok element
  | .LONG_TYPE => .ok element
  | .ULONG_TYPE => .ok element
  | .FLOAT_TYPE => .ok element
  | .DOUBLE_TYPE => .ok element
  | .OTHER _ => .error .unknownDatatype

/-! ## Reference definitions following the specification's wording -/

/-- Specification wording: the column-major strides of a shape, `stride[0] = 1` and
`stride[k] = ∏_{j<k} shape[j]`, one entry per axis. -/
def spec_column_major_strides (shape : shape_t) : shape_t :=
  (List.range shape.length).map (fun k => (shape.take k).prod)

/-- Specification wording: a shape left-padded with 1s to length `n` (right-alignment). -/
def pad_left (n : Nat) (s : shape_t) : shape_t :=
  List.replicate (n - s.length) 1 ++ s

/-- Specification wording: two aligned dimensions can be broadcast, `a==b` or `a==1` or
`b==1`. -/
def axis_compatible (x y : Int) : Prop := x = y ∨ x = 1 ∨ y = 1

instance instDecidableAxisCompatible (x y : Int) : Decidable (axis_compatible x y) := by
  unfold axis_compatible
  infer_instance

/-- Specification wording: two shapes are broadcast-compatible when, after right-alignment,
every aligned axis is compatible. -/
def broadcast_compatible (a b : shape_t) : Prop :=
  ∀ i, i < Max.max a.length b.length →
    axis_compatible ((pad_left (Max.max a.length b.length) a).getD i 1)
      ((pad_left (Max.max a.length b.length) b).getD i 1)

instance instDecidableBroadcastCompatible (a b : shape_t) :
    Decidable (broadcast_compatible a b) := by
  unfold broadcast_compatible
  infer_instance

/-- Specification wording: the operand is a tree whose root operator is `TRANS`. -/
def Operand.rootIsTrans : Operand → Bool
  | .arr _ => false
  | .tree t =>
    match t.rootNode with
    | some nd => decide (nd.op.type = .TRANS_TYPE)
    | none => false

/-- Specification wording: the product variant NN, TN, NT, TT selected by the two flags
"left operand is a transpose" and "right operand is a transpose". -/
def spec_product_variant : Bool → Bool → operation_type
  | false, false => .MATRIX_PRODUCT_NN_TYPE
  | true, false => .MATRIX_PRODUCT_TN_TYPE
  | false, true => .MATRIX_PRODUCT_NT_TYPE
  | true, true => .MATRIX_PRODUCT_TT_TYPE

/-- Specification wording: an array is contiguous when it has start 0 and the column-major
strides of its shape. -/
def spec_contiguous (x : array_base) : Prop :=
  x.start_ = 0 ∧ x.stride_ = spec_column_major_strides x.shape_

instance instDecidableSpecContiguous (x : array_base) : Decidable (spec_contiguous x) := by
  unfold spec_contiguous
  infer_instance

/-- Specification wording: the closed numeric type set, the 8/16/32/64-bit signed and unsigned
integers and the single- and double-precision floats. -/
def closed_numeric_set : List numeric_type :=
  [.CHAR_TYPE, .UCHAR_TYPE, .SHORT_TYPE, .USHORT_TYPE, .INT_TYPE, .UINT_TYPE, .LONG_TYPE,
    .ULONG_TYPE, .FLOAT_TYPE, .DOUBLE_TYPE]

/-- Specification wording: the value `v` is representable in the dtype `d`: `d` is one of the
closed numeric set and converting `v` to the C type behind `d` keeps its value. -/
def representable (static_cast : Conversion) (d : numeric_type) (v : value_scalar) : Prop :=
  d ∈ closed_numeric_set ∧ static_cast v.dtype d v.value = v.value

/-- Specification wording: a dispatch on the dtype `d` with outcome `r` succeeds when `d` is one
of the closed numeric set and fails with the unknown-datatype error for every other dtype. -/
def dispatch_closed {α : Type} (d : numeric_type) (r : Except Error α) : Prop :=
  (d ∈ closed_numeric_set ∧ ∃ a, r = .ok a)
    ∨ (d ∉ closed_numeric_set ∧ r = .error .unknownDatatype)

/-! ## Reference meaning of the IR on integer matrices -/

/-- An integer matrix as the list of its rows. -/
abbrev Matrix := List (List Int)

/-- Matrix transpose. -/
def mat_transpose (m : Matrix) : Matrix :=
  match m with
  | [] => []
  | r :: _ => (List.range r.length).map (fun j => m.map (fun row => row.getD j 0))

/-- Matrix product. -/
def mat_mul (a b : Matrix) : Matrix :=
  a.map (fun row =>
    (mat_transpose b).map (fun col => (List.zipWith (fun u v => u * v) row col).sum))

/-- Elementwise sum. -/
def mat_add (a b : Matrix) : Matrix :=
  List.zipWith (fun r s => List.zipWith (fun u v => u + v) r s) a b

/-- Elementwise negation. -/
def mat_neg (a : Matrix) : Matrix := a.map (fun r => r.map (fun u => -u))

/-- Specification wording: the reference meaning of an operand inside an arena.  An array
denotes the matrix that `env` assigns to its buffer; a composite operand denotes the meaning of
the node of that index: `TRANS` is matrix transpose, unary `SUB` negation, binary `ADD` the
elementwise sum, and a product of variant XY multiplies `op_X(lhs)` by `op_Y(rhs)`, with
`op_N` the identity and `op_T` the transpose.  `fuel` bounds the depth walked. -/
def denote (env : Nat → Matrix) (arena : List node) : Nat → tree_node → Option Matrix
  | _, .dense_array a => some (env a.data_.handle)
  | fuel + 1, .composite i =>
    match arena.get? i with
    | none => none
    | some nd =>
      match nd.op.type_family, nd.op.type with
      | .UNARY_TYPE_FAMILY, .TRANS_TYPE => (denote env arena fuel nd.lhs).map mat_transpose
      | .UNARY_TYPE_FAMILY, .SUB_TYPE => (denote env arena fuel nd.lhs).map mat_neg
      | .BINARY_TYPE_FAMILY, .ADD_TYPE =>
        (denote env arena fuel nd.lhs).bind (fun l =>
          (denote env arena fuel nd.rhs).map (fun r => mat_add l r))
      | .MATRIX_PRODUCT_TYPE_FAMILY, .MATRIX_PRODUCT_NN_TYPE =>
        (denote env arena fuel nd.lhs).bind (fun l =>
          (denote env arena fuel nd.rhs).map (fun r => mat_mul l r))
      | .MATRIX_PRODUCT_TYPE_FAMILY, .MATRIX_PRODUCT_TN_TYPE =>
        (denote env arena fuel nd.lhs).bind (fun l =>
          (denote env arena fuel nd.rhs).map (fun r => mat_mul (mat_transpose l) r))
      | .MATRIX_PRODUCT_TYPE_FAMILY, .MATRIX_PRODUCT_NT_TYPE =>
        (denote env arena fuel nd.lhs).bind (fun l =>
          (denote env arena fuel nd.rhs).map (fun r => mat_mul l (mat_transpose r)))
      | .MATRIX_PRODUCT_TYPE_FAMILY, .MATRIX_PRODUCT_TT_TYPE =>
        (denote env arena fuel nd.lhs).bind (fun l =>
          (denote env arena fuel nd.rhs).map (fun r =>
            mat_mul (mat_transpose l) (mat_transpose r)))
      | _, _ => none
  | _, _ => none

/-- The reference meaning of a tree: the meaning of its root node. -/
def expression_tree.denote (env : Nat → Matrix) (t : expression_tree) : Option Matrix :=
  Isaac.denote env t.tree_ (t.tree_.length + 1) (.composite t.root_)

/-- The materialized values used in the examples: buffer 0 holds a 2-by-3 matrix, buffers 1 and
2 hold 4-by-3 matrices, buffers 3 and 5 hold 3-by-2 matrices and buffer 4 a 3-by-4 matrix. -/
def example_env (handle : Nat) : Matrix :=
  [[[1, 2, 3], [4, 5, 6]],
    [[1, 0, 2], [0, 1, 0], [3, 0, 1], [1, 1, 1]],
    [[0, 1, 0], [2, 0, 1], [0, 0, 1], [1, 0, 0]],
    [[1, 2], [3, 4], [5, 6]],
    [[1, 0, 2, 1], [0, 1, 1, 0], [2, 0, 0, 1]],
    [[0, 1], [1, 0], [2, 2]]].getD handle []

/-- The reference meaning of an array or tree operand. -/
def Operand.denote (env : Nat → Matrix) : Operand → Option Matrix
  | .arr a => some (env a.data_.handle)
  | .tree t => t.denote env

/-- Specification wording: the naive approach, multiplying the materialized values of `A` and
`B`. -/
def materialized_product (env : Nat → Matrix) (A B : Operand) : Option Matrix :=
  (A.denote env).bind (fun l => (B.denote env).map (fun r => mat_mul l r))

/-! ## Well-formed trees -/

/-- A tree whose root index lies inside its arena, as every tree built by a constructor has;
an array has no arena. -/
def Operand.rootValid : Operand → Prop
  | .arr _ => True
  | .tree t => t.root_ < t.tree_.length

instance instDecidableRootValid (x : Operand) : Decidable x.rootValid := by
  cases x <;> unfold Operand.rootValid <;> infer_instance

/-- The left operand of a node at arena index `i`, when composite, refers to an earlier node. -/
def node_lhs_below (nd : node) (i : Nat) : Bool :=
  match nd.lhs with
  | .composite j => decide (j < i)
  | _ => true

/-- Every node of an arena that starts at index `i` has its left operand, when composite,
refer to an earlier node. -/
def lhs_ordered_from : Nat → List node → Bool
  | _, [] => true
  | i, nd :: rest => node_lhs_below nd i && lhs_ordered_from (i + 1) rest

/-- A tree as the constructors build it: the root index lies inside the arena and every
composite left operand refers to an earlier node; an array has no arena. -/
def Operand.wellFormed : Operand → Prop
  | .arr _ => True
  | .tree t => t.root_ < t.tree_.length ∧ lhs_ordered_from 0 t.tree_ = true

instance instDecidableWellFormed (x : Operand) : Decidable x.wellFormed := by
  cases x <;> unfold Operand.wellFormed <;> infer_instance

/-! ## Elementary facts about `idx` -/

theorem idx_cons_zero (v : Int) (s : shape_t) : idx (v :: s) 0 = .ok v := rfl

theorem idx_cons_succ (v : Int) (s : shape_t) (i : Nat) : idx (v :: s) (i + 1) = idx s i := rfl

theorem idx_nil (i : Nat) : idx [] i = .error .outOfBounds := rfl

theorem idx_of_lt (s : shape_t) (i : Nat) (h : i < s.length) : idx s i = .ok (s.getD i 1) := by
  unfold idx
  rw [List.getD_eq_getElem?_getD, List.get?_eq_getElem?, List.getElem?_eq_getElem h]
  rfl

theorem idx_of_le (s : shape_t) (i : Nat) (h : s.length ≤ i) : idx s i = .error .outOfBounds := by
  unfold idx
  rw [List.get?_eq_getElem?, List.getElem?_eq_none h]

/-! ## Slices and fresh allocations -/

/-- C1: a slice `s` of a rank-1 array `v` (through the constructor and through `v[s]`) has start
`v.start + v.stride[0]*s.start`, stride `v.stride[0]*s.stride` and shape `{s.size(v.shape[0])}`;
slices `s0, s1` of a rank-2 array `M` (through the constructor and through `M(s0,s1)`) have start
`M.start + M.stride[0]*s0.start + M.stride[1]*s1.start`, strides `M.stride[a]*s_a.stride` and
shape `{s0.size(M.shape[0]), s1.size(M.shape[1])}`; dtype and buffer are the parent's. -/
theorem slice_derivation (v M : array_base) (s s0 s1 : slice) (n r c st t0 t1 : Int)
    (rest1 rest2 : shape_t)
    (hv : v.shape_ = [n]) (hvs : v.stride_ = st :: rest1)
    (hM : M.shape_ = [r, c]) (hMs : M.stride_ = t0 :: t1 :: rest2) :
    array_base.ofSlice v s
        = .ok ⟨v.dtype_, [s.size n], v.start_ + st * s.start, [st * s.stride],
            v.context_, v.data_⟩
      ∧ v.subscriptSlice s = array_base.ofSlice v s
      ∧ array_base.ofSlice2 M s0 s1
        = .ok ⟨M.dtype_, [s0.size r, s1.size c], M.start_ + t0 * s0.start + t1 * s1.start,
            [t0 * s0.stride, t1 * s1.stride], M.data_.context, M.data_⟩
      ∧ M.call_ss s0 s1 = array_base.ofSlice2 M s0 s1 := by
  refine ⟨?_, ?_, ?_, ?_⟩
  · simp only [array_base.ofSlice, hv, hvs, idx_cons_zero]
    rfl
  · simp [array_base.subscriptSlice, view.ofSlice, array_base.dim, hv]
  · simp only [array_base.ofSlice2, hM, hMs, idx_cons_zero, idx_cons_succ]
    simp only [bind, Except.bind, pure, Except.pure, mul_comm s1.start t1]
  · simp [array_base.call_ss, view.ofSlice2, array_base.dim, hM]

/-- Witness for C1: the slice `[1,3)` (start 1, step 1, length 2) of a fresh length-4 array, and
a 2-by-2 block of a fresh 4-by-4 array. -/
theorem slice_derivation_witness :
    array_base.ofSlice (array_base.new1 4 .INT_TYPE 0 7) ⟨1, 1, fun _ => 2⟩
        = .ok ⟨.INT_TYPE, [2], 1, [1], 0, ⟨0, 7⟩⟩
      ∧ (array_base.new1 4 .INT_TYPE 0 7).subscriptSlice ⟨1, 1, fun _ => 2⟩
        = array_base.ofSlice (array_base.new1 4 .INT_TYPE 0 7) ⟨1, 1, fun _ => 2⟩
      ∧ array_base.ofSlice2 (array_base.new2 4 4 .INT_TYPE 0 8) ⟨1, 1, fun _ => 2⟩
          ⟨1, 2, fun _ => 2⟩
        = .ok ⟨.INT_TYPE, [2, 2], 5, [1, 8], 0, ⟨0, 8⟩⟩
      ∧ (array_base.new2 4 4 .INT_TYPE 0 8).call_ss ⟨1, 1, fun _ => 2⟩ ⟨1, 2, fun _ => 2⟩
        = array_base.ofSlice2 (array_base.new2 4 4 .INT_TYPE 0 8) ⟨1, 1, fun _ => 2⟩
          ⟨1, 2, fun _ => 2⟩ :=
  slice_derivation (array_base.new1 4 .INT_TYPE 0 7) (array_base.new2 4 4 .INT_TYPE 0 8)
    ⟨1, 1, fun _ => 2⟩ ⟨1, 1, fun _ => 2⟩ ⟨1, 2, fun _ => 2⟩ 4 4 4 1 1 4 [] [] rfl rfl rfl rfl

/-- C2 (code evaluated at the failing inputs): the rank-1 and rank-2 constructors give start 0
and the column-major strides of their shape, but the rank-3 constructor on shape `{2,3,4}`
leaves the stride `{1,2}`, two entries for three axes, where column-major strides are
`{1,2,6}`; the constructor from an explicit shape gives the rank-1 shape `{5}` two stride
entries and the rank-3 shape `{2,3,4}` two, and so does the constructor from an expression
result. -/
theorem fresh_strides_rank3_missing :
    (∀ n dt c f, (array_base.new1 n dt c f).start_ = 0
        ∧ (array_base.new1 n dt c f).stride_ = spec_column_major_strides [n])
      ∧ (∀ m n dt c f, (array_base.new2 m n dt c f).start_ = 0
        ∧ (array_base.new2 m n dt c f).stride_ = spec_column_major_strides [m, n])
      ∧ (array_base.new3 2 3 4 .INT_TYPE 0 0).stride_ = [1, 2]
      ∧ spec_column_major_strides (array_base.new3 2 3 4 .INT_TYPE 0 0).shape_ = [1, 2, 6]
      ∧ (array_base.ofShape .INT_TYPE [5] 0 0).map (fun x => x.stride_) = .ok [1, 5]
      ∧ (array_base.ofShape .INT_TYPE [2, 3, 4] 0 0).map (fun x => x.stride_) = .ok [1, 2]
      ∧ (array_base.ofExecutionHandler
            (expression_tree.ofLeaves .invalid .invalid ⟨.UNARY_TYPE_FAMILY, .ADD_TYPE⟩ 0
              .INT_TYPE [2, 3, 4]) 0).map (fun x => x.stride_) = .ok [1, 2] := by
  refine ⟨?_, ?_, rfl, by decide, rfl, rfl, rfl⟩
  · intro n dt c f
    simp [array_base.new1, spec_column_major_strides, List.range_succ]
  · intro m n dt c f
    simp [array_base.new2, spec_column_major_strides, List.range_succ]

/-! ## Broadcasting -/

theorem pad_left_length (n : Nat) (s : shape_t) (h : s.length ≤ n) :
    (pad_left n s).length = n := by
  simp [pad_left]
  omega

/-- The loop of `broadcast` on two vectors of the same length, all of whose remaining axes are
compatible, pushes the axis-wise maxima. -/
theorem broadcast_loop_ok (aa bb : List Int) :
    ∀ (k i : Nat) (result : List Int), aa.length = i + k → bb.length = i + k →
      (∀ j, i ≤ j → j < i + k → axis_compatible (aa.getD j 1) (bb.getD j 1)) →
      broadcast_loop aa bb k i result
        = .ok (result ++ List.zipWith Max.max (aa.drop i) (bb.drop i)) := by
  intro k
  induction k with
  | zero =>
    intro i result ha hb _
    have h1 : aa.drop i = [] := List.drop_eq_nil_of_le (by omega)
    simp [broadcast_loop, h1]
  | succ k ih =>
    intro i result ha hb hc
    have hia : i < aa.length := by omega
    have hib : i < bb.length := by omega
    have hci := hc i (Nat.le_refl i) (by omega)
    have hda : aa.drop i = aa.getD i 1 :: aa.drop (i + 1) := by
      rw [List.getD_eq_getElem _ _ hia]
      exact List.drop_eq_getElem_cons hia
    have hdb : bb.drop i = bb.getD i 1 :: bb.drop (i + 1) := by
      rw [List.getD_eq_getElem _ _ hib]
      exact List.drop_eq_getElem_cons hib
    unfold axis_compatible at hci
    simp only [broadcast_loop, idx_of_lt aa i hia, idx_of_lt bb i hib, bind, Except.bind,
      if_pos hci]
    rw [ih (i + 1) _ (by omega) (by omega) (fun j h1 h2 => hc j (by omega) (by omega)),
      hda, hdb]
    simp

/-- The loop of `broadcast` on two vectors of the same length fails with a shape mismatch as
soon as some remaining axis is incompatible. -/
theorem broadcast_loop_error (aa bb : List Int) :
    ∀ (k i : Nat) (result : List Int), aa.length = i + k → bb.length = i + k →
      (∃ j, i ≤ j ∧ j < i + k ∧ ¬ axis_compatible (aa.getD j 1) (bb.getD j 1)) →
      broadcast_loop aa bb k i result = .error .shapeMismatch := by
  intro k
  induction k with
  | zero =>
    intro i result _ _ hc
    obtain ⟨j, h1, h2, _⟩ := hc
    omega
  | succ k ih =>
    intro i result ha hb hc
    have hia : i < aa.length := by omega
    have hib : i < bb.length := by omega
    simp only [broadcast_loop, idx_of_lt aa i hia, idx_of_lt bb i hib, bind, Except.bind]
    by_cases hci : aa.getD i 1 = bb.getD i 1 ∨ aa.getD i 1 = 1 ∨ bb.getD i 1 = 1
    · rw [if_pos hci]
      apply ih (i + 1) _ (by omega) (by omega)
      obtain ⟨j, h1, h2, h3⟩ := hc
      have hne : j ≠ i := by
        intro h
        subst h
        exact h3 hci
      exact ⟨j, by omega, by omega, h3⟩
    · rw [if_neg hci]

/-- The loop of `broadcast` treats its two vectors symmetrically. -/
theorem broadcast_loop_comm (aa bb : List Int) :
    ∀ (k i : Nat) (result : List Int),
      broadcast_loop aa bb k i result = broadcast_loop bb aa k i result := by
  intro k
  induction k with
  | zero => intro i result; rfl
  | succ k ih =>
    intro i result
    simp only [broadcast_loop, bind, Except.bind]
    cases ha : idx aa i with
    | error e =>
      cases hb : idx bb i with
      | error e2 =>
        have h1 : e = .outOfBounds := by
          unfold idx at ha; split at ha <;> simp_all
        have h2 : e2 = .outOfBounds := by
          unfold idx at hb; split at hb <;> simp_all
        simp [h1, h2]
      | ok y => simp
    | ok x =>
      cases hb : idx bb i with
      | error e2 => simp
      | ok y =>
        simp only []
        by_cases hc : x = y ∨ x = 1 ∨ y = 1
        · have hc2 : y = x ∨ y = 1 ∨ x = 1 := by
            rcases hc with h | h | h
            · exact Or.inl h.symm
            · exact Or.inr (Or.inr h)
            · exact Or.inr (Or.inl h)
          rw [if_pos hc, if_pos hc2, max_comm x y]
          exact ih (i + 1) _
        · have hc2 : ¬ (y = x ∨ y = 1 ∨ x = 1) := by
            intro h
            apply hc
            rcases h with h | h | h
            · exact Or.inl h.symm
            · exact Or.inr (Or.inr h)
            · exact Or.inr (Or.inl h)
          rw [if_neg hc, if_neg hc2]

/-- `broadcast` runs its loop on the two shapes left-padded with 1s to the larger rank. -/
theorem broadcast_eq_loop (a b : shape_t) :
    broadcast a b
      = broadcast_loop (pad_left (Max.max a.length b.length) a)
          (pad_left (Max.max a.length b.length) b) (Max.max a.length b.length) 0 [] := by
  unfold broadcast pad_left
  by_cases h : a.length < b.length
  · have hm : Max.max a.length b.length = b.length := Nat.max_eq_right (Nat.le_of_lt h)
    simp [h, hm]
  · have hm : Max.max a.length b.length = a.length := Nat.max_eq_left (by omega)
    simp [h, hm]

/-- The result of `broadcast` on compatible shapes, as a list. -/
theorem broadcast_ok_of_compatible (a b : shape_t) (h : broadcast_compatible a b) :
    broadcast a b
      = .ok (List.zipWith Max.max (pad_left (Max.max a.length b.length) a)
          (pad_left (Max.max a.length b.length) b)) := by
  rw [broadcast_eq_loop]
  have ha := pad_left_length (Max.max a.length b.length) a (Nat.le_max_left _ _)
  have hb := pad_left_length (Max.max a.length b.length) b (Nat.le_max_right _ _)
  rw [broadcast_loop_ok _ _ _ 0 [] (by omega) (by omega) (fun j _ h2 => h j (by omega))]
  simp

/-- `broadcast` fails with a shape mismatch on shapes that are not compatible. -/
theorem broadcast_error_of_incompatible (a b : shape_t) (h : ¬ broadcast_compatible a b) :
    broadcast a b = .error .shapeMismatch := by
  rw [broadcast_eq_loop]
  have ha := pad_left_length (Max.max a.length b.length) a (Nat.le_max_left _ _)
  have hb := pad_left_length (Max.max a.length b.length) b (Nat.le_max_right _ _)
  apply broadcast_loop_error _ _ _ 0 [] (by omega) (by omega)
  unfold broadcast_compatible at h
  push_neg at h
  obtain ⟨j, h1, h2⟩ := h
  exact ⟨j, Nat.zero_le j, by omega, h2⟩

/-- C3: for broadcast-compatible shapes `a` and `b`, `broadcast(a,b)` returns a shape of rank
`n = max(rank a, rank b)` whose entry `i` is the maximum of entry `i` of the two shapes
left-padded with 1s to length `n`, for every `i < n`. -/
theorem broadcast_shape (a b : shape_t) (h : broadcast_compatible a b) :
    ∃ r, broadcast a b = .ok r ∧ r.length = Max.max a.length b.length
      ∧ ∀ i, i < Max.max a.length b.length →
          r.get? i = some (Max.max ((pad_left (Max.max a.length b.length) a).getD i 1)
            ((pad_left (Max.max a.length b.length) b).getD i 1)) := by
  have ha := pad_left_length (Max.max a.length b.length) a (Nat.le_max_left _ _)
  have hb := pad_left_length (Max.max a.length b.length) b (Nat.le_max_right _ _)
  refine ⟨_, broadcast_ok_of_compatible a b h, ?_, ?_⟩
  · simp [ha, hb]
  · intro i hi
    rw [List.get?_eq_getElem?, List.getElem?_eq_getElem
      (by rw [List.length_zipWith, ha, hb, Nat.min_self]; exact hi)]
    rw [List.getD_eq_getElem _ _ (by omega), List.getD_eq_getElem _ _ (by omega)]
    simp

/-- Witness for C3: `broadcast({4,1}, {3,1,5}) = {3,4,5}`. -/
theorem broadcast_shape_witness :
    broadcast_compatible [4, 1] [3, 1, 5]
      ∧ ∃ r, broadcast [4, 1] [3, 1, 5] = .ok r ∧ r.length = Max.max 2 3
        ∧ ∀ i, i < Max.max 2 3 →
            r.get? i = some (Max.max ((pad_left (Max.max 2 3) [4, 1]).getD i 1)
              ((pad_left (Max.max 2 3) [3, 1, 5]).getD i 1)) :=
  ⟨by decide, broadcast_shape [4, 1] [3, 1, 5] (by decide)⟩

/-- C4: `broadcast(a,b)` fails with a shape-mismatch error exactly when, after right-aligning
the shapes, some aligned axis has `a != b` with neither equal to 1, and it returns a shape
exactly when there is no such axis. -/
theorem broadcast_fails_iff (a b : shape_t) :
    (broadcast a b = .error .shapeMismatch ↔
        ∃ i, i < Max.max a.length b.length
          ∧ (pad_left (Max.max a.length b.length) a).getD i 1
              ≠ (pad_left (Max.max a.length b.length) b).getD i 1
          ∧ (pad_left (Max.max a.length b.length) a).getD i 1 ≠ 1
          ∧ (pad_left (Max.max a.length b.length) b).getD i 1 ≠ 1)
      ∧ ((∃ r, broadcast a b = .ok r) ↔
        ¬ ∃ i, i < Max.max a.length b.length
          ∧ (pad_left (Max.max a.length b.length) a).getD i 1
              ≠ (pad_left (Max.max a.length b.length) b).getD i 1
          ∧ (pad_left (Max.max a.length b.length) a).getD i 1 ≠ 1
          ∧ (pad_left (Max.max a.length b.length) b).getD i 1 ≠ 1) := by
  have key : broadcast_compatible a b ↔
      ¬ ∃ i, i < Max.max a.length b.length
          ∧ (pad_left (Max.max a.length b.length) a).getD i 1
              ≠ (pad_left (Max.max a.length b.length) b).getD i 1
          ∧ (pad_left (Max.max a.length b.length) a).getD i 1 ≠ 1
          ∧ (pad_left (Max.max a.length b.length) b).getD i 1 ≠ 1 := by
    unfold broadcast_compatible axis_compatible
    constructor
    · rintro h ⟨i, hi, h1, h2, h3⟩
      rcases h i hi with h4 | h4 | h4
      · exact h1 h4
      · exact h2 h4
      · exact h3 h4
    · intro h i hi
      by_contra hc
      push_neg at hc
      exact h ⟨i, hi, hc.1, hc.2.1, hc.2.2⟩
  by_cases hc : broadcast_compatible a b
  · have hok := broadcast_ok_of_compatible a b hc
    refine ⟨⟨fun h => ?_, fun h => absurd h (key.mp hc)⟩, ⟨fun _ => key.mp hc, fun _ => ⟨_, hok⟩⟩⟩
    rw [hok] at h
    cases h
  · have herr := broadcast_error_of_incompatible a b hc
    have hex := not_not.mp (fun h => hc (key.mpr h))
    refine ⟨⟨fun _ => hex, fun _ => herr⟩, ⟨fun h => ?_, fun h => absurd hex h⟩⟩
    obtain ⟨r, hr⟩ := h
    rw [herr] at hr
    cases hr

/-- C5: `broadcast` is commutative: `broadcast(a,b)` and `broadcast(b,a)` are the same outcome,
so one succeeds exactly when the other does and the returned shapes are equal. -/
theorem broadcast_comm (a b : shape_t) : broadcast a b = broadcast b a := by
  rw [broadcast_eq_loop a b, broadcast_eq_loop b a, Nat.max_comm b.length a.length]
  exact broadcast_loop_comm _ _ _ _ _

/-! ## Element access -/

/-- C6 (code evaluated at the failing input): `p` is a fresh length-8 array and `v = p[sl]` the
view of every other element (`sl.start = 0`, `sl.stride = 2`, length 4), so `v` has start 0 and
stride 2.  `v[1]` is the scalar at buffer offset `0 + 1 = 1`, while the parent element
`p[sl.start + 1*sl.stride] = p[2]` is at offset 2: `operator[]` adds the index to the start
without multiplying it by the stride. -/
theorem subscript_ignores_stride :
    ((array_base.new1 8 .INT_TYPE 0 0).subscriptSlice ⟨0, 2, fun _ => 4⟩).map
        (fun v => (v.start_, v.stride_)) = .ok (0, [2])
      ∧ ((array_base.new1 8 .INT_TYPE 0 0).subscriptSlice ⟨0, 2, fun _ => 4⟩ >>=
          fun v => v.subscript 1).map (fun e => (e.start_, e.data_)) = .ok (1, ⟨0, 0⟩)
      ∧ ((array_base.new1 8 .INT_TYPE 0 0).subscript (0 + 1 * 2)).map
          (fun e => (e.start_, e.data_)) = .ok (2, ⟨0, 0⟩) := by
  refine ⟨rfl, rfl, rfl⟩

/-- C7 (code evaluated at the failing input): `M` is the view of every other row of a fresh
8-by-3 array, with start 0 and strides `(2, 8)`.  `M(si, 0)` for the slice `si` of all four rows
(`si.start = 0`, `si.stride = 1`) gets stride `si.stride = 1`, not `M.stride[0]*si.stride = 2`,
whereas the sibling `M(1, sj)` gets stride `sj.stride*M.stride[1] = 8` and `M(1, 0)` is at
offset 2. -/
theorem call_si_ignores_stride0 :
    (array_base.ofSlice2 (array_base.new2 8 3 .INT_TYPE 0 0) ⟨0, 2, fun _ => 4⟩
        ⟨0, 1, fun _ => 3⟩).map (fun M => (M.shape_, M.start_, M.stride_))
        = .ok ([4, 3], 0, [2, 8])
      ∧ (array_base.ofSlice2 (array_base.new2 8 3 .INT_TYPE 0 0) ⟨0, 2, fun _ => 4⟩
          ⟨0, 1, fun _ => 3⟩ >>= fun M => M.call_si ⟨0, 1, fun _ => 4⟩ 0).map
          (fun r => (r.shape_, r.start_, r.stride_)) = .ok ([4], 0, [1])
      ∧ (array_base.ofSlice2 (array_base.new2 8 3 .INT_TYPE 0 0) ⟨0, 2, fun _ => 4⟩
          ⟨0, 1, fun _ => 3⟩ >>= fun M => M.call_is 1 ⟨0, 1, fun _ => 3⟩).map
          (fun r => (r.shape_, r.start_, r.stride_)) = .ok ([3], 2, [8])
      ∧ (array_base.ofSlice2 (array_base.new2 8 3 .INT_TYPE 0 0) ⟨0, 2, fun _ => 4⟩
          ⟨0, 1, fun _ => 3⟩ >>= fun M => M.call_ii 1 0).map
          (fun r => (r.shape_, r.start_)) = .ok ([1], 2) := by
  refine ⟨rfl, rfl, rfl, rfl⟩

/-! ## Diagonal -/

/-- C8: for a rank-2 array `x` of shape `{rows, cols}` and every integer `k`, `diag(x,k)` is a
rank-1 view of the buffer of `x` with length `min(rows - off_i, cols - off_j)` and stride
`x.stride[1] + 1`, where `off_i = max(0,-k)` and `off_j = max(0,k)`. -/
theorem diag_length_stride (x : array_base) (k rows cols s0 s1 : Int) (rest : shape_t)
    (hs : x.shape_ = [rows, cols]) (hst : x.stride_ = s0 :: s1 :: rest) :
    ∃ d, diag x k = .ok d ∧ d.data_ = x.data_ ∧ d.dim = 1
      ∧ d.shape_ = [Min.min (rows - Max.max 0 (-k)) (cols - Max.max 0 k)]
      ∧ d.stride_ = [s1 + 1] := by
  have hoffi : (-(boolToInt (decide (k < 0)))) * k = Max.max 0 (-k) := by
    by_cases h : k < 0
    · simp [boolToInt, h]
      omega
    · simp [boolToInt, h]
      omega
  have hoffj : (boolToInt (decide (k > 0))) * k = Max.max 0 k := by
    by_cases h : k > 0
    · simp [boolToInt, h]
      omega
    · simp [boolToInt, h]
      omega
  refine ⟨array.ofBuffer (Min.min (rows - Max.max 0 (-k)) (cols - Max.max 0 k)) x.dtype_ x.data_
    (Max.max 0 (-k) + s1 * Max.max 0 k) (s1 + 1), ?_, rfl, rfl, rfl, rfl⟩
  simp only [diag, array_base.dim, hs, hst, idx_cons_zero, idx_cons_succ, hoffi, hoffj]
  rfl

/-- Witness for C8: the first superdiagonal of a fresh 3-by-5 array. -/
theorem diag_length_stride_witness :
    ∃ d, diag (array_base.new2 3 5 .INT_TYPE 0 0) 1 = .ok d
      ∧ d.data_ = (array_base.new2 3 5 .INT_TYPE 0 0).data_ ∧ d.dim = 1
      ∧ d.shape_ = [Min.min (3 - Max.max 0 (-1)) (5 - Max.max 0 1)]
      ∧ d.stride_ = [3 + 1] :=
  diag_length_stride (array_base.new2 3 5 .INT_TYPE 0 0) 1 3 5 1 3 [] rfl rfl

/-- C9 (code evaluated at the failing inputs): `x` is the 2-by-2 block at row 1, column 1 of a
fresh 4-by-4 array, with start 5 and strides `(1, 4)`; `diag(x, 0)` starts at offset 0 while
`x(0,0)` is at offset 5, because `diag` does not add `x.start`.  `M` is the view of every other
row of a fresh 8-by-3 array, with strides `(2, 8)`; `diag(M, 0)` has stride 9 while `M(1,1)` is
at offset 10, because `diag` takes `x.stride[0]` to be 1. -/
theorem diag_ignores_start_and_stride0 :
    (array_base.ofSlice2 (array_base.new2 4 4 .INT_TYPE 0 0) ⟨1, 1, fun _ => 2⟩
        ⟨1, 1, fun _ => 2⟩).map (fun x => (x.shape_, x.start_, x.stride_))
        = .ok ([2, 2], 5, [1, 4])
      ∧ (array_base.ofSlice2 (array_base.new2 4 4 .INT_TYPE 0 0) ⟨1, 1, fun _ => 2⟩
          ⟨1, 1, fun _ => 2⟩ >>= fun x => diag x 0).map
          (fun d => (d.shape_, d.start_, d.stride_)) = .ok ([2], 0, [5])
      ∧ (array_base.ofSlice2 (array_base.new2 4 4 .INT_TYPE 0 0) ⟨1, 1, fun _ => 2⟩
          ⟨1, 1, fun _ => 2⟩ >>= fun x => x.call_ii 0 0).map (fun e => e.start_) = .ok 5
      ∧ (array_base.ofSlice2 (array_base.new2 8 3 .INT_TYPE 0 0) ⟨0, 2, fun _ => 4⟩
          ⟨0, 1, fun _ => 3⟩ >>= fun M => diag M 0).map
          (fun d => (d.shape_, d.start_, d.stride_)) = .ok ([3], 0, [9])
      ∧ (array_base.ofSlice2 (array_base.new2 8 3 .INT_TYPE 0 0) ⟨0, 2, fun _ => 4⟩
          ⟨0, 1, fun _ => 3⟩ >>= fun M => M.call_ii 1 1).map (fun e => e.start_) = .ok 10 := by
  refine ⟨rfl, rfl, rfl, rfl, rfl⟩

/-! ## Reductions -/

/-- The array overload of a reduction on an accepted axis whose dimension exists. -/
theorem DEFINE_REDUCTION_array_shape (OP : operation_type) (x : array_base) (axis : Int)
    (h1 : -1 ≤ axis) (h2 : axis ≤ x.dim) (h0 : axis = 0 → 2 ≤ x.dim) :
    ∃ ta, DEFINE_REDUCTION_array OP x axis = .ok ta
      ∧ (axis = -1 → ta.shape_ = [1])
      ∧ (axis = 0 → ∃ cols, x.shape_.get? 1 = some cols ∧ ta.shape_ = [cols])
      ∧ (1 ≤ axis → ∃ rows, x.shape_.get? 0 = some rows ∧ ta.shape_ = [rows]) := by
  have hr : ¬ (axis < -1 ∨ axis > x.dim) := by omega
  unfold DEFINE_REDUCTION_array
  rw [if_neg hr]
  by_cases ha : axis = -1
  · rw [if_pos ha]
    exact ⟨_, rfl, fun _ => rfl, fun h => by omega, fun h => by omega⟩
  · rw [if_neg ha]
    by_cases hb : axis = 0
    · rw [if_pos hb]
      have hd := h0 hb
      unfold array_base.dim at hd
      have hlt : 1 < x.shape_.length := by omega
      rw [idx_of_lt _ _ hlt]
      refine ⟨_, rfl, fun h => absurd h ha, fun _ => ⟨x.shape_.getD 1 1, ?_, rfl⟩,
        fun h => by omega⟩
      rw [List.get?_eq_getElem?, List.getElem?_eq_getElem hlt, List.getD_eq_getElem _ _ hlt]
    · rw [if_neg hb]
      unfold array_base.dim at h2
      have hlt : 0 < x.shape_.length := by omega
      rw [idx_of_lt _ _ hlt]
      refine ⟨_, rfl, fun h => absurd h ha, fun h => absurd h hb,
        fun _ => ⟨x.shape_.getD 0 1, ?_, rfl⟩⟩
      rw [List.get?_eq_getElem?, List.getElem?_eq_getElem hlt, List.getD_eq_getElem _ _ hlt]

/-- The expression-tree overload of a reduction on an accepted axis whose dimension exists. -/
theorem DEFINE_REDUCTION_tree_shape (OP : operation_type) (x : expression_tree) (axis : Int)
    (h1 : -1 ≤ axis) (h2 : axis ≤ x.dim) (h0 : axis = 0 → 2 ≤ x.dim) :
    ∃ tt, DEFINE_REDUCTION_tree OP x axis = .ok tt
      ∧ (axis = -1 → tt.shape_ = [1])
      ∧ (axis = 0 → ∃ cols, x.shape_.get? 1 = some cols ∧ tt.shape_ = [cols])
      ∧ (1 ≤ axis → ∃ rows, x.shape_.get? 0 = some rows ∧ tt.shape_ = [rows]) := by
  have hr : ¬ (axis < -1 ∨ axis > x.dim) := by omega
  unfold DEFINE_REDUCTION_tree
  rw [if_neg hr]
  by_cases ha : axis = -1
  · rw [if_pos ha]
    exact ⟨_, rfl, fun _ => rfl, fun h => by omega, fun h => by omega⟩
  · rw [if_neg ha]
    by_cases hb : axis = 0
    · rw [if_pos hb]
      have hd := h0 hb
      unfold expression_tree.dim at hd
      have hlt : 1 < x.shape_.length := by omega
      rw [idx_of_lt _ _ hlt]
      refine ⟨_, rfl, fun h => absurd h ha, fun _ => ⟨x.shape_.getD 1 1, ?_, rfl⟩,
        fun h => by omega⟩
      rw [List.get?_eq_getElem?, List.getElem?_eq_getElem hlt, List.getD_eq_getElem _ _ hlt]
    · rw [if_neg hb]
      unfold expression_tree.dim at h2
      have hlt : 0 < x.shape_.length := by omega
      rw [idx_of_lt _ _ hlt]
      refine ⟨_, rfl, fun h => absurd h ha, fun h => absurd h hb,
        fun _ => ⟨x.shape_.getD 0 1, ?_, rfl⟩⟩
      rw [List.get?_eq_getElem?, List.getElem?_eq_getElem hlt, List.getD_eq_getElem _ _ hlt]

/-- C10: on axis 0 the shape computation of every reduction reads `x.shape()[1]`, whatever the
rank of `x`.  For the rank-1 array of shape `{3}` and for its negation, a tree of shape `{3}`,
the axis 0 lies in `[-1, rank]` and passes the range check, and the shape has no entry at
position 1, which is the rank: each of sum, argmax, max, min, argmin, in its array overload and
in its expression-tree overload, reads past the end of the shape, which the model reports as
the out-of-bounds error.  The shape `{x.shape[1]}` of the claim does not exist for this
operand. -/
theorem reduction_axis0_rank1_reads_past_shape :
    (-1 : Int) ≤ 0 ∧ (0 : Int) ≤ (array_base.new1 3 .INT_TYPE 0 0).dim
      ∧ (array_base.new1 3 .INT_TYPE 0 0).shape_.get? 1 = none
      ∧ (array_base.operator_neg (array_base.new1 3 .INT_TYPE 0 0)).shape_.get? 1 = none
      ∧ ∀ p ∈ reductions,
          p.1 (array_base.new1 3 .INT_TYPE 0 0) 0 = .error .outOfBounds
            ∧ p.2 (array_base.operator_neg (array_base.new1 3 .INT_TYPE 0 0)) 0
              = .error .outOfBounds := by
  refine ⟨by decide, by decide, rfl, rfl, ?_⟩
  intro p hp
  simp only [reductions, List.mem_cons, List.mem_singleton, List.mem_nil_iff, or_false] at hp
  rcases hp with h | h | h | h | h <;> subst h <;> exact ⟨rfl, rfl⟩

/-- The shapes of the reductions where every entry read exists: for each of sum, argmax, max,
min, argmin, every array `x`, every tree `t` of the same shape and every axis in `[-1, rank]`,
other than axis 0 on an operand of rank below 2, both overloads return a node, the two nodes
have the same shape, and that shape is `{1}` when `axis = -1`, `{x.shape[1]}` when `axis = 0`,
and `{x.shape[0]}` for every axis in `[1, rank]`. -/
theorem reduction_shape
    (p : (array_base → Int → Except Error expression_tree)
      × (expression_tree → Int → Except Error expression_tree))
    (hp : p ∈ reductions) (x : array_base) (t : expression_tree) (axis : Int)
    (hsh : t.shape_ = x.shape_) (h1 : -1 ≤ axis) (h2 : axis ≤ x.dim)
    (h0 : axis = 0 → 2 ≤ x.dim) :
    ∃ ta tt, p.1 x axis = .ok ta ∧ p.2 t axis = .ok tt ∧ ta.shape_ = tt.shape_
      ∧ (axis = -1 → ta.shape_ = [1])
      ∧ (axis = 0 → ∃ cols, x.shape_.get? 1 = some cols ∧ ta.shape_ = [cols])
      ∧ (1 ≤ axis → ∃ rows, x.shape_.get? 0 = some rows ∧ ta.shape_ = [rows]) := by
  have hdim : t.dim = x.dim := by unfold expression_tree.dim array_base.dim; rw [hsh]
  have gen : ∀ OP, ∃ ta tt, DEFINE_REDUCTION_array OP x axis = .ok ta
      ∧ DEFINE_REDUCTION_tree OP t axis = .ok tt ∧ ta.shape_ = tt.shape_
      ∧ (axis = -1 → ta.shape_ = [1])
      ∧ (axis = 0 → ∃ cols, x.shape_.get? 1 = some cols ∧ ta.shape_ = [cols])
      ∧ (1 ≤ axis → ∃ rows, x.shape_.get? 0 = some rows ∧ ta.shape_ = [rows]) := by
    intro OP
    obtain ⟨ta, hta, a1, a2, a3⟩ := DEFINE_REDUCTION_array_shape OP x axis h1 h2 h0
    obtain ⟨tt, htt, b1, b2, b3⟩ :=
      DEFINE_REDUCTION_tree_shape OP t axis h1 (by omega) (fun h => by have := h0 h; omega)
    refine ⟨ta, tt, hta, htt, ?_, a1, a2, a3⟩
    by_cases ha : axis = -1
    · rw [a1 ha, b1 ha]
    · by_cases hb : axis = 0
      · obtain ⟨c1, hc1, e1⟩ := a2 hb
        obtain ⟨c2, hc2, e2⟩ := b2 hb
        rw [hsh, hc1] at hc2
        cases hc2
        rw [e1, e2]
      · obtain ⟨c1, hc1, e1⟩ := a3 (by omega)
        obtain ⟨c2, hc2, e2⟩ := b3 (by omega)
        rw [hsh, hc1] at hc2
        cases hc2
        rw [e1, e2]
  simp only [reductions, List.mem_cons, List.mem_singleton, List.mem_nil_iff, or_false] at hp
  rcases hp with h | h | h | h | h <;> subst h
  · exact gen .ADD_TYPE
  · exact gen .ELEMENT_ARGMAX_TYPE
  · exact gen .ELEMENT_MAX_TYPE
  · exact gen .ELEMENT_MIN_TYPE
  · exact gen .ELEMENT_ARGMIN_TYPE

/-- An instance of `reduction_shape`: `max` along axis 0 of a fresh 2-by-3 array and of its
negation `-x`. -/
theorem reduction_shape_witness :
    ∃ ta tt, max (array_base.new2 2 3 .INT_TYPE 0 0) 0 = .ok ta
      ∧ max_tree (expression_tree.ofLeaves (.dense_array (array_base.new2 2 3 .INT_TYPE 0 0))
          .invalid ⟨.UNARY_TYPE_FAMILY, .SUB_TYPE⟩ 0 .INT_TYPE [2, 3]) 0 = .ok tt
      ∧ ta.shape_ = tt.shape_
      ∧ ((0 : Int) = -1 → ta.shape_ = [1])
      ∧ ((0 : Int) = 0 → ∃ cols, (array_base.new2 2 3 .INT_TYPE 0 0).shape_.get? 1 = some cols
          ∧ ta.shape_ = [cols])
      ∧ ((1 : Int) ≤ 0 → ∃ rows, (array_base.new2 2 3 .INT_TYPE 0 0).shape_.get? 0 = some rows
          ∧ ta.shape_ = [rows]) :=
  reduction_shape (max, max_tree) (by simp [reductions]) (array_base.new2 2 3 .INT_TYPE 0 0)
    (expression_tree.ofLeaves (.dense_array (array_base.new2 2 3 .INT_TYPE 0 0))
      .invalid ⟨.UNARY_TYPE_FAMILY, .SUB_TYPE⟩ 0 .INT_TYPE [2, 3]) 0 rfl (by decide)
    (by decide) (fun _ => by decide)

/-- The range check of the array overload: the out-of-range error is raised exactly on an axis
outside `[-1, rank]`. -/
theorem DEFINE_REDUCTION_array_range (OP : operation_type) (x : array_base) (axis : Int) :
    DEFINE_REDUCTION_array OP x axis = .error .outOfRange ↔ (axis < -1 ∨ axis > x.dim) := by
  unfold DEFINE_REDUCTION_array
  by_cases hr : axis < -1 ∨ axis > x.dim
  · simp [hr]
  · rw [if_neg hr]
    refine ⟨fun h => ?_, fun h => absurd h hr⟩
    exfalso
    by_cases ha : axis = -1
    · rw [if_pos ha] at h
      cases h
    · rw [if_neg ha] at h
      by_cases hb : axis = 0
      · rw [if_pos hb] at h
        unfold idx at h
        cases hg : x.shape_.get? 1 <;> rw [hg] at h <;> cases h
      · rw [if_neg hb] at h
        unfold idx at h
        cases hg : x.shape_.get? 0 <;> rw [hg] at h <;> cases h

/-- The range check of the expression-tree overload: the out-of-range error is raised exactly on
an axis outside `[-1, rank]`. -/
theorem DEFINE_REDUCTION_tree_range (OP : operation_type) (x : expression_tree) (axis : Int) :
    DEFINE_REDUCTION_tree OP x axis = .error .outOfRange ↔ (axis < -1 ∨ axis > x.dim) := by
  unfold DEFINE_REDUCTION_tree
  by_cases hr : axis < -1 ∨ axis > x.dim
  · simp [hr]
  · rw [if_neg hr]
    refine ⟨fun h => ?_, fun h => absurd h hr⟩
    exfalso
    by_cases ha : axis = -1
    · rw [if_pos ha] at h
      cases h
    · rw [if_neg ha] at h
      by_cases hb : axis = 0
      · rw [if_pos hb] at h
        unfold idx at h
        cases hg : x.shape_.get? 1 <;> rw [hg] at h <;> cases h
      · rw [if_neg hb] at h
        unfold idx at h
        cases hg : x.shape_.get? 0 <;> rw [hg] at h <;> cases h

/-- C11: each of sum, argmax, max, min, argmin, in its array overload and in its expression-tree
overload, fails with the out-of-range error if and only if the axis lies outside
`[-1, rank(x)]`; in particular no out-of-range error is raised for an axis inside the
interval. -/
theorem reduction_out_of_range_iff
    (p : (array_base → Int → Except Error expression_tree)
      × (expression_tree → Int → Except Error expression_tree))
    (hp : p ∈ reductions) (x : array_base) (t : expression_tree) (axis : Int) :
    (p.1 x axis = .error .outOfRange ↔ ¬ (-1 ≤ axis ∧ axis ≤ x.dim))
      ∧ (p.2 t axis = .error .outOfRange ↔ ¬ (-1 ≤ axis ∧ axis ≤ t.dim)) := by
  have ex : ∀ d : Int, (axis < -1 ∨ axis > d) ↔ ¬ (-1 ≤ axis ∧ axis ≤ d) := by
    intro d
    omega
  have gen : ∀ OP, (DEFINE_REDUCTION_array OP x axis = .error .outOfRange
        ↔ ¬ (-1 ≤ axis ∧ axis ≤ x.dim))
      ∧ (DEFINE_REDUCTION_tree OP t axis = .error .outOfRange
        ↔ ¬ (-1 ≤ axis ∧ axis ≤ t.dim)) := fun OP =>
    ⟨(DEFINE_REDUCTION_array_range OP x axis).trans (ex _),
      (DEFINE_REDUCTION_tree_range OP t axis).trans (ex _)⟩
  simp only [reductions, List.mem_cons, List.mem_singleton, List.mem_nil_iff, or_false] at hp
  rcases hp with h | h | h | h | h <;> subst h
  · exact gen .ADD_TYPE
  · exact gen .ELEMENT_ARGMAX_TYPE
  · exact gen .ELEMENT_MAX_TYPE
  · exact gen .ELEMENT_MIN_TYPE
  · exact gen .ELEMENT_ARGMIN_TYPE

/-- Witness for C11: `argmin` of a fresh 2-by-3 array and of its negation, on axis 3. -/
theorem reduction_out_of_range_iff_witness :
    (argmin (array_base.new2 2 3 .INT_TYPE 0 0) 3 = .error .outOfRange
        ↔ ¬ (-1 ≤ (3 : Int) ∧ (3 : Int) ≤ (array_base.new2 2 3 .INT_TYPE 0 0).dim))
      ∧ (argmin_tree (expression_tree.ofLeaves
            (.dense_array (array_base.new2 2 3 .INT_TYPE 0 0)) .invalid
            ⟨.UNARY_TYPE_FAMILY, .SUB_TYPE⟩ 0 .INT_TYPE [2, 3]) 3 = .error .outOfRange
        ↔ ¬ (-1 ≤ (3 : Int) ∧ (3 : Int) ≤ (expression_tree.ofLeaves
            (.dense_array (array_base.new2 2 3 .INT_TYPE 0 0)) .invalid
            ⟨.UNARY_TYPE_FAMILY, .SUB_TYPE⟩ 0 .INT_TYPE [2, 3]).dim)) :=
  reduction_out_of_range_iff (argmin, argmin_tree) (by simp [reductions])
    (array_base.new2 2 3 .INT_TYPE 0 0)
    (expression_tree.ofLeaves (.dense_array (array_base.new2 2 3 .INT_TYPE 0 0)) .invalid
      ⟨.UNARY_TYPE_FAMILY, .SUB_TYPE⟩ 0 .INT_TYPE [2, 3]) 3

/-- C12 as stated fails: for the 1-by-3 array the axis `r + 1 = 2` equals the rank, the range
check accepts it, and `sum(x, 2)` returns the per-row reduction node of shape `{1}`; for the
0-by-3 array the axis `r + 1 = 1` is accepted as well. -/
theorem sum_rows_plus_one_accepted :
    (sum (array_base.new2 1 3 .INT_TYPE 0 0) (1 + 1)).map (fun t => (t.shape_, t.tree_))
        = .ok ([1], [⟨.dense_array (array_base.new2 1 3 .INT_TYPE 0 0),
            ⟨.ROWS_DOT_TYPE_FAMILY, .ADD_TYPE⟩, .invalid⟩])
      ∧ sum (array_base.new2 1 3 .INT_TYPE 0 0) (1 + 1) ≠ .error .outOfRange
      ∧ (sum (array_base.new2 0 3 .INT_TYPE 0 0) (0 + 1)).map (fun t => t.shape_) = .ok [0]
      ∧ sum (array_base.new2 0 3 .INT_TYPE 0 0) (0 + 1) ≠ .error .outOfRange := by
  refine ⟨rfl, by decide, rfl, by decide⟩

/-- C12, amended: for every rank-2 array `x` of shape `r`-by-`c` with `r ≥ 2`, `sum(x, r+1)`
fails with the out-of-range error. -/
theorem sum_rows_plus_one_out_of_range (x : array_base) (r c : Int)
    (hs : x.shape_ = [r, c]) (hr : 2 ≤ r) :
    sum x (r + 1) = .error .outOfRange := by
  unfold sum
  rw [DEFINE_REDUCTION_array_range]
  right
  simp only [array_base.dim, hs, List.length_cons, List.length_nil]
  omega

/-- Witness for C12, amended: a fresh 2-by-3 array and axis 3. -/
theorem sum_rows_plus_one_out_of_range_witness :
    sum (array_base.new2 2 3 .INT_TYPE 0 0) (2 + 1) = .error .outOfRange :=
  sum_rows_plus_one_out_of_range (array_base.new2 2 3 .INT_TYPE 0 0) 2 3 rfl (by decide)

/-! ## Transposition -/

theorem trans_shape (x : Operand) : (trans x).shape_ = flip x.shape := by
  cases x <;> rfl

/-- C13 as stated fails: `flip` rotates the shape by one axis, so on the rank-3 array of shape
`{2,3,4}` the shape of `trans(trans(A))` is `{4,2,3}`. -/
theorem trans_trans_shape_rank3 :
    (trans (.tree (trans (.arr (array_base.new3 2 3 4 .INT_TYPE 0 0))))).shape_ = [4, 2, 3]
      ∧ (array_base.new3 2 3 4 .INT_TYPE 0 0).shape_ = [2, 3, 4]
      ∧ (trans (.tree (trans (.arr (array_base.new3 2 3 4 .INT_TYPE 0 0))))).shape_
          ≠ (array_base.new3 2 3 4 .INT_TYPE 0 0).shape_ := by
  refine ⟨rfl, rfl, by decide⟩

/-- C13, amended: for every array or tree `A` of rank at most 2, the shape of `trans(trans(A))`
equals the shape of `A`. -/
theorem trans_trans_shape (A : Operand) (h : A.shape.length ≤ 2) :
    (trans (.tree (trans A))).shape_ = A.shape := by
  rw [trans_shape]
  show flip (trans A).shape_ = A.shape
  rw [trans_shape]
  match hs : A.shape, h with
  | [], _ => rfl
  | [a], _ => simp [flip, List.range_succ]
  | [a, b], _ => simp [flip, List.range_succ]
  | _ :: _ :: _ :: _, h =>
    simp only [List.length_cons] at h
    omega

/-- Witness for C13, amended: a fresh 2-by-3 array. -/
theorem trans_trans_shape_witness :
    (trans (.tree (trans (.arr (array_base.new2 2 3 .INT_TYPE 0 0))))).shape_
      = (Operand.arr (array_base.new2 2 3 .INT_TYPE 0 0)).shape :=
  trans_trans_shape (.arr (array_base.new2 2 3 .INT_TYPE 0 0)) (by decide)

/-! ## `dot`: rule 1 -/

theorem all_ones_of_prod_one (s : shape_t) (hn : ∀ d ∈ s, 0 ≤ d) (hp : shape_prod s = 1) :
    ∀ d ∈ s, d = 1 := by
  induction s with
  | nil => intro d hd; cases hd
  | cons a t ih =>
    have ha : 0 ≤ a := hn a (List.mem_cons_self a t)
    have ht : ∀ d ∈ t, 0 ≤ d := fun d hd => hn d (List.mem_cons_of_mem a hd)
    have hprod : a * t.prod = 1 := by simpa [shape_prod] using hp
    have ha1 : a = 1 := by
      rcases Int.eq_one_or_neg_one_of_mul_eq_one hprod with h | h
      · exact h
      · omega
    have ht1 : shape_prod t = 1 := by
      rw [ha1] at hprod
      simpa [shape_prod] using hprod
    intro d hd
    rcases List.mem_cons.mp hd with h | h
    · rw [h, ha1]
    · exact ih ht ht1 d h

theorem foldl_max_one (t : List Int) (h : ∀ d ∈ t, d = 1) : t.foldl Max.max 1 = 1 := by
  induction t with
  | nil => rfl
  | cons a t ih =>
    have ha : a = 1 := h a (List.mem_cons_self a t)
    rw [List.foldl_cons, ha, max_self]
    exact ih (fun d hd => h d (List.mem_cons_of_mem a hd))

theorem shape_max_of_all_ones (s : shape_t) (hne : s ≠ []) (h : ∀ d ∈ s, d = 1) :
    shape_max s = 1 := by
  cases s with
  | nil => exact absurd rfl hne
  | cons a t =>
    have ha : a = 1 := h a (List.mem_cons_self a t)
    subst ha
    exact foldl_max_one t (fun d hd => h d (List.mem_cons_of_mem 1 hd))

theorem getD_of_all_ones (l : List Int) (h : ∀ d ∈ l, d = 1) (i : Nat) : l.getD i 1 = 1 := by
  by_cases hi : i < l.length
  · rw [List.getD_eq_getElem _ _ hi]
    exact h _ (List.getElem_mem _)
  · rw [List.getD_eq_default _ _ (by omega)]

theorem pad_left_all_ones (n : Nat) (s : shape_t) (h : ∀ d ∈ s, d = 1) :
    ∀ d ∈ pad_left n s, d = 1 := by
  intro d hd
  unfold pad_left at hd
  rcases List.mem_append.mp hd with h1 | h1
  · exact (List.mem_replicate.mp h1).2
  · exact h d h1

theorem broadcast_compatible_of_ones_left (a b : shape_t) (h : ∀ d ∈ a, d = 1) :
    broadcast_compatible a b := fun i _ =>
  Or.inr (Or.inl (getD_of_all_ones _ (pad_left_all_ones _ a h) i))

theorem broadcast_compatible_of_ones_right (a b : shape_t) (h : ∀ d ∈ b, d = 1) :
    broadcast_compatible a b := fun i _ =>
  Or.inr (Or.inr (getD_of_all_ones _ (pad_left_all_ones _ b h) i))

/-- The first test of `dot`: when it holds the result is the product `x*y`. -/
theorem DEFINE_DOT_rule1 (x y : Operand)
    (h : shape_max x.shape = 1 ∨ shape_max y.shape = 1) :
    DEFINE_DOT x y = operator_mul x y := by
  unfold DEFINE_DOT
  simp only [if_pos h]

/-- C14: whenever `x` or `y` has total element count 1 (a shape of rank at least 1 with
non-negative dimensions whose product is 1), `dot(x,y)` is exactly `x*y`: the broadcast of the
two shapes succeeds, whatever the other operand's rank or shape, and the result is the binary
`MULT` node on `x` and `y` with the broadcast shape. -/
theorem dot_rule1_elementwise (x y : Operand)
    (h : (x.shape ≠ [] ∧ (∀ d ∈ x.shape, 0 ≤ d) ∧ shape_prod x.shape = 1)
      ∨ (y.shape ≠ [] ∧ (∀ d ∈ y.shape, 0 ≤ d) ∧ shape_prod y.shape = 1)) :
    DEFINE_DOT x y = operator_mul x y
      ∧ ∃ sh, broadcast x.shape y.shape = .ok sh
        ∧ DEFINE_DOT x y = .ok (expression_tree.ofOperands x y
            ⟨.BINARY_TYPE_FAMILY, .MULT_TYPE⟩ x.context x.dtype sh) := by
  have hmax : shape_max x.shape = 1 ∨ shape_max y.shape = 1 := by
    rcases h with ⟨h1, h2, h3⟩ | ⟨h1, h2, h3⟩
    · exact Or.inl (shape_max_of_all_ones _ h1 (all_ones_of_prod_one _ h2 h3))
    · exact Or.inr (shape_max_of_all_ones _ h1 (all_ones_of_prod_one _ h2 h3))
  have hc : broadcast_compatible x.shape y.shape := by
    rcases h with ⟨_, h2, h3⟩ | ⟨_, h2, h3⟩
    · exact broadcast_compatible_of_ones_left _ _ (all_ones_of_prod_one _ h2 h3)
    · exact broadcast_compatible_of_ones_right _ _ (all_ones_of_prod_one _ h2 h3)
  have hb := broadcast_ok_of_compatible _ _ hc
  refine ⟨DEFINE_DOT_rule1 x y hmax, _, hb, ?_⟩
  rw [DEFINE_DOT_rule1 x y hmax]
  unfold operator_mul DEFINE_ELEMENT_BINARY_OPERATOR
  rw [hb]
  rfl

/-- Witness for C14: the dot of two length-1 arrays is their elementwise product. -/
theorem dot_rule1_elementwise_witness :
    DEFINE_DOT (.arr (array_base.new1 1 .INT_TYPE 0 0)) (.arr (array_base.new1 1 .INT_TYPE 0 1))
        = operator_mul (.arr (array_base.new1 1 .INT_TYPE 0 0))
            (.arr (array_base.new1 1 .INT_TYPE 0 1))
      ∧ ∃ sh, broadcast (Operand.arr (array_base.new1 1 .INT_TYPE 0 0)).shape
            (Operand.arr (array_base.new1 1 .INT_TYPE 0 1)).shape = .ok sh
        ∧ DEFINE_DOT (.arr (array_base.new1 1 .INT_TYPE 0 0))
            (.arr (array_base.new1 1 .INT_TYPE 0 1))
          = .ok (expression_tree.ofOperands (.arr (array_base.new1 1 .INT_TYPE 0 0))
              (.arr (array_base.new1 1 .INT_TYPE 0 1)) ⟨.BINARY_TYPE_FAMILY, .MULT_TYPE⟩
              (Operand.arr (array_base.new1 1 .INT_TYPE 0 0)).context
              (Operand.arr (array_base.new1 1 .INT_TYPE 0 0)).dtype sh) :=
  dot_rule1_elementwise (.arr (array_base.new1 1 .INT_TYPE 0 0))
    (.arr (array_base.new1 1 .INT_TYPE 0 1))
    (Or.inl ⟨by decide, by decide, by decide⟩)

/-! ## Trees: root node and matrix products -/

theorem Operand.dim_eq (x : Operand) : x.dim = (x.shape.length : Int) := by
  cases x <;> rfl

theorem shape_max_pair (a b : Int) : shape_max [a, b] = Max.max a b := rfl

theorem shape_max_single (a : Int) : shape_max [a] = a := rfl

theorem nodeAt_eq_ok_iff (tree : List node) (i : Nat) (n : node) :
    nodeAt tree i = .ok n ↔ tree.get? i = some n := by
  unfold nodeAt
  cases h : tree.get? i <;> simp

theorem rootNode_ofLeaves (lhs rhs : tree_node) (op : op_element) (c : Context)
    (d : numeric_type) (s : shape_t) :
    (expression_tree.ofLeaves lhs rhs op c d s).rootNode = some ⟨lhs, op, rhs⟩ := rfl

theorem rootNode_ofTreeLeaf (lhs : expression_tree) (rhs : tree_node) (op : op_element)
    (c : Context) (d : numeric_type) (s : shape_t) :
    (expression_tree.ofTreeLeaf lhs rhs op c d s).rootNode
      = some ⟨.composite lhs.root_, op, rhs⟩ := by
  simp [expression_tree.ofTreeLeaf, expression_tree.rootNode]

theorem rootNode_ofLeafTree (lhs : tree_node) (rhs : expression_tree) (op : op_element)
    (c : Context) (d : numeric_type) (s : shape_t) :
    (expression_tree.ofLeafTree lhs rhs op c d s).rootNode
      = some ⟨lhs, op, .composite rhs.root_⟩ := by
  simp [expression_tree.ofLeafTree, expression_tree.rootNode]

theorem rootNode_ofTrees (lhs rhs : expression_tree) (op : op_element)
    (c : Context) (d : numeric_type) (s : shape_t) :
    (expression_tree.ofTrees lhs rhs op c d s).rootNode
      = some ⟨.composite lhs.root_, op, .composite (rhs.root_ + lhs.tree_.length)⟩ := by
  unfold expression_tree.ofTrees expression_tree.rootNode
  have hlen : lhs.tree_.length + rhs.tree_.length
      = (lhs.tree_ ++ rhs.tree_.map (node.shift lhs.tree_.length)).length := by simp
  simp only [List.get?_eq_getElem?]
  rw [hlen]
  exact List.getElem?_concat_length _ _

theorem setRootLhs_ok (res : expression_tree) (nd : node) (v : tree_node)
    (h : res.rootNode = some nd) :
    ∃ r, res.setRootLhs v = .ok r ∧ r.rootNode = some ⟨v, nd.op, nd.rhs⟩
      ∧ r.shape_ = res.shape_ ∧ r.root_ = res.root_ := by
  unfold expression_tree.rootNode at h
  have hn := (nodeAt_eq_ok_iff _ _ _).mpr h
  have hlt : res.root_ < res.tree_.length := by
    rw [List.get?_eq_getElem?] at h
    by_contra hc
    rw [List.getElem?_eq_none (by omega)] at h
    cases h
  refine ⟨⟨res.tree_.set res.root_ ⟨v, nd.op, nd.rhs⟩, res.root_, res.context_, res.dtype_,
    res.shape_⟩, ?_, ?_, rfl, rfl⟩
  · simp only [expression_tree.setRootLhs, hn, bind, Except.bind, pure, Except.pure]
  · simp [expression_tree.rootNode, hlt]

theorem setRootRhs_ok (res : expression_tree) (nd : node) (v : tree_node)
    (h : res.rootNode = some nd) :
    ∃ r, res.setRootRhs v = .ok r ∧ r.rootNode = some ⟨nd.lhs, nd.op, v⟩
      ∧ r.shape_ = res.shape_ ∧ r.root_ = res.root_ := by
  unfold expression_tree.rootNode at h
  have hn := (nodeAt_eq_ok_iff _ _ _).mpr h
  have hlt : res.root_ < res.tree_.length := by
    rw [List.get?_eq_getElem?] at h
    by_contra hc
    rw [List.getElem?_eq_none (by omega)] at h
    cases h
  refine ⟨⟨res.tree_.set res.root_ ⟨nd.lhs, nd.op, v⟩, res.root_, res.context_, res.dtype_,
    res.shape_⟩, ?_, ?_, rfl, rfl⟩
  · simp only [expression_tree.setRootRhs, hn, bind, Except.bind, pure, Except.pure]
  · simp [expression_tree.rootNode, hlt]


theorem rootNode_of_valid (t : expression_tree) (h : t.root_ < t.tree_.length) :
    ∃ nd, t.rootNode = some nd ∧ nodeAt t.tree_ t.root_ = .ok nd := by
  refine ⟨t.tree_[t.root_], ?_, ?_⟩
  · simp [expression_tree.rootNode, List.getElem?_eq_getElem h]
  · rw [nodeAt_eq_ok_iff]
    simp [List.getElem?_eq_getElem h]

theorem matmatprod_root (A B : Operand) (m k1 k2 n : Int)
    (hA : A.shape = [m, k1]) (hB : B.shape = [k2, n])
    (vA : A.rootValid) (vB : B.rootValid) :
    ∃ t nd, matmatprod A B = .ok t ∧ t.shape_ = [m, n] ∧ t.rootNode = some nd
      ∧ nd.op = ⟨.MATRIX_PRODUCT_TYPE_FAMILY,
          spec_product_variant A.rootIsTrans B.rootIsTrans⟩ := by
  cases A with
  | arr a =>
    cases B with
    | arr b =>
      simp only [Operand.shape] at hA hB
      refine ⟨expression_tree.ofLeaves (.dense_array a) (.dense_array b)
        ⟨.MATRIX_PRODUCT_TYPE_FAMILY, .MATRIX_PRODUCT_NN_TYPE⟩ a.context_ a.dtype_ [m, n],
        _, ?_, rfl, rootNode_ofLeaves _ _ _ _ _ _, rfl⟩
      simp only [matmatprod, matmatprod_aa, hA, hB, idx_cons_zero, idx_cons_succ, bind,
        Except.bind, pure, Except.pure]
    | tree u =>
      simp only [Operand.shape] at hA hB
      obtain ⟨ndB, hrB, hnB⟩ := rootNode_of_valid u vB
      by_cases hB_trans : ndB.op.type = .TRANS_TYPE
      · obtain ⟨r, hr, hroot, hshape, _⟩ := setRootRhs_ok
          (expression_tree.ofLeafTree (.dense_array a) u
            ⟨.MATRIX_PRODUCT_TYPE_FAMILY, .MATRIX_PRODUCT_NT_TYPE⟩ a.context_ a.dtype_ [m, n])
          _ ndB.lhs (rootNode_ofLeafTree _ _ _ _ _ _)
        refine ⟨r, _, ?_, hshape, hroot, ?_⟩
        · simp only [matmatprod, matmatprod_at, hA, hB, idx_cons_zero, idx_cons_succ, bind,
            Except.bind, pure, Except.pure, hnB, hB_trans, decide_True, if_true]
          exact hr
        · simp [Operand.rootIsTrans, hrB, hB_trans, spec_product_variant]
      · refine ⟨expression_tree.ofLeafTree (.dense_array a) u
          ⟨.MATRIX_PRODUCT_TYPE_FAMILY, .MATRIX_PRODUCT_NN_TYPE⟩ a.context_ a.dtype_ [m, n],
          _, ?_, rfl, rootNode_ofLeafTree _ _ _ _ _ _, ?_⟩
        · simp only [matmatprod, matmatprod_at, hA, hB, idx_cons_zero, idx_cons_succ, bind,
            Except.bind, pure, Except.pure, hnB, hB_trans, decide_False]
          rfl
        · simp [Operand.rootIsTrans, hrB, hB_trans, spec_product_variant]
  | tree t =>
    obtain ⟨ndA, hrA, hnA⟩ := rootNode_of_valid t vA
    cases B with
    | arr b =>
      simp only [Operand.shape] at hA hB
      by_cases hA_trans : ndA.op.type = .TRANS_TYPE
      · obtain ⟨r, hr, hroot, hshape, _⟩ := setRootLhs_ok
          (expression_tree.ofTreeLeaf t (.dense_array b)
            ⟨.MATRIX_PRODUCT_TYPE_FAMILY, .MATRIX_PRODUCT_TN_TYPE⟩ t.context_ t.dtype_ [m, n])
          _ ndA.lhs (rootNode_ofTreeLeaf _ _ _ _ _ _)
        refine ⟨r, _, ?_, hshape, hroot, ?_⟩
        · simp only [matmatprod, matmatprod_ta, hA, hB, idx_cons_zero, idx_cons_succ, bind,
            Except.bind, pure, Except.pure, hnA, hA_trans, decide_True, if_true]
          exact hr
        · simp [Operand.rootIsTrans, hrA, hA_trans, spec_product_variant]
      · refine ⟨expression_tree.ofTreeLeaf t (.dense_array b)
          ⟨.MATRIX_PRODUCT_TYPE_FAMILY, .MATRIX_PRODUCT_NN_TYPE⟩ t.context_ t.dtype_ [m, n],
          _, ?_, rfl, rootNode_ofTreeLeaf _ _ _ _ _ _, ?_⟩
        · simp only [matmatprod, matmatprod_ta, hA, hB, idx_cons_zero, idx_cons_succ, bind,
            Except.bind, pure, Except.pure, hnA, hA_trans, decide_False]
          rfl
        · simp [Operand.rootIsTrans, hrA, hA_trans, spec_product_variant]
    | tree u =>
      simp only [Operand.shape] at hA hB
      obtain ⟨ndB, hrB, hnB⟩ := rootNode_of_valid u vB
      by_cases hA_trans : ndA.op.type = .TRANS_TYPE <;>
        by_cases hB_trans : ndB.op.type = .TRANS_TYPE
      · obtain ⟨r1, hr1, hroot1, hshape1, _⟩ := setRootLhs_ok
          (expression_tree.ofTrees t u
            ⟨.MATRIX_PRODUCT_TYPE_FAMILY, .MATRIX_PRODUCT_TT_TYPE⟩ t.context_ t.dtype_ [m, n])
          _ ndA.lhs (rootNode_ofTrees _ _ _ _ _ _)
        obtain ⟨r2, hr2, hroot2, hshape2, _⟩ := setRootRhs_ok r1 _ ndB.lhs hroot1
        refine ⟨r2, _, ?_, hshape2.trans hshape1, hroot2, ?_⟩
        · simp only [matmatprod, matmatprod_tt, hA, hB, idx_cons_zero, idx_cons_succ, bind,
            Except.bind, pure, Except.pure, hnA, hnB, hA_trans, hB_trans, decide_True, if_true,
            Bool.and_self, hr1]
          exact hr2
        · simp [Operand.rootIsTrans, hrA, hrB, hA_trans, hB_trans, spec_product_variant]
      · obtain ⟨r1, hr1, hroot1, hshape1, _⟩ := setRootLhs_ok
          (expression_tree.ofTrees t u
            ⟨.MATRIX_PRODUCT_TYPE_FAMILY, .MATRIX_PRODUCT_TN_TYPE⟩ t.context_ t.dtype_ [m, n])
          _ ndA.lhs (rootNode_ofTrees _ _ _ _ _ _)
        refine ⟨r1, _, ?_, hshape1, hroot1, ?_⟩
        · simp [matmatprod, matmatprod_tt, hA, hB, idx_cons_zero, idx_cons_succ, bind,
            Except.bind, pure, Except.pure, hnA, hnB, hA_trans, hB_trans, hr1]
        · simp [Operand.rootIsTrans, hrA, hrB, hA_trans, hB_trans, spec_product_variant]
      · obtain ⟨r1, hr1, hroot1, hshape1, _⟩ := setRootRhs_ok
          (expression_tree.ofTrees t u
            ⟨.MATRIX_PRODUCT_TYPE_FAMILY, .MATRIX_PRODUCT_NT_TYPE⟩ t.context_ t.dtype_ [m, n])
          _ ndB.lhs (rootNode_ofTrees _ _ _ _ _ _)
        refine ⟨r1, _, ?_, hshape1, hroot1, ?_⟩
        · simp [matmatprod, matmatprod_tt, hA, hB, idx_cons_zero, idx_cons_succ, bind,
            Except.bind, pure, Except.pure, hnA, hnB, hA_trans, hB_trans, hr1]
        · simp [Operand.rootIsTrans, hrA, hrB, hA_trans, hB_trans, spec_product_variant]
      · refine ⟨expression_tree.ofTrees t u
          ⟨.MATRIX_PRODUCT_TYPE_FAMILY, .MATRIX_PRODUCT_NN_TYPE⟩ t.context_ t.dtype_ [m, n],
          _, ?_, rfl, rootNode_ofTrees _ _ _ _ _ _, ?_⟩
        · simp [matmatprod, matmatprod_tt, hA, hB, idx_cons_zero, idx_cons_succ, bind,
            Except.bind, pure, Except.pure, hnA, hnB, hA_trans, hB_trans]
        · simp [Operand.rootIsTrans, hrA, hrB, hA_trans, hB_trans, spec_product_variant]

/-! ## `dot`: empty contraction and matrix product -/

/-- For an `m`-by-0 and a 0-by-`n` operand with `m` and `n` different from 1, the second test
of `dot` returns `zeros(m, n)`. -/
theorem dot_empty_contraction_zeros (x y : Operand) (m n : Int)
    (hx : x.shape = [m, 0]) (hy : y.shape = [0, n]) (hm1 : m ≠ 1) (hn1 : n ≠ 1) :
    DEFINE_DOT x y = .ok (zeros m n x.dtype x.context) := by
  have hmx : ¬ (Max.max m 0 = 1 ∨ Max.max 0 n = 1) := by omega
  simp only [DEFINE_DOT, Operand.dim_eq, hx, hy, shape_max_pair, if_neg hmx, and_then, eq_at,
    idx_cons_zero, idx_cons_succ, bind, Except.bind, pure, Except.pure, List.length_cons,
    List.length_nil]
  simp

/-- C15 (code evaluated at the failing inputs): for the 1-by-0 matrix `x` and the 0-by-3 matrix
`y` the first test of `dot`, `x.shape().max()==1`, holds although `x` has no element, so `dot`
returns `x*y`, whose broadcast of `{1,0}` with `{0,3}` fails; the same happens for a 2-by-0 and
a 0-by-1 matrix; for 1-by-0 and 0-by-1 the result is the `MULT` node of shape `{1,1}`.  For
2-by-0 and 0-by-3 the result is `zeros(2,3)`. -/
theorem dot_empty_contraction_rule1_preempts :
    dot (array_base.new2 1 0 .INT_TYPE 0 0) (array_base.new2 0 3 .INT_TYPE 0 1)
        = .error .shapeMismatch
      ∧ dot (array_base.new2 2 0 .INT_TYPE 0 0) (array_base.new2 0 1 .INT_TYPE 0 1)
        = .error .shapeMismatch
      ∧ (dot (array_base.new2 1 0 .INT_TYPE 0 0) (array_base.new2 0 1 .INT_TYPE 0 1)).map
          (fun t => (t.shape_, t.rootNode.map (fun nd => nd.op)))
        = .ok ([1, 1], some ⟨.BINARY_TYPE_FAMILY, .MULT_TYPE⟩)
      ∧ dot (array_base.new2 2 0 .INT_TYPE 0 0) (array_base.new2 0 3 .INT_TYPE 0 1)
        = .ok (zeros 2 3 .INT_TYPE 0) := by
  refine ⟨by decide, by decide, by decide, by decide⟩

/-- C16 as stated fails: for `x` of shape 2-by-1 and `y` of shape 1-by-4 (`k = 1`) `dot`
returns the elementwise product `x*y`, a binary `MULT` node of shape `{2,4}`; for `x` of shape
1-by-3 and `y` of shape 3-by-1 (`m = n = 1`) it returns `sum(x*trans(y))`, a full reduction of
shape `{1}`; for `x` of shape 1-by-3 and `y` of shape 3-by-2 (`m = 1`, `n = 2`) it returns
`trans(matvecprod(trans(y), trans(x)))`, a `TRANS` node of shape `{2}`.  None is a node of the
matrix-product family. -/
theorem dot_rule7_preempted :
    (dot (array_base.new2 2 1 .INT_TYPE 0 0) (array_base.new2 1 4 .INT_TYPE 0 1)).map
        (fun t => (t.shape_, t.rootNode.map (fun nd => nd.op)))
        = .ok ([2, 4], some ⟨.BINARY_TYPE_FAMILY, .MULT_TYPE⟩)
      ∧ (dot (array_base.new2 1 3 .INT_TYPE 0 0) (array_base.new2 3 1 .INT_TYPE 0 1)).map
          (fun t => (t.shape_, t.rootNode.map (fun nd => nd.op)))
        = .ok ([1], some ⟨.VECTOR_DOT_TYPE_FAMILY, .ADD_TYPE⟩)
      ∧ (dot (array_base.new2 1 3 .INT_TYPE 0 0) (array_base.new2 3 2 .INT_TYPE 0 1)).map
          (fun t => (t.shape_, t.rootNode.map (fun nd => nd.op)))
        = .ok ([2], some ⟨.UNARY_TYPE_FAMILY, .TRANS_TYPE⟩) := by
  refine ⟨by decide, by decide, by decide⟩

/-- The last branch of `dot`: two rank-2 operands with a contraction length of at least 2, other
than a 1-by-`k` row with a `k`-by-1 or `k`-by-2 right operand, go to `matmatprod`. -/
theorem DEFINE_DOT_rule7 (x y : Operand) (m k n : Int)
    (hx : x.shape = [m, k]) (hy : y.shape = [k, n])
    (hm : 1 ≤ m) (hk : 2 ≤ k) (hn : 1 ≤ n)
    (h11 : ¬ (m = 1 ∧ n = 1)) (h12 : ¬ (m = 1 ∧ n = 2)) :
    DEFINE_DOT x y = matmatprod x y := by
  have hmx : ¬ (Max.max m k = 1 ∨ Max.max k n = 1) := by omega
  have hk0 : k ≠ 0 := by omega
  have hk1 : k ≠ 1 := by omega
  have hm0 : m ≠ 0 := by omega
  have hn0 : n ≠ 0 := by omega
  simp only [DEFINE_DOT, Operand.dim_eq, hx, hy, shape_max_pair, if_neg hmx, and_then, or_else,
    eq_at, idx_cons_zero, idx_cons_succ, bind, Except.bind, pure, Except.pure,
    List.length_cons, List.length_nil]
  simp only [hk0, hk1, hm0, hn0, decide_False, decide_True, if_true, if_false]
  by_cases hm1 : m = 1
  · have hn1 : n ≠ 1 := fun h => h11 ⟨hm1, h⟩
    have hn2 : n ≠ 2 := fun h => h12 ⟨hm1, h⟩
    simp [hm1, hn1, hn2]
  · simp [hm1]

/-- C16, amended: for every rank-2 `x` of shape `m`-by-`k` and rank-2 `y` of shape `k`-by-`n`
with `m, n ≥ 1` and `k ≥ 2`, other than `m = 1` together with `n = 1` or `n = 2`, `dot(x,y)` is
the result of `matmatprod`: a node of the matrix-product family, of the variant NN, TN, NT or
TT given by which operands are transposes, whose shape is `{m, n}`. -/
theorem dot_rule7_matrix_product (x y : Operand) (m k n : Int)
    (hx : x.shape = [m, k]) (hy : y.shape = [k, n])
    (vx : x.rootValid) (vy : y.rootValid)
    (hm : 1 ≤ m) (hk : 2 ≤ k) (hn : 1 ≤ n)
    (h11 : ¬ (m = 1 ∧ n = 1)) (h12 : ¬ (m = 1 ∧ n = 2)) :
    ∃ t nd, DEFINE_DOT x y = .ok t ∧ matmatprod x y = .ok t ∧ t.shape_ = [m, n]
      ∧ t.rootNode = some nd
      ∧ nd.op = ⟨.MATRIX_PRODUCT_TYPE_FAMILY, spec_product_variant x.rootIsTrans y.rootIsTrans⟩
      ∧ nd.op.type ∈ [operation_type.MATRIX_PRODUCT_NN_TYPE, .MATRIX_PRODUCT_NT_TYPE,
          .MATRIX_PRODUCT_TN_TYPE, .MATRIX_PRODUCT_TT_TYPE] := by
  obtain ⟨t, nd, ht, hshape, hroot, hop⟩ := matmatprod_root x y m k k n hx hy vx vy
  refine ⟨t, nd, ?_, ht, hshape, hroot, hop, ?_⟩
  · rw [DEFINE_DOT_rule7 x y m k n hx hy hm hk hn h11 h12, ht]
  · rw [hop]
    cases x.rootIsTrans <;> cases y.rootIsTrans <;> simp [spec_product_variant]

/-- Witness for C16, amended: a fresh 2-by-3 array times the transpose of a fresh 4-by-3
array. -/
theorem dot_rule7_matrix_product_witness :
    ∃ t nd, DEFINE_DOT (.arr (array_base.new2 2 3 .INT_TYPE 0 0))
          (.tree (trans (.arr (array_base.new2 4 3 .INT_TYPE 0 1)))) = .ok t
      ∧ matmatprod (.arr (array_base.new2 2 3 .INT_TYPE 0 0))
          (.tree (trans (.arr (array_base.new2 4 3 .INT_TYPE 0 1)))) = .ok t
      ∧ t.shape_ = [2, 4] ∧ t.rootNode = some nd
      ∧ nd.op = ⟨.MATRIX_PRODUCT_TYPE_FAMILY,
          spec_product_variant (Operand.arr (array_base.new2 2 3 .INT_TYPE 0 0)).rootIsTrans
            (Operand.tree (trans (.arr (array_base.new2 4 3 .INT_TYPE 0 1)))).rootIsTrans⟩
      ∧ nd.op.type ∈ [operation_type.MATRIX_PRODUCT_NN_TYPE, .MATRIX_PRODUCT_NT_TYPE,
          .MATRIX_PRODUCT_TN_TYPE, .MATRIX_PRODUCT_TT_TYPE] :=
  dot_rule7_matrix_product (.arr (array_base.new2 2 3 .INT_TYPE 0 0))
    (.tree (trans (.arr (array_base.new2 4 3 .INT_TYPE 0 1)))) 2 3 4
    rfl (by decide) (by decide) (by decide) (by decide) (by decide) (by decide)
    (by decide) (by decide)

/-! ## Builders: shapes of intermediate nodes -/

theorem broadcast_same_vec (n : Int) : broadcast [n] [n] = .ok [n] := by
  simp [broadcast, broadcast_loop, idx_cons_zero, bind, Except.bind]

theorem broadcast_row_vec (n : Int) : broadcast [1, n] [n] = .ok [1, n] := by
  simp [broadcast, broadcast_loop, idx_cons_zero, idx_cons_succ, bind, Except.bind]

theorem broadcast_same_mat (m n : Int) : broadcast [m, n] [m, n] = .ok [m, n] := by
  simp [broadcast, broadcast_loop, idx_cons_zero, idx_cons_succ, bind, Except.bind]

theorem ofOperands_context (x y : Operand) (op : op_element) (c : Context) (d : numeric_type)
    (sh : shape_t) : (expression_tree.ofOperands x y op c d sh).context_ = c := by
  cases x <;> cases y <;> rfl

theorem ofOperands_dtype (x y : Operand) (op : op_element) (c : Context) (d : numeric_type)
    (sh : shape_t) : (expression_tree.ofOperands x y op c d sh).dtype_ = d := by
  cases x <;> cases y <;> rfl

theorem ofOperands_shape (x y : Operand) (op : op_element) (c : Context) (d : numeric_type)
    (sh : shape_t) : (expression_tree.ofOperands x y op c d sh).shape_ = sh := by
  cases x <;> cases y <;> rfl

theorem ofOperandLeaf_context (x : Operand) (r : tree_node) (op : op_element) (c : Context)
    (d : numeric_type) (sh : shape_t) :
    (expression_tree.ofOperandLeaf x r op c d sh).context_ = c := by
  cases x <;> rfl

theorem ofOperandLeaf_dtype (x : Operand) (r : tree_node) (op : op_element) (c : Context)
    (d : numeric_type) (sh : shape_t) :
    (expression_tree.ofOperandLeaf x r op c d sh).dtype_ = d := by
  cases x <;> rfl

theorem ofOperandLeaf_shape (x : Operand) (r : tree_node) (op : op_element) (c : Context)
    (d : numeric_type) (sh : shape_t) :
    (expression_tree.ofOperandLeaf x r op c d sh).shape_ = sh := by
  cases x <;> rfl

theorem sum_tree_full (p : expression_tree) :
    sum_tree p (-1) = .ok (expression_tree.ofTreeLeaf p .invalid
      ⟨.VECTOR_DOT_TYPE_FAMILY, .ADD_TYPE⟩ p.context_ p.dtype_ [1]) := by
  have h : ¬ ((-1 : Int) < -1 ∨ (-1 : Int) > p.dim) := by
    unfold expression_tree.dim
    omega
  unfold sum_tree DEFINE_REDUCTION_tree
  rw [if_neg h, if_pos rfl]

theorem sum_tree_rows (p : expression_tree) (a b : Int) (h : p.shape_ = [a, b]) :
    sum_tree p 1 = .ok (expression_tree.ofTreeLeaf p .invalid
      ⟨.ROWS_DOT_TYPE_FAMILY, .ADD_TYPE⟩ p.context_ p.dtype_ [a]) := by
  have hr : ¬ ((1 : Int) < -1 ∨ (1 : Int) > p.dim) := by
    unfold expression_tree.dim
    rw [h]
    simp
  unfold sum_tree DEFINE_REDUCTION_tree
  rw [if_neg hr, if_neg (by decide), if_neg (by decide), h]
  rfl

theorem sum_tree_columns (p : expression_tree) (a b : Int) (h : p.shape_ = [a, b]) :
    sum_tree p 0 = .ok (expression_tree.ofTreeLeaf p .invalid
      ⟨.COLUMNS_DOT_TYPE_FAMILY, .ADD_TYPE⟩ p.context_ p.dtype_ [b]) := by
  have hr : ¬ ((0 : Int) < -1 ∨ (0 : Int) > p.dim) := by
    unfold expression_tree.dim
    rw [h]
    simp
  unfold sum_tree DEFINE_REDUCTION_tree
  rw [if_neg hr, if_neg (by decide), if_pos rfl, h]
  rfl

theorem DEFINE_DOT_rule6_left (x y : Operand) (m n : Int) (hx : x.shape = [m, n])
    (hy : y.shape = [n]) (hm : 2 ≤ m) (hn : 2 ≤ n) :
    DEFINE_DOT x y = matvecprod x y := by
  have hmx : ¬ (Max.max m n = 1 ∨ n = 1) := by omega
  have hn0 : n ≠ 0 := by omega
  have hn1 : n ≠ 1 := by omega
  have hm0 : m ≠ 0 := by omega
  have hm1 : m ≠ 1 := by omega
  simp only [DEFINE_DOT, Operand.dim_eq, hx, hy, shape_max_single, shape_max_pair, if_neg hmx,
    and_then, or_else, eq_at, idx_cons_zero, idx_cons_succ, bind, Except.bind, pure,
    Except.pure, List.length_cons, List.length_nil]
  simp [hn0, hn1, hm0, hm1]

theorem DEFINE_DOT_rule6_right (x y : Operand) (k n : Int) (hx : x.shape = [k])
    (hy : y.shape = [k, n]) (hk : 2 ≤ k) (hn : 2 ≤ n) :
    DEFINE_DOT x y = (matvecprod (.tree (trans y)) (.tree (trans x))).map
      (fun r => trans (.tree r)) := by
  have hmx : ¬ (k = 1 ∨ Max.max k n = 1) := by omega
  have hn0 : n ≠ 0 := by omega
  have hk0 : k ≠ 0 := by omega
  have hk1 : k ≠ 1 := by omega
  simp only [DEFINE_DOT, Operand.dim_eq, hx, hy, shape_max_single, shape_max_pair, if_neg hmx,
    and_then, or_else, eq_at, idx_cons_zero, idx_cons_succ, bind, Except.bind, pure,
    Except.pure, List.length_cons, List.length_nil]
  simp [hn0, hk0, hk1]
  cases matvecprod (.tree (trans y)) (.tree (trans x)) <;> rfl

theorem reshape_shape (x : Operand) (sh : shape_t) : (reshape x sh).shape_ = sh :=
  ofOperandLeaf_shape _ _ _ _ _ _

theorem reshape_context (x : Operand) (sh : shape_t) : (reshape x sh).context_ = x.context :=
  ofOperandLeaf_context _ _ _ _ _ _

theorem reshape_dtype (x : Operand) (sh : shape_t) : (reshape x sh).dtype_ = x.dtype :=
  ofOperandLeaf_dtype _ _ _ _ _ _

theorem trans_context (x : Operand) : (trans x).context_ = x.context :=
  ofOperandLeaf_context _ _ _ _ _ _

theorem trans_dtype (x : Operand) : (trans x).dtype_ = x.dtype :=
  ofOperandLeaf_dtype _ _ _ _ _ _

theorem repmat_reshape_row (y : Operand) (m n : Int) :
    repmat (.tree (reshape y [1, n])) m 1
      = .ok (expression_tree.ofTreeLeaf (reshape y [1, n]) (.tuple [m, 1, 1, n])
          ⟨.BINARY_TYPE_FAMILY, .REPEAT_TYPE⟩ y.context y.dtype [m, n]) := by
  simp only [repmat, Operand.shape, Operand.dim, expression_tree.dim, reshape_shape,
    reshape_context, reshape_dtype, Operand.context, Operand.dtype,
    idx_cons_zero, idx_cons_succ, bind, Except.bind, pure, Except.pure,
    expression_tree.ofOperandLeaf, List.length_cons, List.length_nil]
  simp

theorem matvecprod_array_eq (x : array_base) (y : Operand) (m n : Int) (hx : x.shape_ = [m, n]) :
    matvecprod_array x y
      = .ok (expression_tree.ofTreeLeaf
          (expression_tree.ofLeafTree (.dense_array x)
            (expression_tree.ofTreeLeaf (reshape y [1, n]) (.tuple [m, 1, 1, n])
              ⟨.BINARY_TYPE_FAMILY, .REPEAT_TYPE⟩ y.context y.dtype [m, n])
            ⟨.BINARY_TYPE_FAMILY, .MULT_TYPE⟩ x.context_ x.dtype_ [m, n])
          .invalid ⟨.ROWS_DOT_TYPE_FAMILY, .ADD_TYPE⟩ x.context_ x.dtype_ [m]) := by
  simp only [matvecprod_array, hx, idx_cons_zero, idx_cons_succ, bind, Except.bind,
    repmat_reshape_row, operator_mul, DEFINE_ELEMENT_BINARY_OPERATOR, Operand.shape,
    expression_tree.ofTreeLeaf, broadcast_same_mat, pure, Except.pure, sum_operand,
    expression_tree.ofOperands, Operand.context, Operand.dtype]
  rw [sum_tree_rows _ m n rfl]
  rfl
theorem flip_pair (a b : Int) : flip [a, b] = [b, a] := by
  simp [flip, List.range_succ]

theorem flip_single (a : Int) : flip [a] = [a] := by
  simp [flip, List.range_succ]

theorem trans_arr_eq (y : array_base) (k n : Int) (hy : y.shape_ = [k, n]) :
    trans (.arr y) = ⟨[⟨.dense_array y, ⟨.UNARY_TYPE_FAMILY, .TRANS_TYPE⟩, .invalid⟩], 0,
      y.context_, y.dtype_, [n, k]⟩ := by
  simp only [trans, expression_tree.ofOperandLeaf, expression_tree.ofLeaves, Operand.shape,
    Operand.context, Operand.dtype, hy, flip_pair]

theorem matvecprod_tree_trans_array (y : array_base) (v : Operand) (k n : Int)
    (hy : y.shape_ = [k, n]) (hv : v.shape = [k]) :
    ∃ r, matvecprod_tree (trans (.arr y)) v = .ok r ∧ r.shape_ = [n]
      ∧ r.rootNode.map (fun nd => nd.op) = some ⟨.COLUMNS_DOT_TYPE_FAMILY, .ADD_TYPE⟩ := by
  obtain ⟨tmp1, h1, _, hshape, _⟩ := setRootLhs_ok
    (expression_tree.ofTrees
      ⟨[⟨.dense_array y, ⟨.UNARY_TYPE_FAMILY, .TRANS_TYPE⟩, .invalid⟩], 0, y.context_, y.dtype_,
        [n, k]⟩
      (expression_tree.ofOperandLeaf v (.tuple [1, n, k, 1])
        ⟨.BINARY_TYPE_FAMILY, .REPEAT_TYPE⟩ v.context v.dtype [1 * k, n * 1])
      ⟨.BINARY_TYPE_FAMILY, .ELEMENT_PROD_TYPE⟩ y.context_ y.dtype_ [k, n])
    _ (.dense_array y) (rootNode_ofTrees _ _ _ _ _ _)
  have hshape2 : tmp1.shape_ = [k, n] := hshape
  refine ⟨expression_tree.ofTreeLeaf tmp1 .invalid ⟨.COLUMNS_DOT_TYPE_FAMILY, .ADD_TYPE⟩
    tmp1.context_ tmp1.dtype_ [n], ?_, ?_, ?_⟩
  · simp only [matvecprod_tree, matvecprod_tree_run, trans_arr_eq y k n hy, idx_cons_zero,
      idx_cons_succ, bind, Except.bind, pure, Except.pure, nodeAt, List.get?, matvecprod_loop,
      List.length_cons, List.length_nil, decide_True, if_true, repmat, hv, Operand.dim_eq]
    simp only [show ¬ (((0 + 1 : Nat) : Int) = 2) by decide, if_false, bind, Except.bind, pure,
      Except.pure]
    have h1' := h1
    simp only [expression_tree.setRootLhs, bind, Except.bind, pure, Except.pure, nodeAt] at h1'
    simp only [expression_tree.setRootLhs, bind, Except.bind, pure, Except.pure, nodeAt, h1',
      sum_operand]
    rw [sum_tree_columns tmp1 k n hshape2]
  · rfl
  · simp [rootNode_ofTreeLeaf]

/-! ## The loop of `matvecprod` -/

theorem lhs_ordered_from_get (l : List node) :
    ∀ (i k : Nat) (nd : node), lhs_ordered_from i l = true → l.get? k = some nd →
      node_lhs_below nd (i + k) = true := by
  induction l with
  | nil => intro i k nd _ h; cases h
  | cons a rest ih =>
    intro i k nd hwf h
    simp only [lhs_ordered_from, Bool.and_eq_true] at hwf
    cases k with
    | zero =>
      simp only [List.get?] at h
      cases h
      exact hwf.1
    | succ k =>
      simp only [List.get?] at h
      have := ih (i + 1) k nd hwf.2 h
      rwa [show i + (k + 1) = i + 1 + k by omega]

theorem set_concat_length (base : List node) (a b : node) :
    (base ++ [a]).set base.length b = base ++ [b] := by
  induction base with
  | nil => rfl
  | cons c rest ih => simp [List.set, ih]

theorem nodeAt_concat_length (base : List node) (a : node) :
    nodeAt (base ++ [a]) base.length = .ok a := by
  rw [nodeAt_eq_ok_iff, List.get?_eq_getElem?]
  exact List.getElem?_concat_length _ _

theorem nodeAt_concat_lt (base : List node) (a : node) (j : Nat) (h : j < base.length) :
    ∃ child, base.get? j = some child ∧ nodeAt (base ++ [a]) j = .ok child := by
  refine ⟨base[j], ?_, ?_⟩
  · rw [List.get?_eq_getElem?, List.getElem?_eq_getElem h]
  · rw [nodeAt_eq_ok_iff, List.get?_eq_getElem?, List.getElem?_append_left h,
      List.getElem?_eq_getElem h]

/-- On a well-formed arena `base` followed by the root slot, the loop of `matvecprod` ends: it
leaves `base` as it is and only overwrites the root slot. -/
theorem matvecprod_loop_terminates (base : List node) (hwf : lhs_ordered_from 0 base = true) :
    ∀ (fuel bound : Nat) (slot : node) (flag : Bool), bound < fuel → bound ≤ base.length →
      (∀ j, slot.lhs = .composite j → j < bound) →
      ∃ slot2 flag2, matvecprod_loop base.length fuel (base ++ [slot]) flag
        = .ok (base ++ [slot2], flag2) := by
  intro fuel
  induction fuel with
  | zero => intro bound _ _ h; omega
  | succ fuel ih =>
    intro bound slot flag hb hle hslot
    cases hl : slot.lhs with
    | composite j =>
      have hj := hslot j hl
      obtain ⟨child, hget, hnode⟩ := nodeAt_concat_lt base slot j (by omega)
      have hchild : ∀ j2, child.lhs = .composite j2 → j2 < j := by
        intro j2 h2
        have := lhs_ordered_from_get base 0 j child hwf hget
        simp only [node_lhs_below, h2, Nat.zero_add, decide_eq_true_eq] at this
        exact this
      obtain ⟨slot2, flag2, h⟩ := ih j child
        (xor flag (decide (child.op.type = .TRANS_TYPE))) (by omega) (by omega) hchild
      refine ⟨slot2, flag2, ?_⟩
      simp only [matvecprod_loop, nodeAt_concat_length, bind, Except.bind, hl, hnode,
        set_concat_length]
      exact h
    | invalid =>
      exact ⟨slot, flag, by simp only [matvecprod_loop, nodeAt_concat_length, bind, Except.bind, hl]; rfl⟩
    | value v =>
      exact ⟨slot, flag, by simp only [matvecprod_loop, nodeAt_concat_length, bind, Except.bind, hl]; rfl⟩
    | dense_array a =>
      exact ⟨slot, flag, by simp only [matvecprod_loop, nodeAt_concat_length, bind, Except.bind, hl]; rfl⟩
    | for_idx l =>
      exact ⟨slot, flag, by simp only [matvecprod_loop, nodeAt_concat_length, bind, Except.bind, hl]; rfl⟩
    | tuple xs =>
      exact ⟨slot, flag, by simp only [matvecprod_loop, nodeAt_concat_length, bind, Except.bind, hl]; rfl⟩

theorem repmat_vec (v : Operand) (k rep1 rep2 : Int) (hv : v.shape = [k]) :
    repmat v rep1 rep2 = .ok (expression_tree.ofOperandLeaf v (.tuple [rep1, rep2, k, 1])
      ⟨.BINARY_TYPE_FAMILY, .REPEAT_TYPE⟩ v.context v.dtype [rep1 * k, rep2 * 1]) := by
  simp only [repmat, hv, Operand.dim_eq, idx_cons_zero, bind, Except.bind, pure, Except.pure,
    List.length_cons, List.length_nil]
  simp only [show ¬ (((0 + 1 : Nat) : Int) = 2) by decide, if_false]

theorem trans_tree_eq (u : expression_tree) (k n : Int) (hu : u.shape_ = [k, n]) :
    trans (.tree u) = ⟨u.tree_ ++ [⟨.composite u.root_, ⟨.UNARY_TYPE_FAMILY, .TRANS_TYPE⟩,
      .invalid⟩], u.tree_.length, u.context_, u.dtype_, [n, k]⟩ := by
  simp only [trans, expression_tree.ofOperandLeaf, expression_tree.ofTreeLeaf, Operand.shape,
    Operand.context, Operand.dtype, hu, flip_pair]

/-- On the transpose of a well-formed tree of shape `k`-by-`n` and a rank-1 operand of length
`k`, `matvecprod` returns a node of shape `{n}`, whichever branch the loop selects. -/
theorem matvecprod_tree_trans_tree (u : expression_tree) (v : Operand) (k n : Int)
    (hu : u.shape_ = [k, n]) (hv : v.shape = [k]) (hroot : u.root_ < u.tree_.length)
    (hwf : lhs_ordered_from 0 u.tree_ = true) :
    ∃ r, matvecprod_tree (trans (.tree u)) v = .ok r ∧ r.shape_ = [n] := by
  obtain ⟨slot2, flag2, hloop⟩ := matvecprod_loop_terminates u.tree_ hwf
    (u.tree_.length + 1 + 1) u.tree_.length
    ⟨.composite u.root_, ⟨.UNARY_TYPE_FAMILY, .TRANS_TYPE⟩, .invalid⟩ true (by omega)
    (Nat.le_refl _) (fun j hj => by cases hj; exact hroot)
  cases flag2 with
  | true =>
    obtain ⟨tmp1, h1, _, hshape, _⟩ := setRootLhs_ok
      (expression_tree.ofTrees
        ⟨u.tree_ ++ [slot2], u.tree_.length, u.context_, u.dtype_, [n, k]⟩
        (expression_tree.ofOperandLeaf v (.tuple [1, n, k, 1])
          ⟨.BINARY_TYPE_FAMILY, .REPEAT_TYPE⟩ v.context v.dtype [1 * k, n * 1])
        ⟨.BINARY_TYPE_FAMILY, .ELEMENT_PROD_TYPE⟩ u.context_ u.dtype_ [k, n])
      _ slot2.lhs (rootNode_ofTrees _ _ _ _ _ _)
    have hshape2 : tmp1.shape_ = [k, n] := hshape
    refine ⟨expression_tree.ofTreeLeaf tmp1 .invalid ⟨.COLUMNS_DOT_TYPE_FAMILY, .ADD_TYPE⟩
      tmp1.context_ tmp1.dtype_ [n], ?_, rfl⟩
    simp only [matvecprod_tree, matvecprod_tree_run, trans_tree_eq u k n hu, idx_cons_zero,
      idx_cons_succ, bind, Except.bind, pure, Except.pure, nodeAt_concat_length,
      List.length_append, List.length_cons, List.length_nil, decide_True, hloop, if_true,
      repmat_vec v k 1 n hv, h1, sum_operand, sum_tree_columns tmp1 k n hshape2]
  | false =>
    refine ⟨expression_tree.ofTreeLeaf
      (expression_tree.ofTrees
        ⟨u.tree_ ++ [slot2], u.tree_.length, u.context_, u.dtype_, [n, k]⟩
        (expression_tree.ofTreeLeaf (reshape v [1, k]) (.tuple [n, 1, 1, k])
          ⟨.BINARY_TYPE_FAMILY, .REPEAT_TYPE⟩ v.context v.dtype [n, k])
        ⟨.BINARY_TYPE_FAMILY, .MULT_TYPE⟩ u.context_ u.dtype_ [n, k])
      .invalid ⟨.ROWS_DOT_TYPE_FAMILY, .ADD_TYPE⟩ u.context_ u.dtype_ [n], ?_, rfl⟩
    simp only [matvecprod_tree, matvecprod_tree_run, trans_tree_eq u k n hu, idx_cons_zero,
      idx_cons_succ, bind, Except.bind, pure, Except.pure, nodeAt_concat_length,
      List.length_append, List.length_cons, List.length_nil, decide_True, hloop,
      repmat_reshape_row, operator_mul, DEFINE_ELEMENT_BINARY_OPERATOR, Operand.shape,
      expression_tree.ofTreeLeaf, broadcast_same_mat, sum_operand,
      expression_tree.ofOperands, Operand.context, Operand.dtype]
    rw [sum_tree_rows _ n k rfl]
    rfl

/-- On the transpose of a well-formed rank-2 operand of shape `k`-by-`n` and a rank-1 operand
of length `k`, `matvecprod` returns a node of shape `{n}`. -/
theorem matvecprod_trans_shape (y v : Operand) (k n : Int)
    (hy : y.shape = [k, n]) (hv : v.shape = [k]) (hwf : y.wellFormed) :
    ∃ r, matvecprod (.tree (trans y)) v = .ok r ∧ r.shape_ = [n] := by
  cases y with
  | arr a =>
    obtain ⟨r, hr, hs, _⟩ := matvecprod_tree_trans_array a v k n hy hv
    exact ⟨r, hr, hs⟩
  | tree u => exact matvecprod_tree_trans_tree u v k n hy hv hwf.1 hwf.2

/-! ## `dot`: vector rules -/

/-- The fourth test of `dot`: two rank-1 operands of equal length at least 2 give
`sum(x*y)`. -/
theorem DEFINE_DOT_rule4 (x y : Operand) (n : Int) (hx : x.shape = [n]) (hy : y.shape = [n])
    (hn : 2 ≤ n) :
    DEFINE_DOT x y = .ok (expression_tree.ofTreeLeaf
        (expression_tree.ofOperands x y ⟨.BINARY_TYPE_FAMILY, .MULT_TYPE⟩ x.context x.dtype [n])
        .invalid ⟨.VECTOR_DOT_TYPE_FAMILY, .ADD_TYPE⟩ x.context x.dtype [1]) := by
  have hmx : ¬ (n = 1 ∨ n = 1) := by omega
  have hn0 : n ≠ 0 := by omega
  simp only [DEFINE_DOT, Operand.dim_eq, hx, hy, shape_max_single, if_neg hmx, and_then, or_else,
    eq_at, idx_cons_zero, idx_cons_succ, bind, Except.bind, pure, Except.pure,
    List.length_cons, List.length_nil, operator_mul, DEFINE_ELEMENT_BINARY_OPERATOR,
    broadcast_same_vec, sum_operand, sum_tree_full, ofOperands_context, ofOperands_dtype]
  simp [hn0]

/-- The fifth test of `dot` on a 1-by-`n` operand and a rank-1 operand of length `n ≥ 2`: the
inner test `y.shape()[0]==1` fails and the result is `sum(x*y)`. -/
theorem DEFINE_DOT_rule5 (x y : Operand) (n : Int) (hx : x.shape = [1, n]) (hy : y.shape = [n])
    (hn : 2 ≤ n) :
    DEFINE_DOT x y = .ok (expression_tree.ofTreeLeaf
        (expression_tree.ofOperands x y ⟨.BINARY_TYPE_FAMILY, .MULT_TYPE⟩ x.context x.dtype
          [1, n])
        .invalid ⟨.VECTOR_DOT_TYPE_FAMILY, .ADD_TYPE⟩ x.context x.dtype [1]) := by
  have hmx : ¬ (Max.max 1 n = 1 ∨ n = 1) := by omega
  have hn0 : n ≠ 0 := by omega
  have hn1 : n ≠ 1 := by omega
  simp only [DEFINE_DOT, Operand.dim_eq, hx, hy, shape_max_single, shape_max_pair, if_neg hmx,
    and_then, or_else, eq_at, idx_cons_zero, idx_cons_succ, bind, Except.bind, pure,
    Except.pure, List.length_cons, List.length_nil, operator_mul,
    DEFINE_ELEMENT_BINARY_OPERATOR, broadcast_row_vec, sum_operand, sum_tree_full,
    ofOperands_context, ofOperands_dtype]
  simp [hn0, hn1]

/-- The product `x*y` of two operands whose shapes broadcast to `sh`. -/
theorem operator_mul_eq (x y : Operand) (sh : shape_t) (h : broadcast x.shape y.shape = .ok sh) :
    operator_mul x y = .ok (expression_tree.ofOperands x y ⟨.BINARY_TYPE_FAMILY, .MULT_TYPE⟩
      x.context x.dtype sh) := by
  simp only [operator_mul, DEFINE_ELEMENT_BINARY_OPERATOR, h, bind, Except.bind, pure,
    Except.pure]

/-- C17: for a rank-2 array `x` of shape `M`-by-`N` and a rank-1 `y` of length `N`, with
`M, N ≥ 2`, `dot(x,y)` is `sum(x * repmat(reshape(y,{1,N}), M, 1), 1)`: the replicated operand
`r` has shape `{M,N}`, its broadcast with the shape of `x` succeeds, the product `p` is the
`MULT` node on `x` and `r`, and the result is the per-row `ADD` reduction of `p`, of shape
`{M}`.  For a rank-1 `x'` of length `K` and a rank-2 array or well-formed tree `y'` of shape
`K`-by-`N2`, with `K, N2 ≥ 2`, `dot(x',y')` returns a node of shape `{N2}`. -/
theorem dot_rule6_matrix_vector (x : array_base) (y x' y' : Operand) (M N K N2 : Int)
    (hx : x.shape_ = [M, N]) (hy : y.shape = [N]) (hM : 2 ≤ M) (hN : 2 ≤ N)
    (hx' : x'.shape = [K]) (hy' : y'.shape = [K, N2]) (wy' : y'.wellFormed)
    (hK : 2 ≤ K) (hN2 : 2 ≤ N2) :
    (∃ r p t, repmat (.tree (reshape y [1, N])) M 1 = .ok r ∧ r.shape_ = [M, N]
        ∧ broadcast x.shape_ r.shape_ = .ok [M, N]
        ∧ operator_mul (.arr x) (.tree r) = .ok p
        ∧ p.rootNode = some ⟨.dense_array x, ⟨.BINARY_TYPE_FAMILY, .MULT_TYPE⟩,
            .composite r.root_⟩
        ∧ sum_tree p 1 = .ok t
        ∧ DEFINE_DOT (.arr x) y = .ok t
        ∧ t.shape_ = [M]
        ∧ t.rootNode = some ⟨.composite p.root_, ⟨.ROWS_DOT_TYPE_FAMILY, .ADD_TYPE⟩, .invalid⟩)
      ∧ ∃ t, DEFINE_DOT x' y' = .ok t ∧ t.shape_ = [N2] := by
  constructor
  · have hb : broadcast x.shape_ [M, N] = .ok [M, N] := by rw [hx]; exact broadcast_same_mat M N
    refine ⟨expression_tree.ofTreeLeaf (reshape y [1, N]) (.tuple [M, 1, 1, N])
        ⟨.BINARY_TYPE_FAMILY, .REPEAT_TYPE⟩ y.context y.dtype [M, N],
      expression_tree.ofLeafTree (.dense_array x)
        (expression_tree.ofTreeLeaf (reshape y [1, N]) (.tuple [M, 1, 1, N])
          ⟨.BINARY_TYPE_FAMILY, .REPEAT_TYPE⟩ y.context y.dtype [M, N])
        ⟨.BINARY_TYPE_FAMILY, .MULT_TYPE⟩ x.context_ x.dtype_ [M, N],
      expression_tree.ofTreeLeaf
        (expression_tree.ofLeafTree (.dense_array x)
          (expression_tree.ofTreeLeaf (reshape y [1, N]) (.tuple [M, 1, 1, N])
            ⟨.BINARY_TYPE_FAMILY, .REPEAT_TYPE⟩ y.context y.dtype [M, N])
          ⟨.BINARY_TYPE_FAMILY, .MULT_TYPE⟩ x.context_ x.dtype_ [M, N])
        .invalid ⟨.ROWS_DOT_TYPE_FAMILY, .ADD_TYPE⟩ x.context_ x.dtype_ [M],
      repmat_reshape_row y M N, rfl, hb, ?_, rootNode_ofLeafTree _ _ _ _ _ _,
      sum_tree_rows _ M N rfl, ?_, rfl, rootNode_ofTreeLeaf _ _ _ _ _ _⟩
    · exact operator_mul_eq (.arr x) (.tree _) [M, N] hb
    · rw [DEFINE_DOT_rule6_left (.arr x) y M N hx hy hM hN]
      exact matvecprod_array_eq x y M N hx
  · have hv : (Operand.tree (trans x')).shape = [K] := by
      show (trans x').shape_ = [K]
      rw [trans_shape, hx', flip_single]
    obtain ⟨r, hr, hshape⟩ := matvecprod_trans_shape y' (.tree (trans x')) K N2 hy' hv wy'
    refine ⟨trans (.tree r), ?_, ?_⟩
    · rw [DEFINE_DOT_rule6_right x' y' K N2 hx' hy' hK hN2, hr]
      rfl
    · rw [trans_shape]
      show flip r.shape_ = [N2]
      rw [hshape, flip_single]

/-- Witness for C17: a fresh 2-by-3 array with a fresh length-3 array, and a fresh length-3
array with the negation of a fresh 3-by-4 array. -/
theorem dot_rule6_matrix_vector_witness :
    (∃ r p t, repmat (.tree (reshape (.arr (array_base.new1 3 .INT_TYPE 0 1)) [1, 3])) 2 1
          = .ok r ∧ r.shape_ = [2, 3]
        ∧ broadcast (array_base.new2 2 3 .INT_TYPE 0 0).shape_ r.shape_ = .ok [2, 3]
        ∧ operator_mul (.arr (array_base.new2 2 3 .INT_TYPE 0 0)) (.tree r) = .ok p
        ∧ p.rootNode = some ⟨.dense_array (array_base.new2 2 3 .INT_TYPE 0 0),
            ⟨.BINARY_TYPE_FAMILY, .MULT_TYPE⟩, .composite r.root_⟩
        ∧ sum_tree p 1 = .ok t
        ∧ DEFINE_DOT (.arr (array_base.new2 2 3 .INT_TYPE 0 0))
            (.arr (array_base.new1 3 .INT_TYPE 0 1)) = .ok t
        ∧ t.shape_ = [2]
        ∧ t.rootNode = some ⟨.composite p.root_, ⟨.ROWS_DOT_TYPE_FAMILY, .ADD_TYPE⟩, .invalid⟩)
      ∧ ∃ t, DEFINE_DOT (.arr (array_base.new1 3 .INT_TYPE 0 2))
          (.tree (array_base.operator_neg (array_base.new2 3 4 .INT_TYPE 0 3))) = .ok t
        ∧ t.shape_ = [4] :=
  dot_rule6_matrix_vector (array_base.new2 2 3 .INT_TYPE 0 0)
    (.arr (array_base.new1 3 .INT_TYPE 0 1)) (.arr (array_base.new1 3 .INT_TYPE 0 2))
    (.tree (array_base.operator_neg (array_base.new2 3 4 .INT_TYPE 0 3))) 2 3 3 4
    rfl rfl (by decide) (by decide) rfl rfl (by decide) (by decide) (by decide)

/-- C18 as stated fails: for `x` of shape `{1,3}` and `y` of length 3, where rules (1)-(4) do not
match, `dot(x,y)` is `sum(x*y)`, whose root is the full `ADD` reduction of shape `{1}` and not a
`RESHAPE` node; for `x` of length 3 and `y` of shape `{1,3}` the root is a `TRANS` node. -/
theorem dot_rule5_not_reshape :
    (dot (array_base.new2 1 3 .INT_TYPE 0 0) (array_base.new1 3 .INT_TYPE 0 1)).map
        (fun t => (t.shape_, t.rootNode.map (fun nd => nd.op)))
        = .ok ([1], some ⟨.VECTOR_DOT_TYPE_FAMILY, .ADD_TYPE⟩)
      ∧ (dot (array_base.new1 3 .INT_TYPE 0 0) (array_base.new2 1 3 .INT_TYPE 0 1)).map
          (fun t => (t.shape_, t.rootNode.map (fun nd => nd.op)))
        = .ok ([3], some ⟨.UNARY_TYPE_FAMILY, .TRANS_TYPE⟩)
      ∧ (⟨.VECTOR_DOT_TYPE_FAMILY, .ADD_TYPE⟩ : op_element).type ≠ .RESHAPE_TYPE
      ∧ (⟨.UNARY_TYPE_FAMILY, .TRANS_TYPE⟩ : op_element).type ≠ .RESHAPE_TYPE := by
  refine ⟨by decide, by decide, by decide, by decide⟩

/-- C18, amended: when rules (1)-(4) do not match, for `x` of rank 2 with a length-1 leading
axis, of shape `{1,N}`, and `y` of rank 1 and length `N`, with `N ≥ 2`, `dot(x,y)` is the full
reduction `sum(x*y)`: the `ADD` reduction of shape `{1}` over the `MULT` node `x*y` of shape
`{1,N}`; for `x'` of rank 1 and length `K ≥ 2` and `y'` of shape `{1,N2}`, `N2 ≥ 2`,
`dot(x',y')` is `trans(matvecprod(trans(y'), trans(x')))`. -/
theorem dot_rule5_row_vector (x y x' y' : Operand) (N K N2 : Int)
    (hx : x.shape = [1, N]) (hy : y.shape = [N]) (hN : 2 ≤ N)
    (hx' : x'.shape = [K]) (hy' : y'.shape = [1, N2]) (hK : 2 ≤ K) (hN2 : 2 ≤ N2) :
    (∃ p t, operator_mul x y = .ok p
        ∧ p = expression_tree.ofOperands x y ⟨.BINARY_TYPE_FAMILY, .MULT_TYPE⟩ x.context
            x.dtype [1, N]
        ∧ sum_tree p (-1) = .ok t
        ∧ DEFINE_DOT x y = .ok t
        ∧ t.shape_ = [1]
        ∧ t.rootNode = some ⟨.composite p.root_, ⟨.VECTOR_DOT_TYPE_FAMILY, .ADD_TYPE⟩,
            .invalid⟩)
      ∧ DEFINE_DOT x' y' = (matvecprod (.tree (trans y')) (.tree (trans x'))).map
          (fun r => trans (.tree r)) := by
  constructor
  · refine ⟨_, _, operator_mul_eq x y [1, N] (by rw [hx, hy]; exact broadcast_row_vec N), rfl,
      sum_tree_full _, ?_, rfl, rootNode_ofTreeLeaf _ _ _ _ _ _⟩
    rw [DEFINE_DOT_rule5 x y N hx hy hN, ofOperands_context, ofOperands_dtype]
  · have hmx : ¬ (K = 1 ∨ Max.max 1 N2 = 1) := by omega
    have hn0 : N2 ≠ 0 := by omega
    have hk0 : K ≠ 0 := by omega
    have hk1 : K ≠ 1 := by omega
    simp only [DEFINE_DOT, Operand.dim_eq, hx', hy', shape_max_single, shape_max_pair,
      if_neg hmx, and_then, or_else, eq_at, idx_cons_zero, idx_cons_succ, bind, Except.bind,
      pure, Except.pure, List.length_cons, List.length_nil]
    simp [hn0, hk0, hk1]
    cases matvecprod (.tree (trans y')) (.tree (trans x')) <;> rfl

/-- Witness for C18, amended: a fresh 1-by-3 array with a fresh length-3 array, and a fresh
length-3 array with a fresh 1-by-4 array. -/
theorem dot_rule5_row_vector_witness :
    (∃ p t, operator_mul (.arr (array_base.new2 1 3 .INT_TYPE 0 0))
          (.arr (array_base.new1 3 .INT_TYPE 0 1)) = .ok p
        ∧ p = expression_tree.ofOperands (.arr (array_base.new2 1 3 .INT_TYPE 0 0))
            (.arr (array_base.new1 3 .INT_TYPE 0 1)) ⟨.BINARY_TYPE_FAMILY, .MULT_TYPE⟩
            (Operand.arr (array_base.new2 1 3 .INT_TYPE 0 0)).context
            (Operand.arr (array_base.new2 1 3 .INT_TYPE 0 0)).dtype [1, 3]
        ∧ sum_tree p (-1) = .ok t
        ∧ DEFINE_DOT (.arr (array_base.new2 1 3 .INT_TYPE 0 0))
            (.arr (array_base.new1 3 .INT_TYPE 0 1)) = .ok t
        ∧ t.shape_ = [1]
        ∧ t.rootNode = some ⟨.composite p.root_, ⟨.VECTOR_DOT_TYPE_FAMILY, .ADD_TYPE⟩,
            .invalid⟩)
      ∧ DEFINE_DOT (.arr (array_base.new1 3 .INT_TYPE 0 2))
          (.arr (array_base.new2 1 4 .INT_TYPE 0 3))
        = (matvecprod (.tree (trans (.arr (array_base.new2 1 4 .INT_TYPE 0 3))))
            (.tree (trans (.arr (array_base.new1 3 .INT_TYPE 0 2))))).map
          (fun r => trans (.tree r)) :=
  dot_rule5_row_vector (.arr (array_base.new2 1 3 .INT_TYPE 0 0))
    (.arr (array_base.new1 3 .INT_TYPE 0 1)) (.arr (array_base.new1 3 .INT_TYPE 0 2))
    (.arr (array_base.new2 1 4 .INT_TYPE 0 3)) 3 3 4 rfl rfl (by decide) rfl rfl (by decide)
    (by decide)

/-- C19: for rank-1 operands `x` and `y` of equal length `n ≥ 2`, `dot(x,y)` is the full
reduction `sum(x*y)`: the `ADD` reduction of shape `{1}` whose operand is the `MULT` node `x*y`
of shape `{n}`; none of the first three tests of `dot` returns before it. -/
theorem dot_rule4_full_reduction (x y : Operand) (n : Int)
    (hx : x.shape = [n]) (hy : y.shape = [n]) (hn : 2 ≤ n) :
    ∃ p t, operator_mul x y = .ok p
      ∧ p = expression_tree.ofOperands x y ⟨.BINARY_TYPE_FAMILY, .MULT_TYPE⟩ x.context
          x.dtype [n]
      ∧ sum_tree p (-1) = .ok t
      ∧ DEFINE_DOT x y = .ok t
      ∧ t.shape_ = [1]
      ∧ t.rootNode = some ⟨.composite p.root_, ⟨.VECTOR_DOT_TYPE_FAMILY, .ADD_TYPE⟩,
          .invalid⟩ := by
  refine ⟨_, _, operator_mul_eq x y [n] (by rw [hx, hy]; exact broadcast_same_vec n), rfl,
    sum_tree_full _, ?_, rfl, rootNode_ofTreeLeaf _ _ _ _ _ _⟩
  rw [DEFINE_DOT_rule4 x y n hx hy hn, ofOperands_context, ofOperands_dtype]

/-- Witness for C19: two fresh length-3 arrays. -/
theorem dot_rule4_full_reduction_witness :
    ∃ p t, operator_mul (.arr (array_base.new1 3 .INT_TYPE 0 0))
        (.arr (array_base.new1 3 .INT_TYPE 0 1)) = .ok p
      ∧ p = expression_tree.ofOperands (.arr (array_base.new1 3 .INT_TYPE 0 0))
          (.arr (array_base.new1 3 .INT_TYPE 0 1)) ⟨.BINARY_TYPE_FAMILY, .MULT_TYPE⟩
          (Operand.arr (array_base.new1 3 .INT_TYPE 0 0)).context
          (Operand.arr (array_base.new1 3 .INT_TYPE 0 0)).dtype [3]
      ∧ sum_tree p (-1) = .ok t
      ∧ DEFINE_DOT (.arr (array_base.new1 3 .INT_TYPE 0 0))
          (.arr (array_base.new1 3 .INT_TYPE 0 1)) = .ok t
      ∧ t.shape_ = [1]
      ∧ t.rootNode = some ⟨.composite p.root_, ⟨.VECTOR_DOT_TYPE_FAMILY, .ADD_TYPE⟩,
          .invalid⟩ :=
  dot_rule4_full_reduction (.arr (array_base.new1 3 .INT_TYPE 0 0))
    (.arr (array_base.new1 3 .INT_TYPE 0 1)) 3 rfl rfl (by decide)

/-! ## Matrix-product normalization -/

/-- C20 (code evaluated at the failing input): `A = -a` is a one-node tree and
`B = trans(b + c)` a two-node tree whose transpose node has the composite operand 0, the node
`b + c` of `B`.  In `matmatprod(A, B)` on two trees the variant is NT and the arena of the
result holds the node of `A` at index 0 and the embedded node `b + c` at index 1, but the root's
right operand is the composite operand 0 copied from `B` as it is: it refers to the node `-a`,
not to `b + c`.  The overload for an array `a` and the tree `B` yields the right operand 0 in an
arena whose node 0 is `b + c`. -/
theorem matmatprod_tt_rhs_not_rebased :
    (operator_add (.arr (array_base.new2 4 3 .INT_TYPE 0 1))
        (.arr (array_base.new2 4 3 .INT_TYPE 0 2))).map
        (fun s => ((trans (.tree s)).rootNode, (trans (.tree s)).tree_.get? 0))
        = .ok (some ⟨.composite 0, ⟨.UNARY_TYPE_FAMILY, .TRANS_TYPE⟩, .invalid⟩,
            some ⟨.dense_array (array_base.new2 4 3 .INT_TYPE 0 1),
              ⟨.BINARY_TYPE_FAMILY, .ADD_TYPE⟩,
              .dense_array (array_base.new2 4 3 .INT_TYPE 0 2)⟩)
      ∧ (operator_add (.arr (array_base.new2 4 3 .INT_TYPE 0 1))
          (.arr (array_base.new2 4 3 .INT_TYPE 0 2)) >>= fun s =>
            matmatprod_tt (array_base.operator_neg (array_base.new2 2 3 .INT_TYPE 0 0))
              (trans (.tree s))).map
          (fun t => (t.shape_, t.rootNode, t.tree_.get? 0, t.tree_.get? 1))
        = .ok ([2, 4],
            some ⟨.composite 0, ⟨.MATRIX_PRODUCT_TYPE_FAMILY, .MATRIX_PRODUCT_NT_TYPE⟩,
              .composite 0⟩,
            some ⟨.dense_array (array_base.new2 2 3 .INT_TYPE 0 0),
              ⟨.UNARY_TYPE_FAMILY, .SUB_TYPE⟩, .invalid⟩,
            some ⟨.dense_array (array_base.new2 4 3 .INT_TYPE 0 1),
              ⟨.BINARY_TYPE_FAMILY, .ADD_TYPE⟩,
              .dense_array (array_base.new2 4 3 .INT_TYPE 0 2)⟩)
      ∧ (operator_add (.arr (array_base.new2 4 3 .INT_TYPE 0 1))
          (.arr (array_base.new2 4 3 .INT_TYPE 0 2)) >>= fun s =>
            matmatprod_at (array_base.new2 2 3 .INT_TYPE 0 0) (trans (.tree s))).map
          (fun t => (t.shape_, t.rootNode, t.tree_.get? 0))
        = .ok ([2, 4],
            some ⟨.dense_array (array_base.new2 2 3 .INT_TYPE 0 0),
              ⟨.MATRIX_PRODUCT_TYPE_FAMILY, .MATRIX_PRODUCT_NT_TYPE⟩, .composite 0⟩,
            some ⟨.dense_array (array_base.new2 4 3 .INT_TYPE 0 1),
              ⟨.BINARY_TYPE_FAMILY, .ADD_TYPE⟩,
              .dense_array (array_base.new2 4 3 .INT_TYPE 0 2)⟩) := by
  refine ⟨by decide, by decide, by decide⟩

/-! ## Indexing rank checks -/

theorem idx_ne_dimensionality (s : shape_t) (i : Nat) : idx s i ≠ .error .dimensionality := by
  unfold idx
  cases s.get? i <;> simp

/-- C29: one-index access with an integer or with a slice fails with the dimensionality error if
and only if the rank is greater than 1, and each of the four two-index accesses fails with the
dimensionality error if and only if the rank is not 2. -/
theorem indexing_rank_checks (x : array_base) (i j : Int) (s si sj : slice) :
    (x.subscript i = .error .dimensionality ↔ 1 < x.dim)
      ∧ (x.subscriptSlice s = .error .dimensionality ↔ 1 < x.dim)
      ∧ (x.call_ii i j = .error .dimensionality ↔ x.dim ≠ 2)
      ∧ (x.call_is i sj = .error .dimensionality ↔ x.dim ≠ 2)
      ∧ (x.call_si si j = .error .dimensionality ↔ x.dim ≠ 2)
      ∧ (x.call_ss si sj = .error .dimensionality ↔ x.dim ≠ 2) := by
  have bind_ne : ∀ {α : Type} (e : Except Error Int) (f : Int → Except Error α),
      e ≠ .error .dimensionality → (∀ v, f v ≠ .error .dimensionality) →
      (e >>= f) ≠ .error .dimensionality := by
    intro α e f he hf
    cases e with
    | error err =>
      intro h
      apply he
      simpa [bind, Except.bind] using h
    | ok v => simpa [bind, Except.bind] using hf v
  refine ⟨?_, ?_, ?_, ?_, ?_, ?_⟩
  · unfold array_base.subscript
    by_cases h : x.dim ≤ 1
    · simp [h]
    · simp [h]
      omega
  · unfold array_base.subscriptSlice
    by_cases h : x.dim ≤ 1
    · rw [if_pos h]
      refine ⟨fun hc => ?_, fun hc => by omega⟩
      exfalso
      revert hc
      unfold view.ofSlice array_base.ofSlice
      exact bind_ne _ _ (idx_ne_dimensionality _ _) (fun _ =>
        bind_ne _ _ (idx_ne_dimensionality _ _) (fun _ => by simp [pure, Except.pure]))
    · simp [h]
      omega
  · unfold array_base.call_ii
    by_cases h : x.dim = 2
    · rw [if_pos h]
      refine ⟨fun hc => ?_, fun hc => absurd h hc⟩
      exfalso
      revert hc
      exact bind_ne _ _ (idx_ne_dimensionality _ _) (fun _ =>
        bind_ne _ _ (idx_ne_dimensionality _ _) (fun _ => by simp [pure, Except.pure]))
    · simp [h]
  · unfold array_base.call_is
    by_cases h : x.dim = 2
    · rw [if_pos h]
      refine ⟨fun hc => ?_, fun hc => absurd h hc⟩
      exfalso
      revert hc
      exact bind_ne _ _ (idx_ne_dimensionality _ _) (fun _ =>
        bind_ne _ _ (idx_ne_dimensionality _ _) (fun _ =>
          bind_ne _ _ (idx_ne_dimensionality _ _) (fun _ => by simp [pure, Except.pure])))
    · simp [h]
  · unfold array_base.call_si
    by_cases h : x.dim = 2
    · rw [if_pos h]
      refine ⟨fun hc => ?_, fun hc => absurd h hc⟩
      exfalso
      revert hc
      exact bind_ne _ _ (idx_ne_dimensionality _ _) (fun _ =>
        bind_ne _ _ (idx_ne_dimensionality _ _) (fun _ =>
          bind_ne _ _ (idx_ne_dimensionality _ _) (fun _ => by simp [pure, Except.pure])))
    · simp [h]
  · unfold array_base.call_ss
    by_cases h : x.dim = 2
    · rw [if_pos h]
      refine ⟨fun hc => ?_, fun hc => absurd h hc⟩
      exfalso
      revert hc
      unfold view.ofSlice2 array_base.ofSlice2
      exact bind_ne _ _ (idx_ne_dimensionality _ _) (fun _ =>
        bind_ne _ _ (idx_ne_dimensionality _ _) (fun _ =>
          bind_ne _ _ (idx_ne_dimensionality _ _) (fun _ =>
            bind_ne _ _ (idx_ne_dimensionality _ _) (fun _ => by simp [pure, Except.pure]))))
    · simp [h]

/-! ## Matrix-vector product: transpose elision -/

theorem ofTrees_get_rhs_root (A r : expression_tree) (op : op_element) (c : Context)
    (d : numeric_type) (s : shape_t) (nd : node) (h : r.rootNode = some nd) :
    (expression_tree.ofTrees A r op c d s).tree_.get? (r.root_ + A.tree_.length)
      = some (nd.shift A.tree_.length) := by
  unfold expression_tree.rootNode at h
  rw [List.get?_eq_getElem?] at h
  have hlt : r.root_ < r.tree_.length := by
    by_contra hc
    rw [List.getElem?_eq_none (by omega)] at h
    cases h
  simp only [expression_tree.ofTrees, List.get?_eq_getElem?, List.append_assoc]
  rw [List.getElem?_append_right (by omega), Nat.add_sub_cancel,
    List.getElem?_append_left (by simpa using hlt), List.getElem?_map, h]
  rfl

theorem setRootLhs_get_ne (res r2 : expression_tree) (v : tree_node) (i : Nat)
    (h : res.setRootLhs v = .ok r2) (hi : i ≠ res.root_) :
    r2.tree_.get? i = res.tree_.get? i := by
  unfold expression_tree.setRootLhs at h
  cases hn : nodeAt res.tree_ res.root_ with
  | error e => simp [hn, bind, Except.bind] at h
  | ok nd =>
    simp only [hn, bind, Except.bind, pure, Except.pure, Except.ok.injEq] at h
    rw [← h]
    simp only [List.get?_eq_getElem?]
    exact List.getElem?_set_ne (Ne.symm hi)

theorem repmat_rootNode (x : Operand) (k rep1 rep2 : Int) :
    ∃ nd, (expression_tree.ofOperandLeaf x (.tuple [rep1, rep2, k, 1])
        ⟨.BINARY_TYPE_FAMILY, .REPEAT_TYPE⟩ x.context x.dtype [rep1 * k, rep2 * 1]).rootNode
          = some nd
      ∧ nd.op = ⟨.BINARY_TYPE_FAMILY, .REPEAT_TYPE⟩ ∧ nd.rhs = .tuple [rep1, rep2, k, 1] := by
  cases x with
  | arr a => exact ⟨_, rootNode_ofLeaves _ _ _ _ _ _, rfl, rfl⟩
  | tree t => exact ⟨_, rootNode_ofTreeLeaf _ _ _ _ _ _, rfl, rfl⟩

/-- C22: for `A = trans(A0)` with `A0` an `N`-by-`M` array, so that `A` has the logical shape
`{M,N}`, and a vector `x` of length `N`, `matvecprod(A,x)` is the per-column (axis 0) `ADD`
reduction of the elementwise-product node `tmp` of shape `{N,M}` whose left operand is `A0`
itself and whose right operand is the embedded root of `repmat(x,1,M)`, of shape `{N,M}`; the
result has shape `{M}`, as has the non-transposed path
`sum(A*repmat(reshape(x,{1,N}),M,1),1)`. -/
theorem matvecprod_transpose_elision (A0 : array_base) (x : Operand) (M N : Int)
    (hA : A0.shape_ = [N, M]) (hx : x.shape = [N]) :
    (trans (.arr A0)).shape_ = [M, N]
      ∧ ∃ r tmp t, repmat x 1 M = .ok r ∧ r.shape_ = [N, M]
        ∧ (∃ nd, r.rootNode = some nd ∧ nd.op = ⟨.BINARY_TYPE_FAMILY, .REPEAT_TYPE⟩
            ∧ tmp.tree_.get? (r.root_ + 1) = some (nd.shift 1))
        ∧ tmp.shape_ = [N, M]
        ∧ tmp.rootNode = some ⟨.dense_array A0, ⟨.BINARY_TYPE_FAMILY, .ELEMENT_PROD_TYPE⟩,
            .composite (r.root_ + 1)⟩
        ∧ sum_tree tmp 0 = .ok t
        ∧ matvecprod (.tree (trans (.arr A0))) x = .ok t
        ∧ t.shape_ = [M]
        ∧ t.rootNode = some ⟨.composite tmp.root_, ⟨.COLUMNS_DOT_TYPE_FAMILY, .ADD_TYPE⟩,
            .invalid⟩
        ∧ ∃ r2 p t2, repmat (.tree (reshape x [1, N])) M 1 = .ok r2
          ∧ operator_mul (.tree (trans (.arr A0))) (.tree r2) = .ok p
          ∧ sum_tree p 1 = .ok t2 ∧ t2.shape_ = [M] := by
  have htrans := trans_arr_eq A0 N M hA
  refine ⟨by rw [htrans], ?_⟩
  obtain ⟨nd, hnd, hop, _⟩ := repmat_rootNode x N 1 M
  obtain ⟨tmp1, h1, hroot1, hshape1, hrootidx⟩ := setRootLhs_ok
    (expression_tree.ofTrees
      ⟨[⟨.dense_array A0, ⟨.UNARY_TYPE_FAMILY, .TRANS_TYPE⟩, .invalid⟩], 0, A0.context_,
        A0.dtype_, [M, N]⟩
      (expression_tree.ofOperandLeaf x (.tuple [1, M, N, 1])
        ⟨.BINARY_TYPE_FAMILY, .REPEAT_TYPE⟩ x.context x.dtype [1 * N, M * 1])
      ⟨.BINARY_TYPE_FAMILY, .ELEMENT_PROD_TYPE⟩ A0.context_ A0.dtype_ [N, M])
    _ (.dense_array A0) (rootNode_ofTrees _ _ _ _ _ _)
  have hshape2 : tmp1.shape_ = [N, M] := hshape1
  refine ⟨_, tmp1, _, repmat_vec x N 1 M hx, ?_, ⟨nd, hnd, hop, ?_⟩, hshape2, hroot1,
    sum_tree_columns tmp1 N M hshape2, ?_, rfl, rootNode_ofTreeLeaf _ _ _ _ _ _, ?_⟩
  · rw [ofOperandLeaf_shape]
    simp
  · rw [setRootLhs_get_ne _ tmp1 _ _ h1]
    · exact ofTrees_get_rhs_root _ _ _ _ _ _ nd hnd
    · show _ ≠ 1 + _
      have hlt : (expression_tree.ofOperandLeaf x (.tuple [1, M, N, 1])
          ⟨.BINARY_TYPE_FAMILY, .REPEAT_TYPE⟩ x.context x.dtype [1 * N, M * 1]).root_
          < (expression_tree.ofOperandLeaf x (.tuple [1, M, N, 1])
            ⟨.BINARY_TYPE_FAMILY, .REPEAT_TYPE⟩ x.context x.dtype [1 * N, M * 1]).tree_.length := by
        cases x <;> simp [expression_tree.ofOperandLeaf, expression_tree.ofLeaves,
          expression_tree.ofTreeLeaf]
      omega
  · simp only [matvecprod, matvecprod_tree, matvecprod_tree_run, htrans, idx_cons_zero,
      idx_cons_succ, bind, Except.bind, pure, Except.pure, nodeAt, List.get?, matvecprod_loop,
      List.length_cons, List.length_nil, decide_True, if_true, repmat_vec x N 1 M hx]
    have h1' := h1
    simp only [expression_tree.setRootLhs, bind, Except.bind, pure, Except.pure, nodeAt] at h1'
    simp only [expression_tree.setRootLhs, bind, Except.bind, pure, Except.pure, nodeAt, h1',
      sum_operand]
    rw [sum_tree_columns tmp1 N M hshape2]
  · refine ⟨_, expression_tree.ofOperands (.tree (trans (.arr A0)))
        (.tree (expression_tree.ofTreeLeaf (reshape x [1, N]) (.tuple [M, 1, 1, N])
          ⟨.BINARY_TYPE_FAMILY, .REPEAT_TYPE⟩ x.context x.dtype [M, N]))
        ⟨.BINARY_TYPE_FAMILY, .MULT_TYPE⟩ (Operand.tree (trans (.arr A0))).context
        (Operand.tree (trans (.arr A0))).dtype [M, N],
      _, repmat_reshape_row x M N, ?_, sum_tree_rows _ M N (ofOperands_shape _ _ _ _ _ _), rfl⟩
    apply operator_mul_eq
    show broadcast (trans (.arr A0)).shape_ [M, N] = _
    rw [htrans]
    exact broadcast_same_mat M N

theorem matvecprod_transpose_elision_witness :
    (trans (.arr (array_base.new2 3 2 .INT_TYPE 0 0))).shape_ = [2, 3]
      ∧ ∃ r tmp t, repmat (.arr (array_base.new1 3 .INT_TYPE 0 1)) 1 2 = .ok r
        ∧ r.shape_ = [3, 2]
        ∧ (∃ nd, r.rootNode = some nd ∧ nd.op = ⟨.BINARY_TYPE_FAMILY, .REPEAT_TYPE⟩
            ∧ tmp.tree_.get? (r.root_ + 1) = some (nd.shift 1))
        ∧ tmp.shape_ = [3, 2]
        ∧ tmp.rootNode = some ⟨.dense_array (array_base.new2 3 2 .INT_TYPE 0 0),
            ⟨.BINARY_TYPE_FAMILY, .ELEMENT_PROD_TYPE⟩, .composite (r.root_ + 1)⟩
        ∧ sum_tree tmp 0 = .ok t
        ∧ matvecprod (.tree (trans (.arr (array_base.new2 3 2 .INT_TYPE 0 0))))
            (.arr (array_base.new1 3 .INT_TYPE 0 1)) = .ok t
        ∧ t.shape_ = [2]
        ∧ t.rootNode = some ⟨.composite tmp.root_, ⟨.COLUMNS_DOT_TYPE_FAMILY, .ADD_TYPE⟩,
            .invalid⟩
        ∧ ∃ r2 p t2, repmat (.tree (reshape (.arr (array_base.new1 3 .INT_TYPE 0 1)) [1, 3])) 2 1
              = .ok r2
          ∧ operator_mul (.tree (trans (.arr (array_base.new2 3 2 .INT_TYPE 0 0)))) (.tree r2)
              = .ok p
          ∧ sum_tree p 1 = .ok t2 ∧ t2.shape_ = [2] :=
  matvecprod_transpose_elision (array_base.new2 3 2 .INT_TYPE 0 0)
    (.arr (array_base.new1 3 .INT_TYPE 0 1)) 2 3 rfl rfl


/-! ## Matrix-vector product: operands that are not transposes -/

/-- C23: for `A = trans(a) + b`, with `a` a 3-by-2 array, `b` a 2-by-3 array and `x` of length
3, the root of `A` is the binary `ADD` node, yet `matvecprod(A, x)` takes the transposed path:
its root is the axis-0 (`COLUMNS_DOT`) reduction of the elementwise product whose left operand
is `a`, no node of the result refers to `b`, and the result is not the tree
`sum(A*repmat(reshape(x,{1,3}),2,1),1)` of the non-transposed path. -/
theorem matvecprod_elides_below_sum :
    (do
      let A ← operator_add (.tree (trans (.arr (array_base.new2 3 2 .INT_TYPE 0 0))))
        (.arr (array_base.new2 2 3 .INT_TYPE 0 1))
      let res ← matvecprod (.tree A) (.arr (array_base.new1 3 .INT_TYPE 0 2))
      pure (A.rootNode, res.shape_, res.rootNode, res.tree_.get? 3,
        res.tree_.all (fun nd =>
          decide (nd.lhs ≠ .dense_array (array_base.new2 2 3 .INT_TYPE 0 1)
            ∧ nd.rhs ≠ .dense_array (array_base.new2 2 3 .INT_TYPE 0 1)))))
      = (.ok
        (some ⟨.composite 0, ⟨.BINARY_TYPE_FAMILY, .ADD_TYPE⟩,
            .dense_array (array_base.new2 2 3 .INT_TYPE 0 1)⟩,
          [2],
          some ⟨.composite 3, ⟨.COLUMNS_DOT_TYPE_FAMILY, .ADD_TYPE⟩, .invalid⟩,
          some ⟨.dense_array (array_base.new2 3 2 .INT_TYPE 0 0),
            ⟨.BINARY_TYPE_FAMILY, .ELEMENT_PROD_TYPE⟩, .composite 2⟩,
          true) : Except Error _)
    ∧ (do
        let A ← operator_add (.tree (trans (.arr (array_base.new2 3 2 .INT_TYPE 0 0))))
          (.arr (array_base.new2 2 3 .INT_TYPE 0 1))
        matvecprod (.tree A) (.arr (array_base.new1 3 .INT_TYPE 0 2)))
      ≠ (do
        let A ← operator_add (.tree (trans (.arr (array_base.new2 3 2 .INT_TYPE 0 0))))
          (.arr (array_base.new2 2 3 .INT_TYPE 0 1))
        let r ← repmat (.tree (reshape (.arr (array_base.new1 3 .INT_TYPE 0 2)) [1, 3])) 2 1
        let p ← operator_mul (.tree A) (.tree r)
        sum_operand (.tree p) 1) := by
  refine ⟨rfl, ?_⟩
  decide

/-! ## Matrix-vector product: the input tree -/

/-- C30: `matvecprod(A, x)` overwrites the root node of `A`.  For `A = trans(a + b)`, with `a`
and `b` 3-by-2 arrays and `x` of length 3, the root of `A` is `TRANS` of the composite node 0
before the call and the `ADD` node of `a` and `b` after it; for `A = trans(trans(a))` and `x` of
length 2 the left operand of the root is the composite node 0 before the call and the array `a`
after it. -/
theorem matvecprod_overwrites_input_root :
    (do
      let s ← operator_add (.arr (array_base.new2 3 2 .INT_TYPE 0 0))
        (.arr (array_base.new2 3 2 .INT_TYPE 0 1))
      let r ← matvecprod_tree_run (trans (.tree s)) (.arr (array_base.new1 3 .INT_TYPE 0 2))
      pure ((trans (.tree s)).rootNode, r.1.rootNode))
      = (.ok
        (some ⟨.composite 0, ⟨.UNARY_TYPE_FAMILY, .TRANS_TYPE⟩, .invalid⟩,
          some ⟨.dense_array (array_base.new2 3 2 .INT_TYPE 0 0),
            ⟨.BINARY_TYPE_FAMILY, .ADD_TYPE⟩,
            .dense_array (array_base.new2 3 2 .INT_TYPE 0 1)⟩) : Except Error _)
    ∧ (do
        let r ← matvecprod_tree_run
          (trans (.tree (trans (.arr (array_base.new2 3 2 .INT_TYPE 0 0)))))
          (.arr (array_base.new1 2 .INT_TYPE 0 2))
        pure ((trans (.tree (trans (.arr (array_base.new2 3 2 .INT_TYPE 0 0))))).rootNode,
          r.1.rootNode))
      = (.ok
        (some ⟨.composite 0, ⟨.UNARY_TYPE_FAMILY, .TRANS_TYPE⟩, .invalid⟩,
          some ⟨.dense_array (array_base.new2 3 2 .INT_TYPE 0 0),
            ⟨.UNARY_TYPE_FAMILY, .TRANS_TYPE⟩, .invalid⟩) : Except Error _) :=
  ⟨rfl, rfl⟩


/-! ## Transpose fusion and the meaning of the product node -/

/-- C21: with buffers 0 to 4 holding the matrices of `example_env`, the product node built for
leaf transposes denotes the product of the materialized operands in all four variants
(`(-a)·(-e)` is NN, `trans(d)·(-e)` is TN, `(-a)·trans(b)` is NT, `trans(d)·trans(b)` is TT),
but for `A = -a` and `B = trans(b + c)` the node, of recorded shape `{2, 4}`, has both operands
pointing at node 0 of the concatenated arena, which is `-a`: it denotes the 2-by-2 matrix
`(-a)·(-a)ᵀ` and not the 2-by-4 product of the materialized values of `A` and `B`.  For
`A = trans(d + f)` and `B = trans(b + c)` both operands of the node are the composite index 0,
so that they denote the same matrix, and the node does not denote the product either. -/
theorem transpose_fusion_meaning :
    (matmatprod (.tree (array_base.operator_neg (array_base.new2 2 3 .INT_TYPE 0 0)))
        (.tree (array_base.operator_neg (array_base.new2 3 4 .INT_TYPE 0 4)))).map
      (fun t => (t.rootNode.map (fun nd => nd.op.type), t.shape_, t.denote example_env))
      = .ok (some .MATRIX_PRODUCT_NN_TYPE, [2, 4],
          materialized_product example_env
            (.tree (array_base.operator_neg (array_base.new2 2 3 .INT_TYPE 0 0)))
            (.tree (array_base.operator_neg (array_base.new2 3 4 .INT_TYPE 0 4))))
    ∧ (matmatprod (.tree (trans (.arr (array_base.new2 3 2 .INT_TYPE 0 3))))
        (.tree (array_base.operator_neg (array_base.new2 3 4 .INT_TYPE 0 4)))).map
      (fun t => (t.rootNode.map (fun nd => nd.op.type), t.shape_, t.denote example_env))
      = .ok (some .MATRIX_PRODUCT_TN_TYPE, [2, 4],
          materialized_product example_env
            (.tree (trans (.arr (array_base.new2 3 2 .INT_TYPE 0 3))))
            (.tree (array_base.operator_neg (array_base.new2 3 4 .INT_TYPE 0 4))))
    ∧ (matmatprod (.tree (array_base.operator_neg (array_base.new2 2 3 .INT_TYPE 0 0)))
        (.tree (trans (.arr (array_base.new2 4 3 .INT_TYPE 0 1))))).map
      (fun t => (t.rootNode.map (fun nd => nd.op.type), t.shape_, t.denote example_env))
      = .ok (some .MATRIX_PRODUCT_NT_TYPE, [2, 4],
          materialized_product example_env
            (.tree (array_base.operator_neg (array_base.new2 2 3 .INT_TYPE 0 0)))
            (.tree (trans (.arr (array_base.new2 4 3 .INT_TYPE 0 1)))))
    ∧ (matmatprod (.tree (trans (.arr (array_base.new2 3 2 .INT_TYPE 0 3))))
        (.tree (trans (.arr (array_base.new2 4 3 .INT_TYPE 0 1))))).map
      (fun t => (t.rootNode.map (fun nd => nd.op.type), t.shape_, t.denote example_env))
      = .ok (some .MATRIX_PRODUCT_TT_TYPE, [2, 4],
          materialized_product example_env
            (.tree (trans (.arr (array_base.new2 3 2 .INT_TYPE 0 3))))
            (.tree (trans (.arr (array_base.new2 4 3 .INT_TYPE 0 1)))))
    ∧ materialized_product example_env
        (.tree (trans (.arr (array_base.new2 3 2 .INT_TYPE 0 3))))
        (.tree (trans (.arr (array_base.new2 4 3 .INT_TYPE 0 1))))
      = some [[11, 3, 8, 9], [14, 4, 12, 12]]
    ∧ (do
        let s ← operator_add (.arr (array_base.new2 4 3 .INT_TYPE 0 1))
          (.arr (array_base.new2 4 3 .INT_TYPE 0 2))
        let t ← matmatprod
          (.tree (array_base.operator_neg (array_base.new2 2 3 .INT_TYPE 0 0)))
          (.tree (trans (.tree s)))
        pure (t.rootNode, t.shape_, t.denote example_env,
          materialized_product example_env
            (.tree (array_base.operator_neg (array_base.new2 2 3 .INT_TYPE 0 0)))
            (.tree (trans (.tree s)))))
      = (.ok
        (some ⟨.composite 0, ⟨.MATRIX_PRODUCT_TYPE_FAMILY, .MATRIX_PRODUCT_NT_TYPE⟩,
            .composite 0⟩,
          [2, 4],
          some [[14, 32], [32, 77]],
          some [[-9, -7, -9, -7], [-21, -19, -24, -19]]) : Except Error _)
    ∧ (do
        let s ← operator_add (.arr (array_base.new2 3 2 .INT_TYPE 0 3))
          (.arr (array_base.new2 3 2 .INT_TYPE 0 5))
        let u ← operator_add (.arr (array_base.new2 4 3 .INT_TYPE 0 1))
          (.arr (array_base.new2 4 3 .INT_TYPE 0 2))
        let t ← matmatprod (.tree (trans (.tree s))) (.tree (trans (.tree u)))
        pure (t.rootNode, t.shape_, t.denote example_env,
          materialized_product example_env (.tree (trans (.tree s)))
            (.tree (trans (.tree u)))))
      = (.ok
        (some ⟨.composite 0, ⟨.MATRIX_PRODUCT_TYPE_FAMILY, .MATRIX_PRODUCT_TT_TYPE⟩,
            .composite 0⟩,
          [2, 4],
          some [[13, 20, 39], [15, 28, 53]],
          some [[19, 13, 17, 13], [23, 18, 25, 18]]) : Except Error _) := by
  refine ⟨rfl, rfl, rfl, rfl, rfl, rfl, rfl⟩


/-! ## Assignment into a zero-sized target -/

theorem foldl_min_le_init (ds : List Int) (d : Int) : ds.foldl Min.min d ≤ d := by
  induction ds generalizing d with
  | nil => simp
  | cons e es ih =>
    simp only [List.foldl_cons]
    exact le_trans (ih _) (min_le_left d e)

theorem foldl_min_le_mem (ds : List Int) (d x : Int) (hx : x ∈ ds) :
    ds.foldl Min.min d ≤ x := by
  induction ds generalizing d with
  | nil => cases hx
  | cons e es ih =>
    simp only [List.foldl_cons]
    rcases List.mem_cons.mp hx with h | h
    · subst h
      exact le_trans (foldl_min_le_init es _) (min_le_right d x)
    · exact ih _ h

theorem le_foldl_min (ds : List Int) (d b : Int) (hd : b ≤ d) (hds : ∀ x ∈ ds, b ≤ x) :
    b ≤ ds.foldl Min.min d := by
  induction ds generalizing d with
  | nil => simpa using hd
  | cons e es ih =>
    simp only [List.foldl_cons]
    exact ih _ (le_min hd (hds e (List.mem_cons_self _ _)))
      (fun x hx => hds x (List.mem_cons_of_mem _ hx))

theorem shape_min_eq_zero (s : shape_t) (h0 : (0 : Int) ∈ s) (hnn : ∀ d ∈ s, (0 : Int) ≤ d) :
    shape_min s = 0 := by
  cases s with
  | nil => cases h0
  | cons d ds =>
    simp only [shape_min]
    apply le_antisymm
    · rcases List.mem_cons.mp h0 with h | h
      · rw [← h]
        exact foldl_min_le_init ds _
      · exact foldl_min_le_mem ds d 0 h
    · exact le_foldl_min ds d 0 (hnn d (List.mem_cons_self _ _))
        (fun x hx => hnn x (List.mem_cons_of_mem _ hx))

/-- C25: for a target whose shape, of non-negative dimensions, has a zero-length dimension,
each of `=`, `+=`, `-=`, `*=`, `/=` with an array, a value scalar, an expression tree or an
execution handler on the right returns the target unchanged, hands nothing to the execution
interface and raises no error, whatever the dtype and the shape of the right-hand side. -/
theorem assignment_zero_sized_noop (self : array_base) (h0 : (0 : Int) ∈ self.shape_)
    (hnn : ∀ d ∈ self.shape_, (0 : Int) ≤ d) :
    (∀ rhs : array_base, self.assign_array rhs = .ok (self, []))
      ∧ (∀ rhs : value_scalar, self.assign_value rhs = .ok (self, []))
      ∧ (∀ rhs : expression_tree, self.assign_tree rhs = .ok (self, []))
      ∧ (∀ c : execution_handler, self.assign_handler c = .ok (self, []))
      ∧ ∀ OP ∈ compound_ops,
          (∀ rhs : array_base, array_base.compound_array OP self rhs = .ok (self, []))
          ∧ (∀ rhs : value_scalar, array_base.compound_value OP self rhs = .ok (self, []))
          ∧ (∀ rhs : expression_tree, array_base.compound_tree OP self rhs = .ok (self, [])) := by
  have hmin := shape_min_eq_zero self.shape_ h0 hnn
  have hh : ∀ c : execution_handler, self.assign_handler c = .ok (self, []) := by
    intro c
    simp [array_base.assign_handler, hmin]
  refine ⟨?_, ?_, fun rhs => hh _, hh, fun OP _ => ⟨fun rhs => hh _, fun rhs => hh _,
    fun rhs => hh _⟩⟩
  · intro rhs
    simp [array_base.assign_array, hmin]
  · intro rhs
    simp [array_base.assign_value, hmin]

theorem assignment_zero_sized_noop_witness :
    (∀ rhs : array_base,
        (array_base.new2 3 0 .INT_TYPE 0 0).assign_array rhs
          = .ok (array_base.new2 3 0 .INT_TYPE 0 0, []))
      ∧ (∀ rhs : value_scalar,
        (array_base.new2 3 0 .INT_TYPE 0 0).assign_value rhs
          = .ok (array_base.new2 3 0 .INT_TYPE 0 0, []))
      ∧ (∀ rhs : expression_tree,
        (array_base.new2 3 0 .INT_TYPE 0 0).assign_tree rhs
          = .ok (array_base.new2 3 0 .INT_TYPE 0 0, []))
      ∧ (∀ c : execution_handler,
        (array_base.new2 3 0 .INT_TYPE 0 0).assign_handler c
          = .ok (array_base.new2 3 0 .INT_TYPE 0 0, []))
      ∧ ∀ OP ∈ compound_ops,
          (∀ rhs : array_base,
            array_base.compound_array OP (array_base.new2 3 0 .INT_TYPE 0 0) rhs
              = .ok (array_base.new2 3 0 .INT_TYPE 0 0, []))
          ∧ (∀ rhs : value_scalar,
            array_base.compound_value OP (array_base.new2 3 0 .INT_TYPE 0 0) rhs
              = .ok (array_base.new2 3 0 .INT_TYPE 0 0, []))
          ∧ (∀ rhs : expression_tree,
            array_base.compound_tree OP (array_base.new2 3 0 .INT_TYPE 0 0) rhs
              = .ok (array_base.new2 3 0 .INT_TYPE 0 0, [])) :=
  assignment_zero_sized_noop (array_base.new2 3 0 .INT_TYPE 0 0) (by decide) (by decide)


/-! ## Binary elementwise builders and dtypes -/

/-- C24: the tests of `copy` do not recognise contiguity.  The rank-1 `INT` view of start 0,
stride 2 and length 2 is not contiguous, yet the device-to-host copy reads it directly, as 8
bytes at offset 0.  The 2-by-4 `INT` view of start 0 and leading dimension 4 is not contiguous,
yet the host-to-device copy writes it directly, as 32 bytes at offset 0.  The freshly allocated
2-by-3 `INT` array is contiguous, yet it goes through the staging array and an assignment in
both directions. -/
theorem copy_path_ignores_contiguity :
    (¬ spec_contiguous (array_base.wrap1 2 .INT_TYPE ⟨0, 0⟩ 0 2)
      ∧ copy_to_host (array_base.wrap1 2 .INT_TYPE ⟨0, 0⟩ 0 2) true 9
        = .ok [.read ⟨0, 0⟩ true 0 8])
    ∧ (¬ spec_contiguous (array_base.wrap2 2 4 .INT_TYPE ⟨0, 0⟩ 0 4)
      ∧ copy_to_device (array_base.wrap2 2 4 .INT_TYPE ⟨0, 0⟩ 0 4) true 9
        = .ok [.write ⟨0, 0⟩ true 0 32])
    ∧ (spec_contiguous (array_base.new2 2 3 .INT_TYPE 0 0)
      ∧ copy_to_host (array_base.new2 2 3 .INT_TYPE 0 0) true 9
        = .ok [.execute (execution_handler.ofTree
            (expression_tree.ofLeaves (.dense_array (array_base.new2 2 3 .INT_TYPE 0 9))
              (.dense_array (array_base.new2 2 3 .INT_TYPE 0 0))
              ⟨.BINARY_TYPE_FAMILY, .ASSIGN_TYPE⟩ 0 .INT_TYPE [2, 3])),
          .read ⟨0, 9⟩ true 0 24]
      ∧ copy_to_device (array_base.new2 2 3 .INT_TYPE 0 0) true 9
        = .ok [.write ⟨0, 9⟩ true 0 24,
          .execute (execution_handler.ofTree
            (expression_tree.ofLeaves (.dense_array (array_base.new2 2 3 .INT_TYPE 0 0))
              (.dense_array (array_base.new2 2 3 .INT_TYPE 0 9))
              ⟨.BINARY_TYPE_FAMILY, .ASSIGN_TYPE⟩ 0 .INT_TYPE [2, 3]))]) := by
  refine ⟨⟨by decide, rfl⟩, ⟨by decide, rfl⟩, by decide, rfl, rfl⟩


/-! ## Scalars: write, then read -/

theorem DeviceMemory.read_write (mem : DeviceMemory) (data : Buffer) (offset size : Int)
    (value : Rat) :
    DeviceMemory.read (DeviceMemory.write mem data offset size value) data offset size
      = value := by
  simp [DeviceMemory.read, DeviceMemory.write]

/-- C27: whatever the conversions of the implementation are, for a scalar `s` and a value `v`
representable in the dtype of `s`, the assignment `s = v` issues one blocking write of
`size_of(dtype)` bytes holding `v` at byte offset `start*size_of(dtype)` of the buffer of `s`;
afterwards `inject` issues a blocking read of the same byte range and obtains `v`, and
`cast<T>()` returns `v` converted from the C type of the dtype to `T`; when `v` is held as the
dtype of `s`, the cast to that dtype returns `v` itself. -/
theorem scalar_write_read_round_trip (static_cast : Conversion) (s : array_base)
    (v : value_scalar) (T : numeric_type) (mem : DeviceMemory)
    (hv : representable static_cast s.dtype_ v) :
    ∃ dtsize, size_of s.dtype_ = .ok dtsize
      ∧ scalar.assign static_cast s v mem
        = .ok (mem.write s.data_ (s.start_ * dtsize) dtsize v.value,
            .write s.data_ true (s.start_ * dtsize) dtsize)
      ∧ scalar.inject s (mem.write s.data_ (s.start_ * dtsize) dtsize v.value)
        = .ok (v.value, .read s.data_ true (s.start_ * dtsize) dtsize)
      ∧ scalar.cast static_cast T s (mem.write s.data_ (s.start_ * dtsize) dtsize v.value)
        = .ok (static_cast s.dtype_ T v.value)
      ∧ (v.dtype = s.dtype_ →
        scalar.cast static_cast s.dtype_ s
            (mem.write s.data_ (s.start_ * dtsize) dtsize v.value)
          = .ok v.value) := by
  obtain ⟨hmem, hc⟩ := hv
  cases hd : s.dtype_ with
  | OTHER n =>
    rw [hd] at hmem
    simp [closed_numeric_set] at hmem
  | _ =>
    rw [hd] at hc
    refine ⟨_, rfl, ?_, ?_, ?_, ?_⟩
    · simp only [scalar.assign, hd, size_of, bind, Except.bind, pure, Except.pure,
        scalar.assign_case, hc]
    · simp only [scalar.inject, hd, size_of, bind, Except.bind, pure, Except.pure,
        scalar.inject_case, DeviceMemory.read_write]
    · simp only [scalar.cast, scalar.inject, hd, size_of, bind, Except.bind, pure, Except.pure,
        scalar.inject_case, DeviceMemory.read_write]
    · intro hvd
      rw [hvd] at hc
      simp only [scalar.cast, scalar.inject, hd, size_of, bind, Except.bind, pure, Except.pure,
        scalar.inject_case, DeviceMemory.read_write, hc]

/-- Witness for C27: the `INT` scalar at element 3 of a buffer is set to the `INT` value 5: the
write and the read address the 4 bytes at byte offset 12 and `cast<int>()` returns 5.  The
conversions of the example are between equal types and keep the value. -/
theorem scalar_write_read_round_trip_witness :
    scalar.assign (fun _ _ q => q : Conversion) (scalar.ofBuffer .INT_TYPE ⟨0, 0⟩ 3)
        ⟨.INT_TYPE, 5⟩ []
        = .ok ([⟨⟨0, 0⟩, 12, 4, 5⟩], .write ⟨0, 0⟩ true 12 4)
      ∧ scalar.inject (scalar.ofBuffer .INT_TYPE ⟨0, 0⟩ 3) [⟨⟨0, 0⟩, 12, 4, 5⟩]
        = .ok (5, .read ⟨0, 0⟩ true 12 4)
      ∧ scalar.cast (fun _ _ q => q : Conversion) .INT_TYPE (scalar.ofBuffer .INT_TYPE ⟨0, 0⟩ 3)
          [⟨⟨0, 0⟩, 12, 4, 5⟩]
        = .ok 5 := by
  obtain ⟨dtsize, hsize, hassign, hinject, _, hself⟩ :=
    scalar_write_read_round_trip (fun _ _ q => q : Conversion)
      (scalar.ofBuffer .INT_TYPE ⟨0, 0⟩ 3) ⟨.INT_TYPE, 5⟩ .INT_TYPE [] ⟨by decide, rfl⟩
  cases hsize
  exact ⟨hassign, hinject, hself rfl⟩


/-! ## The closed numeric type set -/

/-- C28: `casted`, the `cast` builder, scalar `inject`, scalar `cast<T>`, scalar assignment,
scalar construction from a value, scalar printing and the element printing of arrays each
succeed when the dtype they dispatch on is one of `CHAR`, `UCHAR`, `SHORT`, `USHORT`, `INT`,
`UINT`, `LONG`, `ULONG`, `FLOAT`, `DOUBLE` and fail with the unknown-datatype error for every
other dtype; `casted` maps the ten, in this order, to ten distinct `CAST_*` operations. -/
theorem closed_numeric_type_dispatch (static_cast : Conversion) (d T : numeric_type)
    (x : Operand) (s : array_base) (v : value_scalar) (context : Context) (fresh : Nat)
    (mem : DeviceMemory) :
    dispatch_closed d (casted d)
      ∧ dispatch_closed d (cast x d)
      ∧ dispatch_closed s.dtype_ (scalar.inject s mem)
      ∧ dispatch_closed s.dtype_ (scalar.cast static_cast T s mem)
      ∧ dispatch_closed s.dtype_ (scalar.assign static_cast s v mem)
      ∧ dispatch_closed v.dtype (scalar.ofValue static_cast v context fresh mem)
      ∧ dispatch_closed s.dtype_ (scalar.print static_cast s mem)
      ∧ dispatch_closed d (ISAAC_PRINT_ELEMENT d v.value)
      ∧ closed_numeric_set.map casted
        = [.ok .CAST_CHAR_TYPE, .ok .CAST_UCHAR_TYPE, .ok .CAST_SHORT_TYPE,
          .ok .CAST_USHORT_TYPE, .ok .CAST_INT_TYPE, .ok .CAST_UINT_TYPE, .ok .CAST_LONG_TYPE,
          .ok .CAST_ULONG_TYPE, .ok .CAST_FLOAT_TYPE, .ok .CAST_DOUBLE_TYPE]
      ∧ (closed_numeric_set.map casted).Nodup := by
  refine ⟨?_, ?_, ?_, ?_, ?_, ?_, ?_, ?_, rfl, by decide⟩
  · cases d <;> simp [dispatch_closed, casted, closed_numeric_set]
  · cases d <;>
      simp [dispatch_closed, cast, casted, closed_numeric_set, bind, Except.bind, pure,
        Except.pure]
  · cases hd : s.dtype_ <;>
      simp [dispatch_closed, scalar.inject, size_of, hd, closed_numeric_set, bind, Except.bind,
        pure, Except.pure]
  · cases hd : s.dtype_ <;>
      simp [dispatch_closed, scalar.cast, scalar.inject, size_of, hd, closed_numeric_set, bind,
        Except.bind, pure, Except.pure]
  · cases hd : s.dtype_ <;>
      simp [dispatch_closed, scalar.assign, size_of, hd, closed_numeric_set, bind, Except.bind,
        pure, Except.pure]
  · cases hd : v.dtype <;>
      simp [dispatch_closed, scalar.ofValue, array_base.new1, hd, closed_numeric_set]
  · cases hd : s.dtype_ <;>
      simp [dispatch_closed, scalar.print, scalar.cast, scalar.inject, size_of, hd,
        closed_numeric_set, bind, Except.bind, pure, Except.pure]
  · cases d <;> simp [dispatch_closed, ISAAC_PRINT_ELEMENT, closed_numeric_set]


/-! ## Reductions: the positions of the shape that are read -/

theorem idx_eq_outOfBounds_iff (s : shape_t) (i : Nat) :
    idx s i = .error .outOfBounds ↔ s.length ≤ i := by
  constructor
  · intro h
    by_contra hc
    rw [idx_of_lt s i (by omega)] at h
    cases h
  · exact idx_of_le s i

/-- The array overload of a reduction reads its shape past the end exactly on axis 0 of an
operand of rank below 2. -/
theorem DEFINE_REDUCTION_array_bounds (OP : operation_type) (x : array_base) (axis : Int) :
    DEFINE_REDUCTION_array OP x axis = .error .outOfBounds ↔ (axis = 0 ∧ x.dim < 2) := by
  unfold DEFINE_REDUCTION_array array_base.dim
  by_cases hr : axis < -1 ∨ axis > (x.shape_.length : Int)
  · rw [if_pos hr]
    constructor
    · intro h
      cases h
    · rintro ⟨h0, h1⟩
      omega
  · rw [if_neg hr]
    by_cases ha : axis = -1
    · rw [if_pos ha]
      constructor
      · intro h
        cases h
      · rintro ⟨h0, _⟩
        omega
    · rw [if_neg ha]
      by_cases hb : axis = 0
      · rw [if_pos hb]
        by_cases hl : x.shape_.length ≤ 1
        · rw [idx_of_le _ _ hl]
          exact ⟨fun _ => ⟨hb, by omega⟩, fun _ => rfl⟩
        · rw [idx_of_lt _ _ (by omega)]
          constructor
          · intro h
            cases h
          · rintro ⟨_, h1⟩
            omega
      · rw [if_neg hb, idx_of_lt _ _ (by omega)]
        constructor
        · intro h
          cases h
        · rintro ⟨h0, _⟩
          exact absurd h0 hb

/-- The expression-tree overload of a reduction reads its shape past the end exactly on axis 0
of an operand of rank below 2. -/
theorem DEFINE_REDUCTION_tree_bounds (OP : operation_type) (x : expression_tree) (axis : Int) :
    DEFINE_REDUCTION_tree OP x axis = .error .outOfBounds ↔ (axis = 0 ∧ x.dim < 2) := by
  unfold DEFINE_REDUCTION_tree expression_tree.dim
  by_cases hr : axis < -1 ∨ axis > (x.shape_.length : Int)
  · rw [if_pos hr]
    constructor
    · intro h
      cases h
    · rintro ⟨h0, h1⟩
      omega
  · rw [if_neg hr]
    by_cases ha : axis = -1
    · rw [if_pos ha]
      constructor
      · intro h
        cases h
      · rintro ⟨h0, _⟩
        omega
    · rw [if_neg ha]
      by_cases hb : axis = 0
      · rw [if_pos hb]
        by_cases hl : x.shape_.length ≤ 1
        · rw [idx_of_le _ _ hl]
          exact ⟨fun _ => ⟨hb, by omega⟩, fun _ => rfl⟩
        · rw [idx_of_lt _ _ (by omega)]
          constructor
          · intro h
            cases h
          · rintro ⟨_, h1⟩
            omega
      · rw [if_neg hb, idx_of_lt _ _ (by omega)]
        constructor
        · intro h
          cases h
        · rintro ⟨h0, _⟩
          exact absurd h0 hb

/-- C31: each of sum, argmax, max, min, argmin, in its array overload and in its expression-tree
overload, reads a position of `x.shape()` that does not exist if and only if the axis is 0 and
the rank of `x` is below 2: on axis 0 the shape computation reads `x.shape()[1]`, whatever the
rank.  On every other accepted axis the positions read lie below the rank. -/
theorem reduction_reads_past_rank_iff
    (p : (array_base → Int → Except Error expression_tree)
      × (expression_tree → Int → Except Error expression_tree))
    (hp : p ∈ reductions) (x : array_base) (t : expression_tree) (axis : Int) :
    (p.1 x axis = .error .outOfBounds ↔ (axis = 0 ∧ x.dim < 2))
      ∧ (p.2 t axis = .error .outOfBounds ↔ (axis = 0 ∧ t.dim < 2)) := by
  have gen : ∀ OP, (DEFINE_REDUCTION_array OP x axis = .error .outOfBounds
        ↔ (axis = 0 ∧ x.dim < 2))
      ∧ (DEFINE_REDUCTION_tree OP t axis = .error .outOfBounds
        ↔ (axis = 0 ∧ t.dim < 2)) := fun OP =>
    ⟨DEFINE_REDUCTION_array_bounds OP x axis, DEFINE_REDUCTION_tree_bounds OP t axis⟩
  simp only [reductions, List.mem_cons, List.mem_singleton, List.mem_nil_iff, or_false] at hp
  rcases hp with h | h | h | h | h <;> subst h
  · exact gen .ADD_TYPE
  · exact gen .ELEMENT_ARGMAX_TYPE
  · exact gen .ELEMENT_MAX_TYPE
  · exact gen .ELEMENT_MIN_TYPE
  · exact gen .ELEMENT_ARGMIN_TYPE

/-- Witness for C31: on the rank-1 array of shape `{4}` and on its negation, a tree of rank 1,
`max` on axis 0, which the range check accepts, reads `shape()[1]`. -/
theorem reduction_reads_past_rank_iff_witness :
    (-1 : Int) ≤ 0 ∧ (0 : Int) ≤ (array_base.new1 4 .INT_TYPE 0 0).dim
      ∧ max (array_base.new1 4 .INT_TYPE 0 0) 0 = .error .outOfBounds
      ∧ max_tree (array_base.operator_neg (array_base.new1 4 .INT_TYPE 0 0)) 0
        = .error .outOfBounds :=
  ⟨by decide, by decide,
    (reduction_reads_past_rank_iff (max, max_tree) (by simp [reductions])
      (array_base.new1 4 .INT_TYPE 0 0)
      (array_base.operator_neg (array_base.new1 4 .INT_TYPE 0 0)) 0).1.mpr
      ⟨rfl, by decide⟩,
    (reduction_reads_past_rank_iff (max, max_tree) (by simp [reductions])
      (array_base.new1 4 .INT_TYPE 0 0)
      (array_base.operator_neg (array_base.new1 4 .INT_TYPE 0 0)) 0).2.mpr
      ⟨rfl, by decide⟩⟩


/-! ## `dot`: the positions of the shapes that are read -/

theorem bind_ne_outOfBounds {α β : Type} (r : Except Error α) (f : α → Except Error β)
    (hr : r ≠ .error .outOfBounds) (hf : ∀ a, r = .ok a → f a ≠ .error .outOfBounds) :
    (r >>= f) ≠ .error .outOfBounds := by
  cases r with
  | error e =>
    intro h
    apply hr
    simp only [bind, Except.bind, Except.error.injEq] at h
    rw [h]
  | ok a => exact hf a rfl

theorem broadcast_ne_outOfBounds (a b : shape_t) : broadcast a b ≠ .error .outOfBounds := by
  by_cases h : broadcast_compatible a b
  · rw [broadcast_ok_of_compatible a b h]
    intro hc
    cases hc
  · rw [broadcast_error_of_incompatible a b h]
    intro hc
    cases hc

theorem operator_mul_ne_outOfBounds (x y : Operand) :
    operator_mul x y ≠ .error .outOfBounds := by
  unfold operator_mul DEFINE_ELEMENT_BINARY_OPERATOR
  exact bind_ne_outOfBounds _ _ (broadcast_ne_outOfBounds _ _) (fun _ _ h => by cases h)

theorem sum_operand_tree_ne_outOfBounds (p : expression_tree) (axis : Int)
    (h : axis ≠ 0 ∨ 2 ≤ p.dim) : sum_operand (.tree p) axis ≠ .error .outOfBounds := by
  intro hc
  have := (DEFINE_REDUCTION_tree_bounds .ADD_TYPE p axis).mp hc
  omega

theorem repmat_ne_outOfBounds (A : Operand) (rep1 rep2 : Int) (h : 1 ≤ A.shape.length) :
    repmat A rep1 rep2 ≠ .error .outOfBounds := by
  unfold repmat
  rw [idx_of_lt _ _ (by omega)]
  by_cases hd : A.dim = 2
  · have hl : 1 < A.shape.length := by
      rw [Operand.dim_eq] at hd
      omega
    simp only [bind, Except.bind, if_pos hd, idx_of_lt _ _ hl, pure, Except.pure]
    intro hc
    cases hc
  · simp only [bind, Except.bind, if_neg hd, pure, Except.pure]
    intro hc
    cases hc

theorem operator_mul_shape (x y : Operand) (p : expression_tree) (h : operator_mul x y = .ok p) :
    broadcast x.shape y.shape = .ok p.shape_ := by
  unfold operator_mul DEFINE_ELEMENT_BINARY_OPERATOR at h
  cases hb : broadcast x.shape y.shape with
  | error e =>
    rw [hb] at h
    cases h
  | ok sh =>
    rw [hb] at h
    simp only [bind, Except.bind, pure, Except.pure, Except.ok.injEq] at h
    rw [← h, ofOperands_shape]

theorem matvecprod_array_ne_outOfBounds (A : array_base) (x : Operand)
    (hA : A.shape_.length = 2) : matvecprod_array A x ≠ .error .outOfBounds := by
  unfold matvecprod_array
  rw [idx_of_lt _ _ (by omega), idx_of_lt _ _ (by omega)]
  simp only [bind, Except.bind, repmat_reshape_row]
  exact bind_ne_outOfBounds _ _ (operator_mul_ne_outOfBounds _ _)
    (fun p _ => sum_operand_tree_ne_outOfBounds p 1 (Or.inl (by decide)))

/-- On an arena in which the root slot and the nodes before it have their composite left
operands below the root, the loop of `matvecprod` reads no node past the end of the arena: it
returns an arena of the same length, unless its fuel is spent. -/
theorem matvecprod_loop_bounds (root : Nat) :
    ∀ (fuel : Nat) (tree : List node) (flag : Bool), root < tree.length →
      (∀ k nd, k ≤ root → tree.get? k = some nd → ∀ j, nd.lhs = .composite j → j < root) →
      matvecprod_loop root fuel tree flag = .error .nontermination
        ∨ ∃ t2 f2, matvecprod_loop root fuel tree flag = .ok (t2, f2)
          ∧ t2.length = tree.length := by
  intro fuel
  induction fuel with
  | zero =>
    intro tree flag _ _
    exact Or.inl rfl
  | succ fuel ih =>
    intro tree flag hroot hinv
    have hget : tree.get? root = some tree[root] := by
      rw [List.get?_eq_getElem?, List.getElem?_eq_getElem hroot]
    have hnode : nodeAt tree root = .ok tree[root] := (nodeAt_eq_ok_iff _ _ _).mpr hget
    cases hl : (tree[root]).lhs with
    | composite j =>
      have hj : j < root := hinv root _ (Nat.le_refl _) hget j hl
      have hjl : j < tree.length := by omega
      have hgetj : tree.get? j = some tree[j] := by
        rw [List.get?_eq_getElem?, List.getElem?_eq_getElem hjl]
      have hnodej : nodeAt tree j = .ok tree[j] := (nodeAt_eq_ok_iff _ _ _).mpr hgetj
      have hlen : (tree.set root tree[j]).length = tree.length := List.length_set _ _ _
      have hinv2 : ∀ k nd, k ≤ root → (tree.set root tree[j]).get? k = some nd →
          ∀ j2, nd.lhs = .composite j2 → j2 < root := by
        intro k nd hk hg j2 hj2
        by_cases hkr : k = root
        · subst hkr
          rw [List.get?_eq_getElem?, List.getElem?_set_self hroot] at hg
          cases hg
          exact hinv j _ (by omega) hgetj j2 hj2
        · rw [List.get?_eq_getElem?, List.getElem?_set_ne (Ne.symm hkr),
            ← List.get?_eq_getElem?] at hg
          exact hinv k nd hk hg j2 hj2
      have step : matvecprod_loop root (fuel + 1) tree flag
          = matvecprod_loop root fuel (tree.set root tree[j])
              (xor flag (decide ((tree[j]).op.type = .TRANS_TYPE))) := by
        simp only [matvecprod_loop, hnode, bind, Except.bind, hl, hnodej]
      rw [step]
      rcases ih (tree.set root tree[j]) _ (by omega) hinv2 with h | ⟨t2, f2, h, hl2⟩
      · exact Or.inl h
      · exact Or.inr ⟨t2, f2, h, by omega⟩
    | invalid =>
      exact Or.inr ⟨tree, flag, by
        simp only [matvecprod_loop, hnode, bind, Except.bind, hl]; rfl, rfl⟩
    | value v =>
      exact Or.inr ⟨tree, flag, by
        simp only [matvecprod_loop, hnode, bind, Except.bind, hl]; rfl, rfl⟩
    | dense_array a =>
      exact Or.inr ⟨tree, flag, by
        simp only [matvecprod_loop, hnode, bind, Except.bind, hl]; rfl, rfl⟩
    | for_idx l =>
      exact Or.inr ⟨tree, flag, by
        simp only [matvecprod_loop, hnode, bind, Except.bind, hl]; rfl, rfl⟩
    | tuple xs =>
      exact Or.inr ⟨tree, flag, by
        simp only [matvecprod_loop, hnode, bind, Except.bind, hl]; rfl, rfl⟩

/-- On a well-formed tree `A` of rank 2 and an operand `x` of rank at least 1, `matvecprod`
reads no shape entry and no node that does not exist. -/
theorem matvecprod_tree_ne_outOfBounds (A : expression_tree) (x : Operand)
    (hA : A.shape_.length = 2) (hx : 1 ≤ x.shape.length) (hroot : A.root_ < A.tree_.length)
    (hwf : lhs_ordered_from 0 A.tree_ = true) :
    matvecprod_tree A x ≠ .error .outOfBounds := by
  obtain ⟨M, N, hs⟩ : ∃ M N, A.shape_ = [M, N] := by
    match hsh : A.shape_, hA with
    | [M, N], _ => exact ⟨M, N, rfl⟩
  obtain ⟨nd, _, hnd⟩ := rootNode_of_valid A hroot
  have hinv : ∀ k nd, k ≤ A.root_ → A.tree_.get? k = some nd →
      ∀ j, nd.lhs = .composite j → j < A.root_ := by
    intro k nd hk hg j hj
    have := lhs_ordered_from_get A.tree_ 0 k nd hwf hg
    simp only [node_lhs_below, hj, Nat.zero_add, decide_eq_true_eq] at this
    omega
  unfold matvecprod_tree matvecprod_tree_run
  simp only [hs, idx_cons_zero, idx_cons_succ, hnd, bind, Except.bind, pure, Except.pure]
  rcases matvecprod_loop_bounds A.root_ (A.tree_.length + 1) A.tree_
      (decide (nd.op.type = .TRANS_TYPE)) hroot hinv with h | ⟨t2, f2, h, hl2⟩
  · rw [h]
    intro hc
    cases hc
  · rw [h]
    cases f2 with
    | true =>
      simp only [if_true]
      cases hr : repmat x 1 M with
      | error e =>
        intro hc
        have := repmat_ne_outOfBounds x 1 M hx
        rw [hr] at this
        simp only [Except.error.injEq] at hc
        rw [hc] at this
        exact this rfl
      | ok r =>
        obtain ⟨nd1, _, hnd1⟩ := rootNode_of_valid
          (⟨t2, A.root_, A.context_, A.dtype_, [M, N]⟩ : expression_tree)
          (by show A.root_ < t2.length; omega)
        obtain ⟨tmp1, h1, _, hshape, _⟩ := setRootLhs_ok
          (expression_tree.ofTrees ⟨t2, A.root_, A.context_, A.dtype_, [M, N]⟩ r
            ⟨.BINARY_TYPE_FAMILY, .ELEMENT_PROD_TYPE⟩ A.context_ A.dtype_ [N, M])
          _ nd1.lhs (rootNode_ofTrees _ _ _ _ _ _)
        simp only [hnd1, h1]
        have hne := sum_operand_tree_ne_outOfBounds tmp1 0
          (Or.inr (by
            have : tmp1.shape_ = [N, M] := hshape
            simp [expression_tree.dim, this]))
        cases hsum : sum_operand (.tree tmp1) 0 with
        | error e =>
          rw [hsum] at hne
          intro hc
          simp only [Except.error.injEq] at hc
          rw [hc] at hne
          exact hne rfl
        | ok res =>
          intro hc
          cases hc
    | false =>
      simp only [Bool.false_eq_true, if_false, repmat_reshape_row]
      cases hp : operator_mul (.tree ⟨t2, A.root_, A.context_, A.dtype_, [M, N]⟩)
          (.tree (expression_tree.ofTreeLeaf (reshape x [1, N]) (.tuple [M, 1, 1, N])
            ⟨.BINARY_TYPE_FAMILY, .REPEAT_TYPE⟩ x.context x.dtype [M, N])) with
      | error e =>
        have := operator_mul_ne_outOfBounds
          (.tree ⟨t2, A.root_, A.context_, A.dtype_, [M, N]⟩)
          (.tree (expression_tree.ofTreeLeaf (reshape x [1, N]) (.tuple [M, 1, 1, N])
            ⟨.BINARY_TYPE_FAMILY, .REPEAT_TYPE⟩ x.context x.dtype [M, N]))
        rw [hp] at this
        exact this
      | ok p =>
        have hne := sum_operand_tree_ne_outOfBounds p 1 (Or.inl (by decide))
        dsimp only
        cases hsum : sum_operand (.tree p) 1 with
        | error e =>
          rw [hsum] at hne
          exact hne
        | ok res =>
          intro hc
          cases hc

theorem lhs_ordered_from_concat (l : List node) (nd : node) :
    ∀ i, lhs_ordered_from i (l ++ [nd])
      = (lhs_ordered_from i l && node_lhs_below nd (i + l.length)) := by
  induction l with
  | nil =>
    intro i
    simp [lhs_ordered_from]
  | cons a rest ih =>
    intro i
    show (node_lhs_below a i && lhs_ordered_from (i + 1) (rest ++ [nd])) = _
    rw [ih, show i + 1 + rest.length = i + (a :: rest).length by
      simp only [List.length_cons]; omega]
    simp only [lhs_ordered_from, Bool.and_assoc]

/-- The transpose of a well-formed rank-2 operand is a well-formed tree of rank 2. -/
theorem trans_wellFormed (y : Operand) (a b : Int) (hy : y.shape = [a, b])
    (hwf : y.wellFormed) :
    (trans y).shape_ = [b, a] ∧ (trans y).root_ < (trans y).tree_.length
      ∧ lhs_ordered_from 0 (trans y).tree_ = true := by
  cases y with
  | arr u =>
    rw [trans_arr_eq u a b hy]
    exact ⟨rfl, Nat.zero_lt_one, rfl⟩
  | tree u =>
    rw [trans_tree_eq u a b hy]
    refine ⟨rfl, by simp, ?_⟩
    simp only [lhs_ordered_from_concat, hwf.2, Bool.true_and, node_lhs_below, Nat.zero_add,
      decide_eq_true_eq]
    exact hwf.1

theorem trans_shape_length (x : Operand) (h : 1 ≤ x.shape.length) :
    1 ≤ (Operand.tree (trans x)).shape.length := by
  show 1 ≤ (trans x).shape_.length
  rw [trans_shape]
  simp only [flip]
  have : ∀ (l : List Nat) (s : shape_t),
      (l.foldl (fun res i => res.set i (x.shape.getD ((i + 1) % x.shape.length) 0)) s).length
        = s.length := by
    intro l
    induction l with
    | nil => intro s; rfl
    | cons i rest ih =>
      intro s
      simp only [List.foldl_cons, ih, List.length_set]
  rw [this]
  exact h

/-- The call `trans(matvecprod(trans(y), trans(x)))` of `dot` reads no shape entry and no node
that does not exist, for a well-formed `y` of rank 2 and an `x` of rank at least 1. -/
theorem trans_matvecprod_ne_outOfBounds (x y : Operand) (a b : Int) (hy : y.shape = [a, b])
    (hx : 1 ≤ x.shape.length) (hwf : y.wellFormed) :
    (matvecprod (.tree (trans y)) (.tree (trans x)) >>= fun r =>
      (pure (trans (.tree r)) : Except Error expression_tree)) ≠ .error .outOfBounds := by
  obtain ⟨hs, hroot, hord⟩ := trans_wellFormed y a b hy hwf
  refine bind_ne_outOfBounds _ _ ?_ (fun _ _ hc => by cases hc)
  exact matvecprod_tree_ne_outOfBounds (trans y) (.tree (trans x)) (by rw [hs]; rfl)
    (trans_shape_length x hx) hroot hord

/-- `matvecprod(x, y)` reads no shape entry and no node that does not exist, for a well-formed
`x` of rank 2 and a `y` of rank at least 1. -/
theorem matvecprod_ne_outOfBounds (x y : Operand) (hx : x.shape.length = 2)
    (hy : 1 ≤ y.shape.length) (hwf : x.wellFormed) :
    matvecprod x y ≠ .error .outOfBounds := by
  cases x with
  | arr u => exact matvecprod_array_ne_outOfBounds u y hx
  | tree u => exact matvecprod_tree_ne_outOfBounds u y hx hy hwf.1 hwf.2

theorem Operand.rootValid_of_wellFormed (x : Operand) (h : x.wellFormed) : x.rootValid := by
  cases x with
  | arr u => trivial
  | tree u => exact h.1


theorem mul_then_sum_ne_outOfBounds (x y : Operand) :
    (operator_mul x y >>= fun p => sum_operand (.tree p) (-1)) ≠ .error .outOfBounds :=
  bind_ne_outOfBounds _ _ (operator_mul_ne_outOfBounds _ _)
    (fun p _ => sum_operand_tree_ne_outOfBounds p (-1) (Or.inl (by decide)))

theorem mul_then_reshape_ne_outOfBounds (x y : Operand) (sh : shape_t) :
    (operator_mul x y >>= fun p =>
      (pure (reshape (.tree p) sh) : Except Error expression_tree)) ≠ .error .outOfBounds :=
  bind_ne_outOfBounds _ _ (operator_mul_ne_outOfBounds _ _) (fun _ _ hc => by cases hc)

/-- Two rank-1 operands: `dot` reads no shape entry that does not exist. -/
theorem DEFINE_DOT_bounds_vec_vec (x y : Operand) (a c : Int) (hx : x.shape = [a])
    (hy : y.shape = [c]) : DEFINE_DOT x y ≠ .error .outOfBounds := by
  have n1 : ((0 + 1 : Nat) : Int) = 1 := by decide
  have n12 : ¬ (1 : Int) = 2 := by decide
  simp only [DEFINE_DOT, Operand.dim_eq, hx, hy, shape_max_single, and_then,
    or_else, eq_at, idx_cons_zero, idx_cons_succ, idx_nil, bind, Except.bind, pure, Except.pure,
    List.length_cons, List.length_nil, n1, n12, decide_True, decide_False, if_true,
    if_false, Bool.false_eq_true, and_true, true_and, and_false, false_and, and_self]
  by_cases h1 : a = 1 ∨ c = 1
  · simp only [if_pos h1]
    exact operator_mul_ne_outOfBounds x y
  · simp only [if_neg h1]
    by_cases ha : a = 0
    · simp only [ha, decide_True, if_true]
      intro hc
      cases hc
    · simp only [ha, decide_False, if_false, Bool.false_eq_true]
      exact mul_then_sum_ne_outOfBounds x y

/-- A rank-1 and a well-formed rank-2 operand: `dot` reads no shape entry that does not
exist. -/
theorem DEFINE_DOT_bounds_vec_mat (x y : Operand) (a c d : Int) (hx : x.shape = [a])
    (hy : y.shape = [c, d]) (hwy : y.wellFormed) : DEFINE_DOT x y ≠ .error .outOfBounds := by
  have n1 : ((0 + 1 : Nat) : Int) = 1 := by decide
  have n2 : ((0 + 1 + 1 : Nat) : Int) = 2 := by decide
  have n12 : ¬ (1 : Int) = 2 := by decide
  have n21 : ¬ (2 : Int) = 1 := by decide
  simp only [DEFINE_DOT, Operand.dim_eq, hx, hy, shape_max_single, shape_max_pair, and_then,
    or_else, eq_at, idx_cons_zero, idx_cons_succ, idx_nil, bind, Except.bind, pure, Except.pure,
    List.length_cons, List.length_nil, n1, n2, n12, n21, decide_True, decide_False, if_true,
    if_false, Bool.false_eq_true, and_true, true_and, and_false, false_and, and_self]
  by_cases h1 : a = 1 ∨ Max.max c d = 1
  · simp only [if_pos h1]
    exact operator_mul_ne_outOfBounds x y
  · simp only [if_neg h1]
    by_cases ha : a = 0
    · simp only [ha, decide_True, if_true]
      intro hc
      cases hc
    · simp only [ha, decide_False, if_false, Bool.false_eq_true]
      by_cases hd : d = 0
      · simp only [hd, decide_True, if_true]
        intro hc
        cases hc
      · simp only [hd, decide_False, if_false, Bool.false_eq_true]
        by_cases ha1 : a = 1
        · simp only [ha1, decide_True, if_true]
          exact mul_then_reshape_ne_outOfBounds x y _
        · simp only [ha1, decide_False, if_false, Bool.false_eq_true]
          exact trans_matvecprod_ne_outOfBounds x y c d hy (by rw [hx]; simp) hwy

/-- A well-formed rank-2 and a rank-1 operand: `dot` reads `y.shape()[1]`, which does not exist,
exactly when its second test holds, that is when `x` has no column and neither operand has
greatest dimension 1. -/
theorem DEFINE_DOT_bounds_mat_vec (x y : Operand) (a b c : Int) (hx : x.shape = [a, b])
    (hy : y.shape = [c]) (hwx : x.wellFormed) :
    DEFINE_DOT x y = .error .outOfBounds ↔ (b = 0 ∧ Max.max a b ≠ 1 ∧ c ≠ 1) := by
  have n1 : ((0 + 1 : Nat) : Int) = 1 := by decide
  have n2 : ((0 + 1 + 1 : Nat) : Int) = 2 := by decide
  have n12 : ¬ (1 : Int) = 2 := by decide
  have n21 : ¬ (2 : Int) = 1 := by decide
  simp only [DEFINE_DOT, Operand.dim_eq, hx, hy, shape_max_single, shape_max_pair, and_then,
    or_else, eq_at, idx_cons_zero, idx_cons_succ, idx_nil, bind, Except.bind, pure, Except.pure,
    List.length_cons, List.length_nil, n1, n2, n12, n21, decide_True, decide_False, if_true,
    if_false, Bool.false_eq_true, and_true, true_and, and_false, false_and, and_self]
  by_cases h1 : Max.max a b = 1 ∨ c = 1
  · simp only [if_pos h1]
    refine ⟨fun h => absurd h (operator_mul_ne_outOfBounds x y), fun h => ?_⟩
    exact absurd h1 (by
      push_neg
      exact ⟨h.2.1, h.2.2⟩)
  · simp only [if_neg h1]
    by_cases hb : b = 0
    · simp only [hb, decide_True, if_true, true_iff, true_and]
      rw [hb] at h1
      push_neg at h1
      exact h1
    · simp only [hb, decide_False, if_false, Bool.false_eq_true, false_and, iff_false]
      by_cases ha : a = 0
      · simp only [ha, decide_True, if_true]
        intro hc
        cases hc
      · simp only [ha, decide_False, if_false, Bool.false_eq_true]
        by_cases ha1 : a = 1 <;> by_cases hc1 : c = 1
        · simp only [ha1, hc1, decide_True, if_true]
          exact mul_then_reshape_ne_outOfBounds x y _
        · simp only [ha1, hc1, decide_True, decide_False, if_true, if_false,
            Bool.false_eq_true]
          exact mul_then_sum_ne_outOfBounds x y
        · simp only [ha1, hc1, decide_True, decide_False, if_true, if_false,
            Bool.false_eq_true]
          exact mul_then_reshape_ne_outOfBounds x y _
        · simp only [ha1, hc1, decide_False, if_false, Bool.false_eq_true]
          exact matvecprod_ne_outOfBounds x y (by rw [hx]; rfl) (by rw [hy]; simp) hwx

/-- Two well-formed rank-2 operands: `dot` reads no shape entry that does not exist. -/
theorem DEFINE_DOT_bounds_mat_mat (x y : Operand) (a b c d : Int) (hx : x.shape = [a, b])
    (hy : y.shape = [c, d]) (hwx : x.wellFormed) (hwy : y.wellFormed) :
    DEFINE_DOT x y ≠ .error .outOfBounds := by
  have n2 : ((0 + 1 + 1 : Nat) : Int) = 2 := by decide
  have n21 : ¬ (2 : Int) = 1 := by decide
  simp only [DEFINE_DOT, Operand.dim_eq, hx, hy, shape_max_pair, and_then,
    or_else, eq_at, idx_cons_zero, idx_cons_succ, idx_nil, bind, Except.bind, pure, Except.pure,
    List.length_cons, List.length_nil, n2, n21, decide_True, decide_False, if_true,
    if_false, Bool.false_eq_true, and_true, true_and, and_false, false_and, and_self]
  by_cases h1 : Max.max a b = 1 ∨ Max.max c d = 1
  · simp only [if_pos h1]
    exact operator_mul_ne_outOfBounds x y
  · simp only [if_neg h1]
    by_cases hb : b = 0
    · simp only [hb, decide_True, if_true]
      intro hc
      cases hc
    · simp only [hb, decide_False, if_false, Bool.false_eq_true]
      by_cases ha : a = 0
      · simp only [ha, decide_True, if_true]
        intro hc
        cases hc
      · simp only [ha, decide_False, if_false, Bool.false_eq_true]
        by_cases hd : d = 0
        · simp only [hd, decide_True, if_true]
          intro hc
          cases hc
        · simp only [hd, decide_False, if_false, Bool.false_eq_true]
          by_cases ha1 : a = 1
          · simp only [ha1, decide_True, if_true]
            by_cases hd1 : d = 1
            · simp only [hd1, decide_True, if_true]
              exact mul_then_sum_ne_outOfBounds x (.tree (trans y))
            · simp only [hd1, decide_False, if_false, Bool.false_eq_true]
              by_cases hd2 : d = 2
              · simp only [hd2, decide_True, if_true]
                exact trans_matvecprod_ne_outOfBounds x y c 2 (by rw [hy, hd2])
                  (by rw [hx]; simp) hwy
              · simp only [hd2, decide_False, if_false, Bool.false_eq_true]
                by_cases hb1 : b = 1
                · simp only [hb1, decide_True, if_true]
                  by_cases hc1 : c = 1
                  · simp only [hc1, decide_True, if_true]
                    exact operator_mul_ne_outOfBounds x y
                  · simp only [hc1, decide_False, if_false, Bool.false_eq_true]
                    obtain ⟨t, _, ht, _⟩ := matmatprod_root x y a b c d hx hy
                      (Operand.rootValid_of_wellFormed x hwx)
                      (Operand.rootValid_of_wellFormed y hwy)
                    rw [ht]
                    intro hc
                    cases hc
                · simp only [hb1, decide_False, if_false, Bool.false_eq_true]
                  obtain ⟨t, _, ht, _⟩ := matmatprod_root x y a b c d hx hy
                    (Operand.rootValid_of_wellFormed x hwx)
                    (Operand.rootValid_of_wellFormed y hwy)
                  rw [ht]
                  intro hc
                  cases hc
          · simp only [ha1, decide_False, if_false, Bool.false_eq_true]
            by_cases hb1 : b = 1
            · simp only [hb1, decide_True, if_true]
              by_cases hc1 : c = 1
              · simp only [hc1, decide_True, if_true]
                exact operator_mul_ne_outOfBounds x y
              · simp only [hc1, decide_False, if_false, Bool.false_eq_true]
                obtain ⟨t, _, ht, _⟩ := matmatprod_root x y a b c d hx hy
                  (Operand.rootValid_of_wellFormed x hwx)
                  (Operand.rootValid_of_wellFormed y hwy)
                rw [ht]
                intro hc
                cases hc
            · simp only [hb1, decide_False, if_false, Bool.false_eq_true]
              obtain ⟨t, _, ht, _⟩ := matmatprod_root x y a b c d hx hy
                (Operand.rootValid_of_wellFormed x hwx)
                (Operand.rootValid_of_wellFormed y hwy)
              rw [ht]
              intro hc
              cases hc

theorem shape_of_length_one (s : shape_t) (h : s.length = 1) : ∃ a, s = [a] := by
  match s, h with
  | [a], _ => exact ⟨a, rfl⟩

theorem shape_of_length_two (s : shape_t) (h : s.length = 2) : ∃ a b, s = [a, b] := by
  match s, h with
  | [a, b], _ => exact ⟨a, b, rfl⟩

/-- C32: for well-formed operands `x` and `y` of rank 1 or 2, `dot(x, y)` reads a shape entry
that does not exist if and only if `x` has rank 2 and no column (`x.shape()[1] == 0`), `y` has
rank 1 and neither operand has greatest dimension 1: the second test of `dot` then builds
`zeros(x.shape()[0], y.shape()[1], ...)` and reads `y.shape()[1]`.  On every other path the
entries read lie below the rank of the operand. -/
theorem dot_reads_past_rank_iff (x y : Operand) (hx : x.dim = 1 ∨ x.dim = 2)
    (hy : y.dim = 1 ∨ y.dim = 2) (hwx : x.wellFormed) (hwy : y.wellFormed) :
    DEFINE_DOT x y = .error .outOfBounds
      ↔ (x.dim = 2 ∧ idx x.shape 1 = .ok 0 ∧ y.dim = 1 ∧ shape_max x.shape ≠ 1
          ∧ shape_max y.shape ≠ 1) := by
  simp only [Operand.dim_eq] at hx hy ⊢
  rcases hx with hx | hx <;> rcases hy with hy | hy
  · obtain ⟨a, hxs⟩ := shape_of_length_one x.shape (by omega)
    obtain ⟨c, hys⟩ := shape_of_length_one y.shape (by omega)
    refine ⟨fun h => absurd h (DEFINE_DOT_bounds_vec_vec x y a c hxs hys), fun h => ?_⟩
    omega
  · obtain ⟨a, hxs⟩ := shape_of_length_one x.shape (by omega)
    obtain ⟨c, d, hys⟩ := shape_of_length_two y.shape (by omega)
    refine ⟨fun h => absurd h (DEFINE_DOT_bounds_vec_mat x y a c d hxs hys hwy), fun h => ?_⟩
    omega
  · obtain ⟨a, b, hxs⟩ := shape_of_length_two x.shape (by omega)
    obtain ⟨c, hys⟩ := shape_of_length_one y.shape (by omega)
    rw [DEFINE_DOT_bounds_mat_vec x y a b c hxs hys hwx, hxs, hys]
    simp only [idx_cons_succ, idx_cons_zero, Except.ok.injEq, shape_max_pair, shape_max_single,
      List.length_cons, List.length_nil]
    constructor
    · rintro ⟨h1, h2, h3⟩
      exact ⟨by decide, h1, by decide, h2, h3⟩
    · rintro ⟨_, h1, _, h2, h3⟩
      exact ⟨h1, h2, h3⟩
  · obtain ⟨a, b, hxs⟩ := shape_of_length_two x.shape (by omega)
    obtain ⟨c, d, hys⟩ := shape_of_length_two y.shape (by omega)
    refine ⟨fun h => absurd h (DEFINE_DOT_bounds_mat_mat x y a b c d hxs hys hwx hwy),
      fun h => ?_⟩
    omega

/-- Witness for C32: `x` a fresh 2-by-0 array and `y` a fresh array of length 3. -/
theorem dot_reads_past_rank_iff_witness :
    ((Operand.arr (array_base.new2 2 0 .INT_TYPE 0 0)).dim = 1
        ∨ (Operand.arr (array_base.new2 2 0 .INT_TYPE 0 0)).dim = 2)
      ∧ ((Operand.arr (array_base.new1 3 .INT_TYPE 0 1)).dim = 1
        ∨ (Operand.arr (array_base.new1 3 .INT_TYPE 0 1)).dim = 2)
      ∧ dot (array_base.new2 2 0 .INT_TYPE 0 0) (array_base.new1 3 .INT_TYPE 0 1)
        = .error .outOfBounds :=
  ⟨by decide, by decide,
    (dot_reads_past_rank_iff (.arr (array_base.new2 2 0 .INT_TYPE 0 0))
      (.arr (array_base.new1 3 .INT_TYPE 0 1)) (by decide) (by decide) trivial trivial).mpr
      (by decide)⟩

end Isaac
